import Mathlib

/-!
Verification of the FAT12/16 virtual-disk engine of this repository.

The engine lives in the server-side image builder (`createBlankImage`,
`parseGeometry`, `writeFileToImage`, `extractFilesFromImage`), the
browser-side workspace code (`parseFATGeometry`, `readFATFile`,
`writeFATEntry`, `writeFATFile`), the transcript reader
(`readFATFileByChain`), the sync fingerprint (`diskFingerprint`) and the
live-sync endpoint.

Modelling conventions (shallow embedding of the JavaScript source):

* A disk image (`Buffer` / `Uint8Array`) is a length plus a byte
  function.  An in-bounds read `img[i]` yields the stored byte
  (`Image.getD`); an out-of-bounds read yields `undefined`, which
  behaves as `0` in bitwise/arithmetic contexts (`Image.getD` returns 0
  there) but is distinguishable in `===` comparisons, which we model
  with `Image.get?` (`none` = out of bounds / `undefined`).
* An assignment `img[i] = v` stores `v % 256` in bounds and is a no-op
  out of bounds (`Image.setB`), matching `Buffer`/`Uint8Array` index
  assignment.
* `Buffer.readUInt16LE` / `readUInt32LE` throw a `RangeError` when the
  read crosses the end of the buffer; they are modelled as `Option`
  (`none` = exception).
* Bit operations of the source are translated arithmetically:
  `a | (b << 8)` on bytes is `a + 256 * b`, `w & 0xFFF` is `w % 4096`,
  `w >> 4` is `w / 16`, `w & 0xF000` is `w / 4096 * 4096` (all operands
  involved are below 2^16), `x & 0xFF` is `x % 256`.
* JavaScript 32-bit results (`Math.imul`, `^`) are kept as naturals
  below 2^32; signed and unsigned representations agree up to the
  mod-2^32 bijection, which preserves the equalities the claims state.
-/

set_option autoImplicit false

/-- Disk image: a fixed-length mutable byte buffer (JS `Buffer` /
`Uint8Array`), as a length together with a byte function. -/
structure Image where
  len : Nat
  byte : Nat → Nat

namespace Image

/-- In-bounds read of `img[i]` as used in arithmetic / bitwise contexts:
out of bounds gives `undefined`, which coerces to 0 there. -/
def getD (img : Image) (i : Nat) : Nat :=
  if i < img.len then img.byte i % 256 else 0

/-- Raw read of `img[i]` for `===` comparisons: `none` models
`undefined` (out of bounds), which is not `===` to any byte value. -/
def get? (img : Image) (i : Nat) : Option Nat :=
  if i < img.len then some (img.byte i % 256) else none

/-- Byte store `img[i] = v`: masks to a byte in bounds, no-op out of
bounds (JS typed-array index assignment). -/
def setB (img : Image) (i v : Nat) : Image :=
  if i < img.len then ⟨img.len, fun j => if j = i then v % 256 else img.byte j⟩ else img

/-- Node `Buffer.readUInt16LE`: throws (modelled `none`) when the two
bytes are not fully inside the buffer. -/
def readU16 (img : Image) (off : Nat) : Option Nat :=
  if off + 2 ≤ img.len then some (img.getD off + 256 * img.getD (off + 1)) else none

/-- Node `Buffer.readUInt32LE`: throws (modelled `none`) when the four
bytes are not fully inside the buffer. -/
def readU32 (img : Image) (off : Nat) : Option Nat :=
  if off + 4 ≤ img.len then
    some (img.getD off + 256 * img.getD (off + 1) + 65536 * img.getD (off + 2)
      + 16777216 * img.getD (off + 3))
  else none

/-- Non-throwing little-endian 32-bit read built from single-byte reads,
`img[o] | img[o+1]<<8 | img[o+2]<<16 | img[o+3]<<24` reinterpreted as an
unsigned number (used where the source result is compared with `> 0` or
is known below 2^31). -/
def getW32 (img : Image) (off : Nat) : Nat :=
  img.getD off + 256 * img.getD (off + 1) + 65536 * img.getD (off + 2)
    + 16777216 * img.getD (off + 3)

/-- Little-endian 16-bit read `img[o] | (img[o+1] << 8)`. -/
def getW16 (img : Image) (off : Nat) : Nat :=
  img.getD off + 256 * img.getD (off + 1)

/-- Little-endian 16-bit store (`v & 0xFF` then `(v >> 8) & 0xFF`). -/
def setU16 (img : Image) (off v : Nat) : Image :=
  (img.setB off (v % 256)).setB (off + 1) (v / 256 % 256)

/-- Little-endian 32-bit store. -/
def setU32 (img : Image) (off v : Nat) : Image :=
  ((((img.setB off (v % 256)).setB (off + 1) (v / 256 % 256)).setB
    (off + 2) (v / 65536 % 256)).setB (off + 3) (v / 16777216 % 256))

/-- Store a list of byte values at consecutive offsets (used both for
`Buffer.copy` into the image, which truncates at the target end, and for
string copies). -/
def setBytes : Image → Nat → List Nat → Image
  | img, _, [] => img
  | img, off, b :: bs => setBytes (img.setB off b) (off + 1) bs

end Image

/-- Interpret a natural below 2^32 as a JS signed 32-bit integer
(needed for the browser-side `|`-built 32-bit reads, whose result is
negative when bit 31 is set). -/
def asInt32 (n : Nat) : Int :=
  if n % 4294967296 < 2147483648 then (n % 4294967296 : Int)
  else (n % 4294967296 : Int) - 4294967296

/-- Parsed FAT geometry descriptor (`parseGeometry` /
`parseFATGeometry` result object). `totalSectors` and `totalClusters`
are integers because the browser-side reads can produce negative values
on corrupt headers. -/
structure Geometry where
  partOffset : Nat
  bytesPerSector : Nat
  sectorsPerCluster : Nat
  bytesPerCluster : Nat
  reservedSectors : Nat
  numFATs : Nat
  rootDirEntries : Nat
  totalSectors : Int
  sectorsPerFAT : Nat
  fatStart : Nat
  fat2Start : Nat
  rootDirStart : Nat
  dataStart : Nat
  totalClusters : Int
  fatType : Nat
  deriving DecidableEq, Repr

/-- The partition type bytes accepted by both geometry parsers
(`[0x01, 0x04, 0x06, 0x0B, 0x0C, 0x0E].includes(partType)`). -/
def fatPartType (v : Nat) : Bool :=
  v = 0x01 || v = 0x04 || v = 0x06 || v = 0x0B || v = 0x0C || v = 0x0E

/-- Partition-table scan of the server-side `parseGeometry`: the four
16-byte entries at offset 446; the first entry with a known FAT type and
a positive 32-bit LBA yields `lba * 512`, otherwise 0.  Runs only when
`img.length > 512` and the 0x55AA signature is present, so all reads are
in bounds.  The fuel argument counts the remaining entries (4 down). -/
def scanPartsAux (img : Image) : Nat → Nat → Nat
  | _, 0 => 0
  | i, fuel + 1 =>
    let off := 446 + i * 16
    if fatPartType (img.getD (off + 4)) then
      let lba := img.getW32 (off + 8)
      if 0 < lba then lba * 512 else scanPartsAux img (i + 1) fuel
    else scanPartsAux img (i + 1) fuel

/-- Browser-side partition scan of `parseFATGeometry`: identical offsets
and type set, but the LBA is assembled with `|`/`<<` and is therefore a
signed 32-bit value; only a strictly positive LBA is accepted. -/
def scanPartsBAux (img : Image) : Nat → Nat → Nat
  | _, 0 => 0
  | i, fuel + 1 =>
    let off := 446 + i * 16
    if fatPartType (img.getD (off + 4)) then
      let lba := asInt32 (img.getW32 (off + 8))
      if 0 < lba then (lba * 512).toNat else scanPartsBAux img (i + 1) fuel
    else scanPartsBAux img (i + 1) fuel

/-- Whether the MBR signature check of both parsers fires:
`img.length > 512 && img[510] === 0x55 && img[511] === 0xAA`. -/
def hasMBR (img : Image) : Prop :=
  512 < img.len ∧ img.get? 510 = some 0x55 ∧ img.get? 511 = some 0xAA

instance (img : Image) : Decidable (hasMBR img) := by
  unfold hasMBR; infer_instance

/-- Shared tail of both geometry parsers: given the BPB field values,
either reject (`none`, the "no geometry" result) or build the full
`Geometry` record. -/
def mkGeometry (partOffset bytesPerSector sectorsPerCluster reservedSectors numFATs
    rootDirEntries : Nat) (totalSectors : Int) (sectorsPerFAT : Nat) : Option Geometry :=
  if bytesPerSector < 128 ∨ 4096 < bytesPerSector then none
  else if sectorsPerCluster = 0 ∨ numFATs = 0 ∨ sectorsPerFAT = 0 then none
  else
    let fatStart := partOffset + reservedSectors * bytesPerSector
    let fat2Start := fatStart + sectorsPerFAT * bytesPerSector
    let rootDirStart := partOffset + (reservedSectors + numFATs * sectorsPerFAT) * bytesPerSector
    let rootDirSectors := (rootDirEntries * 32 + (bytesPerSector - 1)) / bytesPerSector
    let dataStart := rootDirStart + rootDirSectors * bytesPerSector
    let dataSectors : Int :=
      totalSectors - reservedSectors - numFATs * sectorsPerFAT - rootDirSectors
    let totalClusters : Int := Int.fdiv dataSectors sectorsPerCluster
    let fatType : Nat := if totalClusters < 4085 then 12 else 16
    some
      { partOffset := partOffset
        bytesPerSector := bytesPerSector
        sectorsPerCluster := sectorsPerCluster
        bytesPerCluster := bytesPerSector * sectorsPerCluster
        reservedSectors := reservedSectors
        numFATs := numFATs
        rootDirEntries := rootDirEntries
        totalSectors := totalSectors
        sectorsPerFAT := sectorsPerFAT
        fatStart := fatStart
        fat2Start := fat2Start
        rootDirStart := rootDirStart
        dataStart := dataStart
        totalClusters := totalClusters
        fatType := fatType }

/-- Server-side `parseGeometry` (image builder module).  The outer
`Option` models a thrown `RangeError` (`none` = exception, possible when
a partition entry points the BPB reads out of bounds); `some none` is
the "no geometry" result; `some (some geo)` is success. -/
def parseGeometry (img : Image) : Option (Option Geometry) :=
  let partOffset := if hasMBR img then scanPartsAux img 0 4 else 0
  let bpb := partOffset
  match img.readU16 (bpb + 11), img.readU16 (bpb + 14), img.readU16 (bpb + 17),
      img.readU16 (bpb + 19), img.readU16 (bpb + 22) with
  | some bytesPerSector, some reservedSectors, some rootDirEntries,
      some totalSectors16, some sectorsPerFAT =>
    let sectorsPerCluster := img.getD (bpb + 13)
    let numFATs := img.getD (bpb + 16)
    match (if totalSectors16 = 0 then img.readU32 (bpb + 32) else some totalSectors16) with
    | some totalSectors =>
      some (mkGeometry partOffset bytesPerSector sectorsPerCluster reservedSectors numFATs
        rootDirEntries (totalSectors : Int) sectorsPerFAT)
    | none => none
  | _, _, _, _, _ => none

/-- Browser-side `parseFATGeometry` (workspace module): all reads are
plain index reads (`undefined` → 0 under `|`), so it never throws; the
32-bit total-sector count is a signed value.  The `=== 0` checks on
`sectorsPerCluster` and `numFATs` compare the possibly-`undefined` raw
read, which we reproduce with `get?`; out-of-bounds reads at those
offsets force the in-range `sectorsPerFAT` word reads to 0, so the
rejection outcome matches `mkGeometry` on the defaulted values (proved
in `parseFATGeometry_none_iff`). -/
def parseFATGeometry (img : Image) : Option Geometry :=
  let partOffset := if hasMBR img then scanPartsBAux img 0 4 else 0
  let bpb := partOffset
  let bytesPerSector := img.getW16 (bpb + 11)
  let sectorsPerCluster? := img.get? (bpb + 13)
  let reservedSectors := img.getW16 (bpb + 14)
  let numFATs? := img.get? (bpb + 16)
  let rootDirEntries := img.getW16 (bpb + 17)
  let totalSectors16 := img.getW16 (bpb + 19)
  let sectorsPerFAT := img.getW16 (bpb + 22)
  let totalSectors : Int :=
    if totalSectors16 = 0 then asInt32 (img.getW32 (bpb + 32)) else totalSectors16
  if bytesPerSector < 128 ∨ 4096 < bytesPerSector then none
  else if sectorsPerCluster? = some 0 ∨ numFATs? = some 0 then none
  else if sectorsPerFAT = 0 then none
  else
    mkGeometry partOffset bytesPerSector (sectorsPerCluster?.getD 0) reservedSectors
      (numFATs?.getD 0) rootDirEntries totalSectors sectorsPerFAT

/-- FAT end-of-chain test (`val >= 0xFF8` for FAT12, `>= 0xFFF8` for
FAT16); identical in the server and browser modules. -/
def isEOF (geo : Geometry) (val : Nat) : Prop :=
  if geo.fatType = 12 then 0xFF8 ≤ val else 0xFFF8 ≤ val

instance (geo : Geometry) (val : Nat) : Decidable (isEOF geo val) := by
  unfold isEOF; infer_instance

/-- Read a FAT entry from FAT #1 (identical in the server and browser
modules).  FAT12 entries are 12 bits packed two per three bytes; FAT16
entries are two little-endian bytes. -/
def readFATEntry (img : Image) (geo : Geometry) (cluster : Nat) : Nat :=
  if geo.fatType = 12 then
    let bo := cluster * 3 / 2
    let w := img.getD (geo.fatStart + bo) + 256 * img.getD (geo.fatStart + bo + 1)
    if cluster % 2 = 1 then w / 16 else w % 4096
  else
    let bo := cluster * 2
    img.getD (geo.fatStart + bo) + 256 * img.getD (geo.fatStart + bo + 1)

/-- One base-address pass of `writeFATEntry` (the body of its
`for (const base of [geo.fatStart, geo.fat2Start])` loop). -/
def writeFATEntry1 (img : Image) (geo : Geometry) (base cluster val : Nat) : Image :=
  if geo.fatType = 12 then
    let bo := cluster * 3 / 2
    let w := img.getD (base + bo) + 256 * img.getD (base + bo + 1)
    let w2 := if cluster % 2 = 1 then w % 16 + val % 4096 * 16
              else w / 4096 * 4096 + val % 4096
    (img.setB (base + bo) (w2 % 256)).setB (base + bo + 1) (w2 / 256 % 256)
  else
    let bo := cluster * 2
    (img.setB (base + bo) (val % 256)).setB (base + bo + 1) (val / 256 % 256)

/-- Write a FAT entry to both FAT copies, FAT #1 then FAT #2 (identical
in the server and browser modules). -/
def writeFATEntry (img : Image) (geo : Geometry) (cluster val : Nat) : Image :=
  writeFATEntry1 (writeFATEntry1 img geo geo.fatStart cluster val) geo geo.fat2Start cluster val

/-! ## calcGeometry (image builder) -/

/-- Result of `calcGeometry`. -/
structure CalcGeo where
  sectorsPerCluster : Nat
  sectorsPerFAT : Nat
  totalClusters : Int
  deriving DecidableEq, Repr

/-- Data-cluster count for a candidate layout:
`Math.floor((partitionSectors - RESERVED_SECTORS - NUM_FATS*spf - ROOT_DIR_SECTORS) / spc)`
with `RESERVED_SECTORS = 1`, `NUM_FATS = 2`, `ROOT_DIR_SECTORS = 32`. -/
def calcClusters (partitionSectors : Int) (spc spf : Nat) : Int :=
  Int.fdiv (partitionSectors - 1 - 2 * spf - 32) spc

/-- The iterative sectors-per-FAT estimate of `calcGeometry` (the inner
`for (let iter = 0; iter < 10; iter++)` loop), with the remaining
iteration count as first argument. -/
def spfIter (partitionSectors : Int) (spc : Nat) : Nat → Nat → Nat
  | 0, spf => spf
  | fuel + 1, spf =>
    let dataSectors : Int := partitionSectors - 1 - 2 * spf - 32
    if dataSectors ≤ 0 then spf
    else
      let clusters : Int := Int.fdiv dataSectors spc
      let needed : Nat := (((clusters + 2) * 2 + 511).fdiv 512).toNat
      if needed = spf then spf else spfIter partitionSectors spc fuel needed

/-- One candidate test of `calcGeometry`: run the sectors-per-FAT
estimate, recompute the cluster count, and accept when it lies in the
FAT16 range `[4085, 65524]`. -/
def tryCand (partitionSectors : Int) (spc : Nat) : Option CalcGeo :=
  let spf := spfIter partitionSectors spc 10 1
  let clusters := calcClusters partitionSectors spc spf
  if 4085 ≤ clusters ∧ clusters ≤ 65524 then some ⟨spc, spf, clusters⟩ else none

/-- `calcGeometry`: first candidate in `{1,2,4,8,16,32,64}` sectors per
cluster whose cluster count lands in FAT16 range; fallback
`{spc := 4, spf := 64, clusters := 0}`. -/
def calcGeometry (partitionSectors : Int) : CalcGeo :=
  (([1, 2, 4, 8, 16, 32, 64].findSome? (tryCand partitionSectors)).getD ⟨4, 64, 0⟩)

/-! ## createBlankImage (image builder) -/

/-- Byte codes of an ASCII string (for the fixed label/OEM strings the
builder copies into the image). -/
def strBytes (s : String) : List Nat := s.data.map Char.toNat

/-- The server-side `createBlankImage`.  `serial` stands for the
`Date.now() & 0xFFFFFFFF` volume serial (an environment input; no claim
depends on it).  Meaningful for `sizeMB ≥ 1`; for `sizeMB = 0` the
source throws on its first out-of-range `Buffer` write, while this model
uses truncating arithmetic (all claims assume `1 ≤ sizeMB`). -/
def createBlankImage (sizeMB : Nat) (serial : Nat) : Image :=
  let totalBytes := sizeMB * 1048576
  let totalSectors := totalBytes / 512
  let partitionSectors := totalSectors - 63
  let geo := calcGeometry (partitionSectors : Int)
  let img : Image := ⟨totalBytes, fun _ => 0⟩
  -- MBR partition entry 1 at offset 446
  let img := (((((((img.setB 446 0x80).setB 447 1).setB 448 1).setB 449 0).setB
    450 0x06).setB 451 0xFE).setB 452 0xFF).setB 453 0xFF
  let img := (img.setU32 454 63).setU32 458 partitionSectors
  let img := (img.setB 510 0x55).setB 511 0xAA
  -- Boot sector / BPB at the partition start
  let bpb := 63 * 512
  let img := ((img.setB (bpb + 0) 0xEB).setB (bpb + 1) 0x3C).setB (bpb + 2) 0x90
  let img := img.setBytes (bpb + 3) (strBytes "MSDOS5.0")
  let img := img.setU16 (bpb + 11) 512
  let img := img.setB (bpb + 13) geo.sectorsPerCluster
  let img := img.setU16 (bpb + 14) 1
  let img := img.setB (bpb + 16) 2
  let img := img.setU16 (bpb + 17) 512
  let img := img.setU16 (bpb + 19) 0
  let img := img.setB (bpb + 21) 0xF8
  let img := img.setU16 (bpb + 22) geo.sectorsPerFAT
  let img := img.setU16 (bpb + 24) 63
  let img := img.setU16 (bpb + 26) 16
  let img := img.setU32 (bpb + 28) 63
  let img := img.setU32 (bpb + 32) partitionSectors
  let img := img.setB (bpb + 36) 0x80
  let img := img.setB (bpb + 38) 0x29
  let img := img.setU32 (bpb + 39) serial
  let img := img.setBytes (bpb + 43) (strBytes "WORKSPACE  ")
  let img := img.setBytes (bpb + 54) (strBytes "FAT16   ")
  let img := (img.setB (bpb + 510) 0x55).setB (bpb + 511) 0xAA
  -- Reserved first FAT entries in both copies
  let fatStart := bpb + 512
  let fat2Start := fatStart + geo.sectorsPerFAT * 512
  let img := (((img.setB fatStart 0xF8).setB (fatStart + 1) 0xFF).setB
    (fatStart + 2) 0xFF).setB (fatStart + 3) 0xFF
  let img := (((img.setB fat2Start 0xF8).setB (fat2Start + 1) 0xFF).setB
    (fat2Start + 2) 0xFF).setB (fat2Start + 3) 0xFF
  img

/-! ## 8.3 name derivation (shared by both writers) -/

/-- JS `String.prototype.toUpperCase` restricted to ASCII (the only
characters valid 8.3 names use). -/
def jsToUpper (s : List Char) : List Char := s.map Char.toUpper

/-- JS `String.prototype.split(".")`: splits on every dot, keeping empty
segments; the result list is never empty. -/
def splitOnDot : List Char → List (List Char)
  | [] => [[]]
  | c :: rest =>
    match splitOnDot rest with
    | [] => [[]]
    | hd :: tl => if c = '.' then [] :: hd :: tl else (c :: hd) :: tl

/-- JS `String.prototype.padEnd(n, fill)` for single-character fill. -/
def padEnd (n : Nat) (fill : Char) (s : List Char) : List Char :=
  s ++ List.replicate (n - s.length) fill

/-- The writers' 8.3 name derivation:
`parts = fileName.toUpperCase().split(".")`,
base = `(parts[0] || "").substring(0, 8).padEnd(8, " ")`,
extension = `(parts[1] || "").substring(0, 3).padEnd(3, " ")`. -/
def name83 (fileName : List Char) : List Char × List Char :=
  let parts := splitOnDot (jsToUpper fileName)
  (padEnd 8 ' ' ((parts.getD 0 []).take 8), padEnd 3 ' ' ((parts.getD 1 []).take 3))

/-! ## writeFileToImage / writeFATFile -/

/-- Cluster count needed for a payload:
`Math.max(1, Math.ceil(fileData.length / geo.bytesPerCluster))`
(the browser variant `Math.ceil(...) || 1` agrees for every length when
`bytesPerCluster > 0`). -/
def clustersNeeded (geo : Geometry) (dataLen : Nat) : Nat :=
  max 1 ((dataLen + (geo.bytesPerCluster - 1)) / geo.bytesPerCluster)

/-- The free-cluster scan of both writers: indices `2 .. totalClusters+1`
whose FAT #1 entry is `0x000`, first `needed` of them in ascending
order (the source loop stops as soon as enough are collected, which
yields the same list). -/
def collectFree (img : Image) (geo : Geometry) (needed : Nat) : List Nat :=
  (((List.range' 2 ((geo.totalClusters + 1).toNat - 1)).filter
    (fun c => readFATEntry img geo c = 0)).take needed)

/-- Data/chain write loop of both writers: writes each cluster's chunk
of the payload at the cluster's data offset, then chains the cluster to
the next free index (or the end-of-chain mark for the last one). -/
def writeDataChain (geo : Geometry) (fileData : List Nat) (eofMark : Nat) :
    Image → Nat → List Nat → Image
  | img, _, [] => img
  | img, i, c :: rest =>
    let off := geo.dataStart + (c - 2) * geo.bytesPerCluster
    let chunk := (fileData.drop (i * geo.bytesPerCluster)).take geo.bytesPerCluster
    let img2 := img.setBytes off chunk
    let nxt := match rest with | [] => eofMark | c2 :: _ => c2
    writeDataChain geo fileData eofMark (writeFATEntry img2 geo c nxt) (i + 1) rest

/-- The 11 characters `String.fromCharCode(img[o]) ... (img[o+10])` of a
directory slot, as compared against `fn + fe` by the overwrite scan
(out-of-bounds reads give `String.fromCharCode(undefined)` = NUL, which
`getD` reproduces). -/
def slotName (img : Image) (o : Nat) : List Char :=
  (List.range 11).map (fun c => Char.ofNat (img.getD (o + c)))

/-- Directory-slot first-byte test `img[o] === 0x00 || img[o] === 0xE5`
(free or deleted slot; `undefined` matches neither). -/
def slotFreeOrDeleted (img : Image) (o : Nat) : Prop :=
  img.get? o = some 0x00 ∨ img.get? o = some 0xE5

instance (img : Image) (o : Nat) : Decidable (slotFreeOrDeleted img o) := by
  unfold slotFreeOrDeleted; infer_instance

/-- Overwrite scan of both writers: offset of the first non-free,
non-deleted root-directory slot whose 11 name bytes equal `fn + fe`. -/
def findExisting (img : Image) (geo : Geometry) (fnfe : List Char) : Option Nat :=
  (List.range geo.rootDirEntries).findSome? (fun i =>
    let o := geo.rootDirStart + i * 32
    if slotFreeOrDeleted img o then none
    else if slotName img o = fnfe then some o else none)

/-- Free-slot scan of both writers: offset of the first free or deleted
root-directory slot. -/
def findFreeSlot (img : Image) (geo : Geometry) : Option Nat :=
  (List.range geo.rootDirEntries).findSome? (fun i =>
    let o := geo.rootDirStart + i * 32
    if slotFreeOrDeleted img o then some o else none)

/-- Old-chain freeing loop of both writers
(`while (oldC >= 2 && !isEOF(geo, oldC)) { next = readFATEntry(...); writeFATEntry(..., 0); oldC = next }`),
returning the final image and the final value of `oldC`.  The source
loop always terminates because each visited cluster's entry is zeroed
before it can be revisited and every entry value is below 2^16, so it
runs fewer than 65538 iterations; `freeFuel` over-approximates that
bound and the fuel case is unreachable on such runs. -/
def freeChain (geo : Geometry) : Nat → Image → Nat → Image × Nat
  | 0, img, oldC => (img, oldC)
  | fuel + 1, img, oldC =>
    if 2 ≤ oldC ∧ ¬ isEOF geo oldC then
      let nxt := readFATEntry img geo oldC
      freeChain geo fuel (writeFATEntry img geo oldC 0) nxt
    else (img, oldC)

/-- Fuel bound for `freeChain`; see its docstring. -/
def freeFuel : Nat := 70000

/-- Directory-entry write shared by both writers: name, extension,
archive attribute, zeroed reserved bytes, first cluster, 32-bit size. -/
def writeDirEntry (img : Image) (dirOff : Nat) (fn fe : List Char)
    (firstCluster size : Nat) : Image :=
  let img := img.setBytes dirOff (fn.map Char.toNat)
  let img := img.setBytes (dirOff + 8) (fe.map Char.toNat)
  let img := img.setB (dirOff + 11) 0x20
  let img := img.setBytes (dirOff + 12) (List.replicate 14 0)
  let img := (img.setB (dirOff + 26) (firstCluster % 256)).setB
    (dirOff + 27) (firstCluster / 256 % 256)
  let img := (((img.setB (dirOff + 28) (size % 256)).setB
    (dirOff + 29) (size / 256 % 256)).setB
    (dirOff + 30) (size / 65536 % 256)).setB (dirOff + 31) (size / 16777216 % 256)
  img

/-- The server-side `writeFileToImage`: returns the success flag and the
(possibly mutated) image.  Mirrors the source order: free-cluster scan,
data + chain writes, overwrite/free directory-slot search (freeing the
old chain on overwrite, including the extra zeroing of the final
end-of-chain value unique to this variant), directory-entry write. -/
def writeFileToImage (img : Image) (geo : Geometry) (fileName : List Char)
    (fileData : List Nat) : Bool × Image :=
  let eofMark := if geo.fatType = 12 then 0xFFF else 0xFFFF
  let fnfe := (name83 fileName).1 ++ (name83 fileName).2
  let needed := clustersNeeded geo fileData.length
  let free := collectFree img geo needed
  if free.length < needed then (false, img)
  else
    let img1 := writeDataChain geo fileData eofMark img 0 free
    match findExisting img1 geo fnfe with
    | some o =>
      let oldC := img1.getD (o + 26) + 256 * img1.getD (o + 27)
      let r := freeChain geo freeFuel img1 oldC
      let img3 := if 2 ≤ r.2 ∧ isEOF geo r.2 then writeFATEntry r.1 geo r.2 0 else r.1
      (true, writeDirEntry img3 o (name83 fileName).1 (name83 fileName).2
        (free.headD 0) fileData.length)
    | none =>
      match findFreeSlot img1 geo with
      | some o =>
        (true, writeDirEntry img1 o (name83 fileName).1 (name83 fileName).2
          (free.headD 0) fileData.length)
      | none => (false, img1)

/-- The browser-side `writeFATFile`.  Differences from the server
variant: the data chunks go through `Uint8Array.set`, which throws when
a chunk would cross the end of the buffer (modelled as `none`), and the
overwrite path lacks the extra zeroing of the final end-of-chain value.
The chunk writes can only throw on geometries whose data region leaves
the buffer, so on the failure paths the claims examine the two writers
coincide.  This is the browser data/chain write loop (`Uint8Array.set`
bound check before each chunk). -/
def writeDataChainB (geo : Geometry) (fileData : List Nat) (eofMark : Nat) :
    Image → Nat → List Nat → Option Image
  | img, _, [] => some img
  | img, i, c :: rest =>
    let off := geo.dataStart + (c - 2) * geo.bytesPerCluster
    let chunk := (fileData.drop (i * geo.bytesPerCluster)).take geo.bytesPerCluster
    if img.len < off + chunk.length then none
    else
      let img2 := img.setBytes off chunk
      let nxt := match rest with | [] => eofMark | c2 :: _ => c2
      writeDataChainB geo fileData eofMark (writeFATEntry img2 geo c nxt) (i + 1) rest

/-- The browser-side `writeFATFile` (workspace module); `none` models a
thrown `RangeError` from a chunk write. -/
def writeFATFile (img : Image) (geo : Geometry) (fileName : List Char)
    (fileData : List Nat) : Option (Bool × Image) :=
  let eofMark := if geo.fatType = 12 then 0xFFF else 0xFFFF
  let fnfe := (name83 fileName).1 ++ (name83 fileName).2
  let needed := clustersNeeded geo fileData.length
  let free := collectFree img geo needed
  if free.length < needed then some (false, img)
  else
    match writeDataChainB geo fileData eofMark img 0 free with
    | none => none
    | some img1 =>
      match findExisting img1 geo fnfe with
      | some o =>
        let oldC := img1.getD (o + 26) + 256 * img1.getD (o + 27)
        let r := freeChain geo freeFuel img1 oldC
        some (true, writeDirEntry r.1 o (name83 fileName).1 (name83 fileName).2
          (free.headD 0) fileData.length)
      | none =>
        match findFreeSlot img1 geo with
        | some o =>
          some (true, writeDirEntry img1 o (name83 fileName).1 (name83 fileName).2
            (free.headD 0) fileData.length)
        | none => some (false, img1)

/-! ## extractFilesFromImage -/

/-- JS whitespace characters below 256 removed by
`String.prototype.trimEnd` (tab, LF, VT, FF, CR, space, NBSP). -/
def isJsWS (c : Char) : Bool :=
  c.toNat = 9 || c.toNat = 10 || c.toNat = 11 || c.toNat = 12 || c.toNat = 13 ||
    c.toNat = 32 || c.toNat = 160

/-- `String.prototype.trimEnd` on byte-derived characters. -/
def trimEnd (s : List Char) : List Char :=
  (s.reverse.dropWhile isJsWS).reverse

/-- The extractor's bounded cluster-chain walk: collects clusters while
`cluster >= 2 && !isEOF(geo, cluster) && clusters.length < maxClusters`;
the first argument is the remaining allowance
(`maxClusters = geo.totalClusters + 2` at the call site). -/
def chainWalk (img : Image) (geo : Geometry) : Nat → Nat → List Nat
  | 0, _ => []
  | remaining + 1, cluster =>
    if 2 ≤ cluster ∧ ¬ isEOF geo cluster then
      cluster :: chainWalk img geo remaining (readFATEntry img geo cluster)
    else []

/-- The extractor's data-read loop over the collected clusters: reads
`min(bytesPerCluster, useSize - written)` bytes from each cluster's data
region (`Buffer.copy` clamps the source at the image end, leaving the
zero-filled allocation, which `getD` reproduces). -/
def readClusters (img : Image) (geo : Geometry) : List Nat → Nat → List Nat
  | [], _ => []
  | c :: rest, rem =>
    let toRead := min geo.bytesPerCluster rem
    if toRead = 0 then []
    else
      (List.range toRead).map
        (fun b => img.getD (geo.dataStart + (c - 2) * geo.bytesPerCluster + b)) ++
        readClusters img geo rest (rem - toRead)

/-- One directory slot of the extractor: 8-byte name and 3-byte
extension trimmed of trailing whitespace, joined with a dot when the
extension is nonempty. -/
def slotFullName (img : Image) (off : Nat) : List Char :=
  let name := trimEnd ((List.range 8).map (fun c => Char.ofNat (img.getD (off + c))))
  let ext := trimEnd ((List.range 3).map (fun c => Char.ofNat (img.getD (off + 8 + c))))
  if ext ≠ [] then name ++ '.' :: ext else name

/-- Root-directory loop of `extractFilesFromImage`; `idx` is the current
slot index and the first recursion argument the number of slots left.
`none` models the `RangeError` thrown by `img.readUInt32LE(off + 28)`
on a slot that leaves the buffer. -/
def extractFilesAux (img : Image) (geo : Geometry) : Nat → Nat → Option (List (List Char × List Nat))
  | 0, _ => some []
  | remaining + 1, idx =>
    let off := geo.rootDirStart + idx * 32
    if img.get? off = some 0x00 then some []
    else if img.get? off = some 0xE5 then extractFilesAux img geo remaining (idx + 1)
    else
      let attr? := img.get? (off + 11)
      let attr := img.getD (off + 11)
      if attr? = some 0x0F ∨ Nat.land attr 0x08 ≠ 0 ∨ Nat.land attr 0x10 ≠ 0 then
        extractFilesAux img geo remaining (idx + 1)
      else
        let firstCluster := img.getD (off + 26) + 256 * img.getD (off + 27)
        match img.readU32 (off + 28) with
        | none => none
        | some dirSize =>
          if firstCluster < 2 then extractFilesAux img geo remaining (idx + 1)
          else
            let clusters := chainWalk img geo (geo.totalClusters + 2).toNat firstCluster
            let chainBytes := clusters.length * geo.bytesPerCluster
            let useSize := if 0 < dirSize ∧ dirSize ≤ chainBytes then dirSize else chainBytes
            let data := readClusters img geo clusters useSize
            (extractFilesAux img geo remaining (idx + 1)).map
              (fun rest => (slotFullName img off, data) :: rest)

/-- The server-side `extractFilesFromImage`: parse geometry (`[]` when
unparseable, `none` when the parse or a directory read throws), then
walk the root directory. -/
def extractFilesFromImage (img : Image) : Option (List (List Char × List Nat)) :=
  match parseGeometry img with
  | none => none
  | some none => some []
  | some (some geo) => extractFilesAux img geo geo.rootDirEntries 0

/-! ## readFATFileByChain (transcript reader) -/

/-- The chunk collected from one cluster by `readFATFileByChain`
(`img.slice(offset, offset + bytesPerCluster)`, clamped at the image
end). -/
def sliceChunk (img : Image) (offset limit : Nat) : List Nat :=
  (List.range (min limit (img.len - offset))).map (fun b => img.getD (offset + b))

/-- Chain loop of `readFATFileByChain`:
`while (cluster >= 2 && !isEOF(geo, cluster) && --safety > 0)`.  The
first argument is the current value of the `safety` counter (initially
10000); the decrement happens only after the first two conjuncts hold,
and a decremented value of 0 exits before collecting. -/
def byChainAux (img : Image) (geo : Geometry) : Nat → Nat → List (List Nat)
  | 0, _ => []
  | safety + 1, cluster =>
    if 2 ≤ cluster ∧ ¬ isEOF geo cluster then
      if 0 < safety then
        sliceChunk img (geo.dataStart + (cluster - 2) * geo.bytesPerCluster)
            geo.bytesPerCluster ::
          byChainAux img geo safety (readFATEntry img geo cluster)
      else []
    else []

/-- Trailing-NUL trim of `readFATFileByChain`
(`while (end > 0 && data[end-1] === 0) end--`). -/
def trimTrailingZeros (l : List Nat) : List Nat :=
  (l.reverse.dropWhile (fun b => b = 0)).reverse

/-- The browser-side `readFATFileByChain` (transcript reader): `none`
models its `null` returns (first cluster below 2, empty chunk list, or
all-zero data). -/
def readFATFileByChain (img : Image) (geo : Geometry) (firstCluster : Nat) :
    Option (List Nat) :=
  if firstCluster < 2 then none
  else
    let chunks := byChainAux img geo 10000 firstCluster
    if chunks = [] then none
    else
      let trimmed := trimTrailingZeros chunks.flatten
      if trimmed = [] then none else some trimmed

/-! ## readFATFile (browser by-size reader) -/

/-- Loop of the browser-side `readFATFile`: while
`cluster >= 2 && !isEOF(geo, cluster) && written < size`, append
`min(bytesPerCluster, size - written)` bytes of the cluster data region
(slices clamp, unread target bytes stay zero).  The remaining byte count
plays the role of `size - written`; the fuel argument only serves
termination and `size + 1` always suffices when `bytesPerCluster > 0`
(with `bytesPerCluster = 0` the source loop never terminates). -/
def readFATFileAux (img : Image) (geo : Geometry) : Nat → Nat → Nat → List Nat
  | 0, _, remaining => List.replicate remaining 0
  | fuel + 1, cluster, remaining =>
    if 2 ≤ cluster ∧ ¬ isEOF geo cluster ∧ 0 < remaining then
      let toRead := min geo.bytesPerCluster remaining
      (List.range toRead).map
          (fun b => img.getD (geo.dataStart + (cluster - 2) * geo.bytesPerCluster + b)) ++
        readFATFileAux img geo fuel (readFATEntry img geo cluster) (remaining - toRead)
    else List.replicate remaining 0

/-- Iteration count of the `readFATFile` loop, for the termination
claim. -/
def readFATFileIters (img : Image) (geo : Geometry) : Nat → Nat → Nat → Nat
  | 0, _, _ => 0
  | fuel + 1, cluster, remaining =>
    if 2 ≤ cluster ∧ ¬ isEOF geo cluster ∧ 0 < remaining then
      let toRead := min geo.bytesPerCluster remaining
      1 + readFATFileIters img geo fuel (readFATEntry img geo cluster) (remaining - toRead)
    else 0

/-- The browser-side `readFATFile`: returns exactly `size` bytes, chain
data first, zeros beyond. -/
def readFATFile (img : Image) (geo : Geometry) (firstCluster size : Nat) : List Nat :=
  readFATFileAux img geo (size + 1) firstCluster size

/-! ## diskFingerprint -/

/-- One FNV-1a step of `diskFingerprint`:
`h ^= disk[i]; h = Math.imul(h, 0x01000193)`, on the unsigned mod-2^32
representative. -/
def fnvStep (h b : Nat) : Nat :=
  Nat.xor h b * 0x01000193 % 4294967296

/-- Fold `fnvStep` over `count` bytes starting at offset `start`. -/
def fnvRegion (img : Image) : Nat → Nat → Nat → Nat
  | h, _, 0 => h
  | h, start, count + 1 => fnvRegion img (fnvStep h (img.getD start)) (start + 1) count

/-- The browser-side `diskFingerprint`: FNV-1a over the FAT #1 region
then the root-directory region; `none` models the `null` returns (no
disk bytes is an environment failure outside this model; unparseable
geometry is modelled). -/
def diskFingerprint (img : Image) : Option Nat :=
  match parseFATGeometry img with
  | none => none
  | some geo =>
    let h1 := fnvRegion img 0x811c9dc5 geo.fatStart (geo.sectorsPerFAT * geo.bytesPerSector)
    some (fnvRegion img h1 geo.rootDirStart (geo.rootDirEntries * 32))

/-! ## live-sync endpoint (server) -/

/-- Host workspace directory: file names with their byte contents (the
`workspace/files/` directory, abstracted from the filesystem). -/
abbrev Workspace := List (List Char × List Nat)

/-- Content lookup (`fs.existsSync` + `fs.readFileSync`). -/
def wsLookup (ws : Workspace) (n : List Char) : Option (List Nat) :=
  (List.find? (fun p => p.1 = n) ws).map (fun p => p.2)

/-- `fs.writeFileSync`: replace in place or create. -/
def wsUpsert : Workspace → List Char → List Nat → Workspace
  | [], n, d => [(n, d)]
  | (m, e) :: rest, n, d =>
    if m = n then (n, d) :: rest else (m, e) :: wsUpsert rest n d

/-- The extracted-file write loop of the live-sync endpoint: for each
extracted file in order, compare byte-for-byte against the current host
copy, rewrite only on difference, and record rewritten names. -/
def syncWriteFiles : Workspace → List (List Char × List Nat) → Workspace × List (List Char)
  | ws, [] => (ws, [])
  | ws, (n, d) :: rest =>
    let needWrite := wsLookup ws n ≠ some d
    let ws2 := if needWrite then wsUpsert ws n d else ws
    let r := syncWriteFiles ws2 rest
    (r.1, (if needWrite then [n] else []) ++ r.2)

/-- The deletion loop plus response of `POST /api/workspace/live-sync`
after extraction: host files absent from the extracted set are removed
and reported as `"-" + name`.  Filesystem failures (per-file `try`
blocks) are not modelled; directory enumeration order is the workspace
list order. -/
def liveSync (img : Image) (ws : Workspace) : Option (Workspace × List (List Char)) :=
  (extractFilesFromImage img).map (fun files =>
    let r := syncWriteFiles ws files
    let names := files.map (fun f => f.1)
    let kept := r.1.filter (fun p => names.contains p.1)
    let deleted := (r.1.filter (fun p => ! names.contains p.1)).map (fun p => '-' :: p.1)
    (kept, r.2 ++ deleted))

/-! ## Claim-support definitions -/

/-- The candidate sectors-per-cluster values `calcGeometry` tries. -/
def candList : List Nat := [1, 2, 4, 8, 16, 32, 64]

/-- A candidate sectors-per-cluster value "fits": running the
sectors-per-FAT estimate for it gives a data-cluster count in the FAT16
range `[4085, 65524]`. -/
def fitsFAT16 (partitionSectors : Int) (spc : Nat) : Prop :=
  4085 ≤ calcClusters partitionSectors spc (spfIter partitionSectors spc 10 1) ∧
    calcClusters partitionSectors spc (spfIter partitionSectors spc 10 1) ≤ 65524

instance (P : Int) (spc : Nat) : Decidable (fitsFAT16 P spc) := by
  unfold fitsFAT16; infer_instance

/-- Dot test used by the spec-side restatement of the naming policy. -/
def isNotDot (c : Char) : Bool := c ≠ '.'

/-- Spec-side restatement of the implicit 8.3 naming policy (claim C10):
uppercase the whole name, use only the characters before the first dot
(truncated to 8, space-padded) as the base and only the characters
between the first and second dot (truncated to 3, space-padded) as the
extension; everything else is discarded. -/
def specName83 (fileName : List Char) : List Char × List Char :=
  let u := jsToUpper fileName
  let base := u.takeWhile isNotDot
  let ext := ((u.dropWhile isNotDot).drop 1).takeWhile isNotDot
  (padEnd 8 ' ' (base.take 8), padEnd 3 ' ' (ext.take 3))

/-- The BPB base offset the server-side parser uses. -/
def bpbOff (img : Image) : Nat := if hasMBR img then scanPartsAux img 0 4 else 0

/-- The BPB base offset the browser-side parser uses. -/
def bpbOffB (img : Image) : Nat := if hasMBR img then scanPartsBAux img 0 4 else 0

/-- The "no geometry" condition of the spec, read at BPB base `bpb`:
bytes/sector outside `[128, 4096]`, or sectors/cluster, FAT count or
sectors/FAT equal to zero (out-of-bounds byte reads count as 0). -/
def geoRejectCond (img : Image) (bpb : Nat) : Prop :=
  img.getW16 (bpb + 11) < 128 ∨ 4096 < img.getW16 (bpb + 11) ∨
    img.getD (bpb + 13) = 0 ∨ img.getD (bpb + 16) = 0 ∨ img.getW16 (bpb + 22) = 0

instance (img : Image) (bpb : Nat) : Decidable (geoRejectCond img bpb) := by
  unfold geoRejectCond; infer_instance

/-- All BPB fields the server-side parser reads lie inside the buffer
(the condition under which its `Buffer.readUIntNN` calls cannot throw). -/
def bpbInBounds (img : Image) : Prop := bpbOff img + 36 ≤ img.len

instance (img : Image) : Decidable (bpbInBounds img) := by
  unfold bpbInBounds; infer_instance

/-- A 512-byte all-zero buffer (geometry-stability test input of C4). -/
def zeroImg512 : Image := ⟨512, fun _ => 0⟩

/-- Counterexample image for C1: a tiny raw FAT12 volume
(128-byte sectors, a single root-directory slot already occupied by
`B.TXT`, all clusters free), on which a write fails with "directory
full" only after the data cluster and FAT chain have been written. -/
def cimg1 : Image :=
  ⟨2048, fun i =>
    if i = 11 then 128 else if i = 13 then 1 else if i = 14 then 1 else
    if i = 16 then 2 else if i = 17 then 1 else if i = 19 then 16 else
    if i = 22 then 1 else
    if i = 384 then 66 else
    if 385 ≤ i ∧ i ≤ 391 then 32 else
    if i = 392 then 84 else if i = 393 then 88 else if i = 394 then 84 else
    if i = 395 then 0x20 else
    if i = 410 then 3 else 0⟩

/-- The geometry `parseGeometry` derives from `cimg1`. -/
def cgeo1 : Geometry :=
  { partOffset := 0, bytesPerSector := 128, sectorsPerCluster := 1,
    bytesPerCluster := 128, reservedSectors := 1, numFATs := 2,
    rootDirEntries := 1, totalSectors := 16, sectorsPerFAT := 1,
    fatStart := 128, fat2Start := 256, rootDirStart := 384,
    dataStart := 512, totalClusters := 12, fatType := 12 }

/-- A geometry with no data clusters at all (every write fails with
"disk full" before touching the image); used to instantiate the C1
witness. -/
def geoFull : Geometry :=
  { partOffset := 0, bytesPerSector := 512, sectorsPerCluster := 1,
    bytesPerCluster := 512, reservedSectors := 1, numFATs := 2,
    rootDirEntries := 16, totalSectors := 4, sectorsPerFAT := 1,
    fatStart := 512, fat2Start := 1024, rootDirStart := 1536,
    dataStart := 2048, totalClusters := 0, fatType := 12 }

/-- Counterexample image for C8: like `cimg1` but with two occupied
root-directory slots carrying the same 8.3 name `A.TXT` and different
one-byte contents (clusters 2 and 3). -/
def cimg8 : Image :=
  ⟨2048, fun i =>
    if i = 11 then 128 else if i = 13 then 1 else if i = 14 then 1 else
    if i = 16 then 2 else if i = 17 then 2 else if i = 19 then 16 else
    if i = 22 then 1 else
    if i = 131 ∨ i = 132 ∨ i = 133 then 0xFF else
    if i = 384 ∨ i = 416 then 65 else
    if (385 ≤ i ∧ i ≤ 391) ∨ (417 ≤ i ∧ i ≤ 423) then 32 else
    if i = 392 ∨ i = 424 then 84 else if i = 393 ∨ i = 425 then 88 else
    if i = 394 ∨ i = 426 then 84 else
    if i = 395 ∨ i = 427 then 0x20 else
    if i = 410 then 2 else if i = 442 then 3 else
    if i = 412 ∨ i = 444 then 1 else
    if i = 512 then 65 else if i = 640 then 66 else 0⟩

/-- The host workspace left behind by a first live-sync push of `cimg8`
into an empty workspace. -/
def c8ws1 : Workspace := ((liveSync cimg8 []).getD ([], [])).1

/-- A fixed small geometry record used only to instantiate witnesses. -/
def geoTriv : Geometry :=
  { partOffset := 0, bytesPerSector := 512, sectorsPerCluster := 1,
    bytesPerCluster := 512, reservedSectors := 1, numFATs := 2,
    rootDirEntries := 16, totalSectors := 64, sectorsPerFAT := 1,
    fatStart := 512, fat2Start := 1024, rootDirStart := 1536,
    dataStart := 2048, totalClusters := 27, fatType := 12 }

/-- Counterexample image for C4: 1024 bytes, valid MBR signature, one
FAT16 partition entry whose starting LBA (4096) puts the BPB far outside
the buffer, so the server-side parser's `readUInt16LE` throws. -/
def cimg4 : Image :=
  ⟨1024, fun i =>
    if i = 450 then 0x06 else if i = 455 then 0x10 else
    if i = 510 then 0x55 else if i = 511 then 0xAA else 0⟩

/-- A properly end-of-chain-terminated cluster chain (hypothesis shape
of C5): every listed cluster is at least 2 and not itself an EOF mark,
each cluster's FAT entry links to the next listed cluster, and the last
cluster's FAT entry is an end-of-chain mark. -/
def properChain (img : Image) (geo : Geometry) : List Nat → Prop
  | [] => True
  | [c] => 2 ≤ c ∧ ¬ isEOF geo c ∧ isEOF geo (readFATEntry img geo c)
  | c :: c2 :: rest =>
      2 ≤ c ∧ ¬ isEOF geo c ∧ readFATEntry img geo c = c2 ∧
        properChain img geo (c2 :: rest)

instance properChainDec (img : Image) (geo : Geometry) :
    (l : List Nat) → Decidable (properChain img geo l)
  | [] => isTrue True.intro
  | [c] =>
      inferInstanceAs
        (Decidable (2 ≤ c ∧ ¬ isEOF geo c ∧ isEOF geo (readFATEntry img geo c)))
  | c :: c2 :: rest =>
      haveI := properChainDec img geo (c2 :: rest)
      inferInstanceAs
        (Decidable (2 ≤ c ∧ ¬ isEOF geo c ∧ readFATEntry img geo c = c2 ∧
          properChain img geo (c2 :: rest)))

/-- The data chunk `readFATFileByChain` collects for one visited
cluster. -/
def chainChunk (img : Image) (geo : Geometry) (cl : Nat) : List Nat :=
  sliceChunk img (geo.dataStart + (cl - 2) * geo.bytesPerCluster) geo.bytesPerCluster

/-- Witness image for C5: the `cimg1` volume layout with cluster 2
marked end-of-chain in the FAT (packed entry value 0xFFF) and the
two-byte payload `HI` at the start of its data region. -/
def cimg5w : Image :=
  ⟨2048, fun i =>
    if i = 11 then 128 else if i = 13 then 1 else if i = 14 then 1 else
    if i = 16 then 2 else if i = 17 then 1 else if i = 19 then 16 else
    if i = 22 then 1 else
    if i = 131 then 0xFF else if i = 132 then 0x0F else
    if i = 512 then 72 else if i = 513 then 73 else 0⟩

/-- The geometry `parseFATGeometry` extracts from `cimg5big`
(512-byte sectors, 1 sector/cluster, 1 reserved sector, 2 FATs of 40
sectors, 16 root entries, 10086 total sectors, hence FAT16). -/
def cgeo5big : Geometry :=
  { partOffset := 0, bytesPerSector := 512, sectorsPerCluster := 1,
    bytesPerCluster := 512, reservedSectors := 1, numFATs := 2,
    rootDirEntries := 16, totalSectors := 10086, sectorsPerFAT := 40,
    fatStart := 512, fat2Start := 20992, rootDirStart := 41472,
    dataStart := 41984, totalClusters := 10004, fatType := 16 }

/-- Counterexample image for C5: a FAT16 volume whose FAT links clusters
2, 3, …, 10001 into a single 10000-cluster chain terminated by an
end-of-chain mark (entry of cluster `c ≤ 10000` is `c + 1`, entry of
cluster 10001 is 0xFFFF), with every data-region byte equal to 1. -/
def cimg5big : Image :=
  ⟨5161984, fun i =>
    if i = 12 then 2 else
    if i = 13 then 1 else if i = 14 then 1 else
    if i = 16 then 2 else if i = 17 then 16 else
    if i = 19 then 102 else if i = 20 then 39 else
    if i = 22 then 40 else
    if 516 ≤ i ∧ i ≤ 20515 then
      (if (i - 512) / 2 ≤ 10000 then
        (if (i - 512) % 2 = 0 then ((i - 512) / 2 + 1) % 256
         else ((i - 512) / 2 + 1) / 256)
       else 255)
    else if 41984 ≤ i then 1 else 0⟩

/-- The FAT-mirror invariant of C3: the `sectorsPerFAT × bytesPerSector`
bytes starting at `fatStart` coincide with those starting at
`fat2Start`. -/
def fatRegionsEqual (img : Image) (geo : Geometry) : Prop :=
  ∀ j < geo.sectorsPerFAT * geo.bytesPerSector,
    img.getD (geo.fatStart + j) = img.getD (geo.fat2Start + j)

instance (img : Image) (geo : Geometry) : Decidable (fatRegionsEqual img geo) := by
  unfold fatRegionsEqual; infer_instance

/-- Counterexample image for C3: a raw FAT16 volume claiming 5000 total
sectors but provisioning only one 512-byte sector per FAT, so FAT
entries of clusters ≥ 256 live past the FAT #1 region.  Both FAT regions
hold the same pattern (header `F8 FF FF FF`, then entry bytes `01 00`)
with the entries of clusters 44 and 300 zeroed (free). -/
def cimg3 : Image :=
  ⟨2048, fun i =>
    if i = 12 then 2 else if i = 13 then 1 else if i = 14 then 1 else
    if i = 16 then 2 else if i = 17 then 1 else
    if i = 19 then 136 else if i = 20 then 19 else
    if i = 22 then 1 else
    if (512 ≤ i ∧ i < 1024) ∨ (1024 ≤ i ∧ i < 1536) then
      (let j := if i < 1024 then i - 512 else i - 1024
       if j = 0 then 0xF8 else if j = 1 ∨ j = 2 ∨ j = 3 then 0xFF else
       if j = 88 ∨ j = 89 then 0 else
       if j % 2 = 0 then 1 else 0)
    else 0⟩

/-- The geometry `parseGeometry` extracts from `cimg3`. -/
def cgeo3 : Geometry :=
  { partOffset := 0, bytesPerSector := 512, sectorsPerCluster := 1,
    bytesPerCluster := 512, reservedSectors := 1, numFATs := 2,
    rootDirEntries := 1, totalSectors := 5000, sectorsPerFAT := 1,
    fatStart := 512, fat2Start := 1024, rootDirStart := 1536,
    dataStart := 2048, totalClusters := 4996, fatType := 16 }

/-- Witness image for C3: a raw FAT16 volume with an adequately sized
FAT (17 sectors for 4085 clusters), an all-free FAT, and an empty
one-slot root directory. -/
def cimg3w : Image :=
  ⟨18432, fun i =>
    if i = 12 then 2 else if i = 13 then 1 else if i = 14 then 1 else
    if i = 16 then 2 else if i = 17 then 1 else
    if i = 19 then 25 else if i = 20 then 16 else
    if i = 22 then 17 else 0⟩

/-- The geometry `parseGeometry` extracts from `cimg3w`. -/
def cgeo3w : Geometry :=
  { partOffset := 0, bytesPerSector := 512, sectorsPerCluster := 1,
    bytesPerCluster := 512, reservedSectors := 1, numFATs := 2,
    rootDirEntries := 1, totalSectors := 4121, sectorsPerFAT := 17,
    fatStart := 512, fat2Start := 9216, rootDirStart := 17920,
    dataStart := 18432, totalClusters := 4085, fatType := 16 }

/-- The layout `createBlankImage sizeMB` lays down (and its BPB
describes): MBR partition at sector 63, 512-byte sectors, 1 reserved
sector, 2 FATs sized by `calcGeometry`, 512 root entries. -/
def blankGeo (sizeMB : Nat) : Geometry :=
  let partitionSectors : Int := ((sizeMB * 2048 - 63 : Nat) : Int)
  let g := calcGeometry partitionSectors
  let clusters : Int :=
    Int.fdiv (partitionSectors - 1 - 2 * g.sectorsPerFAT - 32) g.sectorsPerCluster
  { partOffset := 32256, bytesPerSector := 512,
    sectorsPerCluster := g.sectorsPerCluster,
    bytesPerCluster := 512 * g.sectorsPerCluster, reservedSectors := 1,
    numFATs := 2, rootDirEntries := 512, totalSectors := partitionSectors,
    sectorsPerFAT := g.sectorsPerFAT, fatStart := 32768,
    fat2Start := 32768 + g.sectorsPerFAT * 512,
    rootDirStart := 32256 + (1 + 2 * g.sectorsPerFAT) * 512,
    dataStart := 32256 + (1 + 2 * g.sectorsPerFAT) * 512 + 32 * 512,
    totalClusters := clusters,
    fatType := if clusters < 4085 then 12 else 16 }

/-- The bytes of `createBlankImage` from offset 32768 (its FAT #1 start)
on: an all-zero tail with the two four-byte reserved-entry headers
`F8 FF FF FF` at the starts of the two FAT copies. -/
def fatHeaderImage (sizeMB : Nat) : Image :=
  ((((((((⟨sizeMB * 1048576, fun _ => 0⟩ : Image).setB (63 * 512 + 512) 0xF8).setB
    (63 * 512 + 512 + 1) 0xFF).setB (63 * 512 + 512 + 2) 0xFF).setB
    (63 * 512 + 512 + 3) 0xFF).setB
    (63 * 512 + 512 + (calcGeometry ((sizeMB * 2048 - 63 : Nat) : Int)).sectorsPerFAT * 512)
      0xF8).setB
    (63 * 512 + 512 + (calcGeometry ((sizeMB * 2048 - 63 : Nat) : Int)).sectorsPerFAT * 512
      + 1) 0xFF).setB
    (63 * 512 + 512 + (calcGeometry ((sizeMB * 2048 - 63 : Nat) : Int)).sectorsPerFAT * 512
      + 2) 0xFF).setB
    (63 * 512 + 512 + (calcGeometry ((sizeMB * 2048 - 63 : Nat) : Int)).sectorsPerFAT * 512
      + 3) 0xFF

/-- Characters the round-trip claim's "valid 8.3 names" are built from:
uppercase letters and digits (stable under `toUpperCase`, not
whitespace, not a dot, not `0x00`/`0xE5`). -/
def validChar (c : Char) : Prop :=
  (65 ≤ c.toNat ∧ c.toNat ≤ 90) ∨ (48 ≤ c.toNat ∧ c.toNat ≤ 57)

instance (c : Char) : Decidable (validChar c) := by
  unfold validChar; infer_instance

/-- A valid 8.3 file name: one or two dot-segments, the base 1–8 valid
characters, the extension (when present) 1–3 valid characters. -/
def valid83 (n : List Char) : Prop :=
  ((splitOnDot n).length = 1 ∨ (splitOnDot n).length = 2) ∧
  (1 ≤ ((splitOnDot n).getD 0 []).length ∧ ((splitOnDot n).getD 0 []).length ≤ 8 ∧
    ∀ c ∈ (splitOnDot n).getD 0 [], validChar c) ∧
  ((splitOnDot n).length = 2 →
    1 ≤ ((splitOnDot n).getD 1 []).length ∧ ((splitOnDot n).getD 1 []).length ≤ 3 ∧
      ∀ c ∈ (splitOnDot n).getD 1 [], validChar c)

instance (n : List Char) : Decidable (valid83 n) := by
  unfold valid83; infer_instance

/-- Rejoin dot-segments (left inverse of `splitOnDot`). -/
def joinDots : List (List Char) → List Char
  | [] => []
  | [x] => x
  | x :: y :: rest => x ++ '.' :: joinDots (y :: rest)

/-- Cluster count the writers allocate for one payload. -/
def needK (geo : Geometry) (d : List Nat) : Nat := clustersNeeded geo d.length

/-- First cluster of the `i`-th file written into a blank image: the
writers allocate free clusters in ascending order, so the files occupy
consecutive cluster ranges starting at 2. -/
def startOf (geo : Geometry) (files : List (List Char × List Nat)) (i : Nat) : Nat :=
  2 + ((files.take i).map (fun f => needK geo f.2)).sum

/-- Sequential batch write (the per-file loop of the image builder). -/
def writeSeq (geo : Geometry) : Image → List (List Char × List Nat) → Image
  | img, [] => img
  | img, (n, d) :: rest => writeSeq geo (writeFileToImage img geo n d).2 rest

/-- Every write in the batch reports success. -/
def writeSeqOk (geo : Geometry) : Image → List (List Char × List Nat) → Prop
  | _, [] => True
  | img, (n, d) :: rest =>
      (writeFileToImage img geo n d).1 = true ∧
      writeSeqOk geo (writeFileToImage img geo n d).2 rest

instance writeSeqOkDec (geo : Geometry) :
    (img : Image) → (l : List (List Char × List Nat)) → Decidable (writeSeqOk geo img l)
  | _, [] => isTrue True.intro
  | img, (n, d) :: rest =>
      haveI := writeSeqOkDec geo (writeFileToImage img geo n d).2 rest
      inferInstanceAs (Decidable ((writeFileToImage img geo n d).1 = true ∧
        writeSeqOk geo (writeFileToImage img geo n d).2 rest))

/-- State invariant maintained while writing a batch of files into a
blank image: `i` files written so far, directory slots `0..i-1` hold
their 8.3 entries, the remaining directory bytes are zero, the FAT holds
one consecutive chain per file followed by free entries, and the data
region holds each payload at its chain's start. -/
structure RTInv (geo : Geometry) (img0 img : Image)
    (files : List (List Char × List Nat)) (i : Nat) : Prop where
  i_le : i ≤ files.length
  len_eq : img.len = img0.len
  low_eq : ∀ k, k < geo.fatStart → img.getD k = img0.getD k
  dir_name : ∀ j, j < i → ∀ t, t < 11 →
      img.getD (geo.rootDirStart + j * 32 + t)
        = (((name83 (files[j]!).1).1 ++ (name83 (files[j]!).1).2).map Char.toNat)[t]!
  dir_attr : ∀ j, j < i → img.getD (geo.rootDirStart + j * 32 + 11) = 0x20
  dir_fc : ∀ j, j < i →
      img.getD (geo.rootDirStart + j * 32 + 26) = startOf geo files j % 256 ∧
      img.getD (geo.rootDirStart + j * 32 + 27) = startOf geo files j / 256 % 256
  dir_sz : ∀ j, j < i →
      img.getD (geo.rootDirStart + j * 32 + 28) = (files[j]!).2.length % 256 ∧
      img.getD (geo.rootDirStart + j * 32 + 29) = (files[j]!).2.length / 256 % 256 ∧
      img.getD (geo.rootDirStart + j * 32 + 30) = (files[j]!).2.length / 65536 % 256 ∧
      img.getD (geo.rootDirStart + j * 32 + 31)
        = (files[j]!).2.length / 16777216 % 256
  dir_free : ∀ k, geo.rootDirStart + i * 32 ≤ k →
      k < geo.rootDirStart + geo.rootDirEntries * 32 → img.getD k = 0
  fat_link : ∀ j, j < i → ∀ t, t + 1 < needK geo (files[j]!).2 →
      readFATEntry img geo (startOf geo files j + t) = startOf geo files j + t + 1
  fat_eof : ∀ j, j < i →
      readFATEntry img geo (startOf geo files j + needK geo (files[j]!).2 - 1) = 65535
  fat_free : ∀ c, startOf geo files i ≤ c → c ≤ (geo.totalClusters + 1).toNat →
      readFATEntry img geo c = 0
  data_eq : ∀ j, j < i → ∀ b, b < (files[j]!).2.length →
      img.getD (geo.dataStart + (startOf geo files j - 2) * geo.bytesPerCluster + b)
        = (files[j]!).2[b]! % 256

/-- Geometry-side hypotheses of the C2 round-trip: FAT16, the standard
blank-image layout (FAT #2 right after FAT #1, root directory right
after FAT #2, data right after the root directory), a BPB placed at
least 512 bytes below the data structures it describes, a FAT region
large enough for every visitable cluster entry, a cluster count
addressable by FAT16 entries, and a buffer covering the whole data
region. -/
structure GeoOk (geo : Geometry) (img0 : Image) : Prop where
  ft : ¬ geo.fatType = 12
  lay1 : geo.fat2Start = geo.fatStart + geo.sectorsPerFAT * geo.bytesPerSector
  lay2 : geo.fat2Start + geo.sectorsPerFAT * geo.bytesPerSector ≤ geo.rootDirStart
  lay3 : geo.rootDirStart + geo.rootDirEntries * 32 ≤ geo.dataStart
  fs512 : 512 ≤ geo.fatStart
  adq : 2 * ((geo.totalClusters + 1).toNat + 1) + 2
    ≤ geo.sectorsPerFAT * geo.bytesPerSector
  t65526 : (geo.totalClusters + 1).toNat ≤ 65526
  bpc_pos : 0 < geo.bytesPerCluster
  dlen : geo.dataStart + ((geo.totalClusters + 1).toNat - 1) * geo.bytesPerCluster
    ≤ img0.len

/-- File-batch hypotheses of the C2 round-trip: valid pairwise-distinct
8.3 names, nonempty payloads of bytes below 2^32 total length, at most
one file per root-directory slot, and a total cluster demand that fits
the volume. -/
structure FilesOk (geo : Geometry) (files : List (List Char × List Nat)) : Prop where
  val : ∀ f ∈ files, valid83 f.1
  nonnil : ∀ f ∈ files, f.2 ≠ []
  bytes : ∀ f ∈ files, ∀ b ∈ f.2, b < 256
  sz : ∀ f ∈ files, f.2.length < 4294967296
  nodup : (files.map (fun f => f.1)).Nodup
  cnt : files.length ≤ geo.rootDirEntries
  fit : startOf geo files files.length ≤ (geo.totalClusters + 1).toNat + 1

/-! ## Basic image lemmas -/

namespace Image

theorem getD_lt_256 (img : Image) (i : Nat) : img.getD i < 256 := by
  unfold getD; split
  · exact Nat.mod_lt _ (by norm_num)
  · norm_num

theorem getW16_lt (img : Image) (off : Nat) : img.getW16 off < 65536 := by
  have h1 := img.getD_lt_256 off
  have h2 := img.getD_lt_256 (off + 1)
  unfold getW16; omega

theorem setB_len (img : Image) (i v : Nat) : (img.setB i v).len = img.len := by
  unfold setB; split <;> rfl

theorem setBytes_len (img : Image) (off : Nat) (bs : List Nat) :
    (img.setBytes off bs).len = img.len := by
  induction bs generalizing img off with
  | nil => rfl
  | cons b bs ih => simpa [Image.setBytes, setB_len] using ih (img.setB off b) (off + 1)

theorem setB_getD_ne (img : Image) (i v j : Nat) (h : j ≠ i) :
    (img.setB i v).getD j = img.getD j := by
  unfold setB getD; split <;> simp [h]

theorem setB_getD_same (img : Image) (i v : Nat) (h : i < img.len) :
    (img.setB i v).getD i = v % 256 := by
  unfold setB getD
  simp [h]

theorem setB_getD_oob (img : Image) (i v : Nat) (h : ¬ i < img.len) :
    (img.setB i v).getD = img.getD := by
  unfold setB; simp [h]

theorem setB_get?_ne (img : Image) (i v j : Nat) (h : j ≠ i) :
    (img.setB i v).get? j = img.get? j := by
  unfold setB get?; split <;> simp [h]

theorem setBytes_getD_lt (img : Image) (off : Nat) (bs : List Nat) (j : Nat)
    (h : j < off) : (img.setBytes off bs).getD j = img.getD j := by
  induction bs generalizing img off with
  | nil => rfl
  | cons b bs ih =>
    show ((img.setB off b).setBytes (off + 1) bs).getD j = img.getD j
    rw [ih _ _ (by omega), setB_getD_ne _ _ _ _ (by omega)]

theorem setBytes_getD_ge (img : Image) (off : Nat) (bs : List Nat) (j : Nat)
    (h : off + bs.length ≤ j) : (img.setBytes off bs).getD j = img.getD j := by
  induction bs generalizing img off with
  | nil => rfl
  | cons b bs ih =>
    show ((img.setB off b).setBytes (off + 1) bs).getD j = img.getD j
    rw [ih _ _ (by simp at h ⊢; omega), setB_getD_ne _ _ _ _ (by simp at h; omega)]

theorem setBytes_getD_in (img : Image) (off : Nat) (bs : List Nat) (k : Nat)
    (hk : k < bs.length) (hin : off + k < img.len) :
    (img.setBytes off bs).getD (off + k) = bs[k]! % 256 := by
  induction bs generalizing img off k with
  | nil => simp at hk
  | cons b bs ih =>
    show ((img.setB off b).setBytes (off + 1) bs).getD (off + k) = _
    rcases k with _ | k
    · rw [setBytes_getD_lt _ _ _ _ (by omega)]
      simpa using setB_getD_same img off b (by omega)
    · have hl := img.setB_len off b
      have : off + (k + 1) = (off + 1) + k := by omega
      rw [this, ih _ _ _ (by simpa using hk) (by omega)]
      simp

theorem setB_get?_oob (img : Image) (i v j : Nat) (hj : ¬ j < img.len) :
    (img.setB i v).get? j = none := by
  unfold setB get?; split <;> simp [hj]

theorem get?_eq_some_getD (img : Image) (j : Nat) (hj : j < img.len) :
    img.get? j = some (img.getD j) := by
  unfold get? getD; simp [hj]

theorem getD_oob (img : Image) (j : Nat) (hj : ¬ j < img.len) : img.getD j = 0 := by
  unfold getD; simp [hj]

theorem setU16_len (img : Image) (off v : Nat) : (img.setU16 off v).len = img.len := by
  unfold setU16; rw [setB_len, setB_len]

theorem setU32_len (img : Image) (off v : Nat) : (img.setU32 off v).len = img.len := by
  unfold setU32; rw [setB_len, setB_len, setB_len, setB_len]

end Image

/-! ## C9: calcGeometry candidate selection -/

theorem findSome?_cons_some {α β : Type} (f : α → Option β) (a : α) (l : List α) (b : β)
    (h : f a = some b) : List.findSome? f (a :: l) = some b := by
  simp [List.findSome?_cons, h]

theorem findSome?_cons_none {α β : Type} (f : α → Option β) (a : α) (l : List α)
    (h : f a = none) : List.findSome? f (a :: l) = List.findSome? f l := by
  simp [List.findSome?_cons, h]

theorem tryCand_pos (P : Int) (spc : Nat) (h : fitsFAT16 P spc) :
    tryCand P spc = some ⟨spc, spfIter P spc 10 1, calcClusters P spc (spfIter P spc 10 1)⟩ := by
  unfold tryCand
  simp only [fitsFAT16] at h
  simp [h]

theorem tryCand_neg (P : Int) (spc : Nat) (h : ¬ fitsFAT16 P spc) :
    tryCand P spc = none := by
  unfold tryCand
  simp only [fitsFAT16] at h
  simp [h]

theorem calcGeometry_of_fits (P : Int) (spc : Nat) (hmem : spc ∈ candList)
    (hfit : fitsFAT16 P spc) (hmin : ∀ c ∈ candList, c < spc → ¬ fitsFAT16 P c) :
    calcGeometry P = ⟨spc, spfIter P spc 10 1, calcClusters P spc (spfIter P spc 10 1)⟩ := by
  unfold calcGeometry
  fin_cases hmem <;>
    [ skip
    ; rw [findSome?_cons_none _ _ _ (tryCand_neg P 1 (hmin 1 (by decide) (by norm_num)))]
    ; rw [findSome?_cons_none _ _ _ (tryCand_neg P 1 (hmin 1 (by decide) (by norm_num))),
        findSome?_cons_none _ _ _ (tryCand_neg P 2 (hmin 2 (by decide) (by norm_num)))]
    ; rw [findSome?_cons_none _ _ _ (tryCand_neg P 1 (hmin 1 (by decide) (by norm_num))),
        findSome?_cons_none _ _ _ (tryCand_neg P 2 (hmin 2 (by decide) (by norm_num))),
        findSome?_cons_none _ _ _ (tryCand_neg P 4 (hmin 4 (by decide) (by norm_num)))]
    ; rw [findSome?_cons_none _ _ _ (tryCand_neg P 1 (hmin 1 (by decide) (by norm_num))),
        findSome?_cons_none _ _ _ (tryCand_neg P 2 (hmin 2 (by decide) (by norm_num))),
        findSome?_cons_none _ _ _ (tryCand_neg P 4 (hmin 4 (by decide) (by norm_num))),
        findSome?_cons_none _ _ _ (tryCand_neg P 8 (hmin 8 (by decide) (by norm_num)))]
    ; rw [findSome?_cons_none _ _ _ (tryCand_neg P 1 (hmin 1 (by decide) (by norm_num))),
        findSome?_cons_none _ _ _ (tryCand_neg P 2 (hmin 2 (by decide) (by norm_num))),
        findSome?_cons_none _ _ _ (tryCand_neg P 4 (hmin 4 (by decide) (by norm_num))),
        findSome?_cons_none _ _ _ (tryCand_neg P 8 (hmin 8 (by decide) (by norm_num))),
        findSome?_cons_none _ _ _ (tryCand_neg P 16 (hmin 16 (by decide) (by norm_num)))]
    ; rw [findSome?_cons_none _ _ _ (tryCand_neg P 1 (hmin 1 (by decide) (by norm_num))),
        findSome?_cons_none _ _ _ (tryCand_neg P 2 (hmin 2 (by decide) (by norm_num))),
        findSome?_cons_none _ _ _ (tryCand_neg P 4 (hmin 4 (by decide) (by norm_num))),
        findSome?_cons_none _ _ _ (tryCand_neg P 8 (hmin 8 (by decide) (by norm_num))),
        findSome?_cons_none _ _ _ (tryCand_neg P 16 (hmin 16 (by decide) (by norm_num))),
        findSome?_cons_none _ _ _ (tryCand_neg P 32 (hmin 32 (by decide) (by norm_num)))]] <;>
    rw [findSome?_cons_some _ _ _ _ (tryCand_pos P _ hfit)] <;> rfl

theorem calcGeometry_not_fits (P : Int) (hall : ∀ c ∈ candList, ¬ fitsFAT16 P c) :
    calcGeometry P = ⟨4, 64, 0⟩ := by
  unfold calcGeometry
  rw [show ((1 : Nat) :: [2, 4, 8, 16, 32, 64] : List Nat) = candList from rfl]
  unfold candList
  rw [findSome?_cons_none _ _ _ (tryCand_neg P 1 (hall 1 (by decide))),
    findSome?_cons_none _ _ _ (tryCand_neg P 2 (hall 2 (by decide))),
    findSome?_cons_none _ _ _ (tryCand_neg P 4 (hall 4 (by decide))),
    findSome?_cons_none _ _ _ (tryCand_neg P 8 (hall 8 (by decide))),
    findSome?_cons_none _ _ _ (tryCand_neg P 16 (hall 16 (by decide))),
    findSome?_cons_none _ _ _ (tryCand_neg P 32 (hall 32 (by decide))),
    findSome?_cons_none _ _ _ (tryCand_neg P 64 (hall 64 (by decide)))]
  rfl

set_option maxHeartbeats 1000000 in
/-- C9: for every partition sector count, if some candidate
sectors-per-cluster value in `{1,2,4,8,16,32,64}` yields a data-cluster
count in the FAT16-valid range `[4085, 65524]`, then `calcGeometry`
selects the smallest such candidate and its resulting cluster count lies
in that range; when no candidate fits it falls back to the fixed value
of 4 sectors per cluster (with 64 sectors per FAT). -/
theorem calcGeometry_selects_smallest_candidate (P : Int) :
    ((∃ spc ∈ candList, fitsFAT16 P spc) →
      (calcGeometry P).sectorsPerCluster ∈ candList ∧
      fitsFAT16 P (calcGeometry P).sectorsPerCluster ∧
      (∀ c ∈ candList, c < (calcGeometry P).sectorsPerCluster → ¬ fitsFAT16 P c) ∧
      (calcGeometry P).totalClusters =
        calcClusters P (calcGeometry P).sectorsPerCluster
          (spfIter P (calcGeometry P).sectorsPerCluster 10 1) ∧
      4085 ≤ (calcGeometry P).totalClusters ∧ (calcGeometry P).totalClusters ≤ 65524) ∧
    ((∀ spc ∈ candList, ¬ fitsFAT16 P spc) → calcGeometry P = ⟨4, 64, 0⟩) := by
  constructor
  · intro hex
    have hmin : ∃ spc ∈ candList, fitsFAT16 P spc ∧
        ∀ c ∈ candList, c < spc → ¬ fitsFAT16 P c := by
      by_cases h1 : fitsFAT16 P 1
      · refine ⟨1, by norm_num [candList], h1, ?_⟩
        intro c hc hlt
        simp [candList] at hc
        omega
      · by_cases h2 : fitsFAT16 P 2
        · refine ⟨2, by norm_num [candList], h2, ?_⟩
          intro c hc hlt
          simp [candList] at hc
          rcases hc with rfl | rfl | rfl | rfl | rfl | rfl | rfl <;> first | assumption | omega
        · by_cases h4 : fitsFAT16 P 4
          · refine ⟨4, by norm_num [candList], h4, ?_⟩
            intro c hc hlt
            simp [candList] at hc
            rcases hc with rfl | rfl | rfl | rfl | rfl | rfl | rfl <;> first | assumption | omega
          · by_cases h8 : fitsFAT16 P 8
            · refine ⟨8, by norm_num [candList], h8, ?_⟩
              intro c hc hlt
              simp [candList] at hc
              rcases hc with rfl | rfl | rfl | rfl | rfl | rfl | rfl <;> first | assumption | omega
            · by_cases h16 : fitsFAT16 P 16
              · refine ⟨16, by norm_num [candList], h16, ?_⟩
                intro c hc hlt
                simp [candList] at hc
                rcases hc with rfl | rfl | rfl | rfl | rfl | rfl | rfl <;> first | assumption | omega
              · by_cases h32 : fitsFAT16 P 32
                · refine ⟨32, by norm_num [candList], h32, ?_⟩
                  intro c hc hlt
                  simp [candList] at hc
                  rcases hc with rfl | rfl | rfl | rfl | rfl | rfl | rfl <;> first | assumption | omega
                · have h64 : fitsFAT16 P 64 := by
                    obtain ⟨s, hs, hfit⟩ := hex
                    simp [candList] at hs
                    rcases hs with rfl | rfl | rfl | rfl | rfl | rfl | rfl
                    exacts [absurd hfit h1, absurd hfit h2, absurd hfit h4,
                      absurd hfit h8, absurd hfit h16, absurd hfit h32, hfit]
                  refine ⟨64, by norm_num [candList], h64, ?_⟩
                  intro c hc hlt
                  simp [candList] at hc
                  rcases hc with rfl | rfl | rfl | rfl | rfl | rfl | rfl <;> first | assumption | omega
    obtain ⟨spc, hmem, hfit, hminm⟩ := hmin
    have he := calcGeometry_of_fits P spc hmem hfit hminm
    rw [he]
    exact ⟨hmem, hfit, hminm, rfl, hfit.1, hfit.2⟩
  · exact calcGeometry_not_fits P

/-- Witness for C9 at the 32 MiB partition sector count 65473. -/
theorem calcGeometry_selects_smallest_candidate_witness :
    (calcGeometry 65473).sectorsPerCluster ∈ candList ∧
      fitsFAT16 65473 (calcGeometry 65473).sectorsPerCluster ∧
      4085 ≤ (calcGeometry 65473).totalClusters ∧
      (calcGeometry 65473).totalClusters ≤ 65524 := by
  have h := (calcGeometry_selects_smallest_candidate 65473).1 ⟨1, by decide, by decide⟩
  exact ⟨h.1, h.2.1, h.2.2.2.2.1, h.2.2.2.2.2⟩

/-! ## C10: implicit 8.3 naming policy -/

theorem splitOnDot_ne_nil (l : List Char) : splitOnDot l ≠ [] := by
  cases l with
  | nil => simp [splitOnDot]
  | cons c rest =>
    unfold splitOnDot
    cases h : splitOnDot rest with
    | nil => simp
    | cons hd tl => by_cases hc : c = '.' <;> simp [hc]

theorem isNotDot_true {c : Char} (hc : ¬ c = '.') : isNotDot c = true := by
  simp [isNotDot, hc]

theorem isNotDot_false : isNotDot '.' = false := by
  simp [isNotDot]

theorem splitOnDot_first (l : List Char) :
    (splitOnDot l).getD 0 [] = l.takeWhile isNotDot := by
  induction l with
  | nil => rfl
  | cons c rest ih =>
    unfold splitOnDot
    cases h : splitOnDot rest with
    | nil => exact absurd h (splitOnDot_ne_nil rest)
    | cons hd tl =>
      rw [h] at ih
      by_cases hc : c = '.'
      · subst hc
        simp [List.takeWhile_cons, isNotDot_false]
      · simp only [hc, if_false, List.takeWhile_cons, isNotDot_true hc, cond_true]
        simp only [List.getD, List.get?, Option.getD] at ih ⊢
        rw [← ih]
        simp

theorem splitOnDot_second (l : List Char) :
    (splitOnDot l).getD 1 [] =
      ((l.dropWhile isNotDot).drop 1).takeWhile isNotDot := by
  induction l with
  | nil => rfl
  | cons c rest ih =>
    unfold splitOnDot
    cases h : splitOnDot rest with
    | nil => exact absurd h (splitOnDot_ne_nil rest)
    | cons hd tl =>
      by_cases hc : c = '.'
      · have hfirst := splitOnDot_first rest
        rw [h] at hfirst
        subst hc
        simp only [if_pos rfl, List.dropWhile_cons, isNotDot_false, cond_false]
        simpa using hfirst
      · rw [h] at ih
        simp only [hc, if_false, List.dropWhile_cons, isNotDot_true hc, cond_true]
        simpa using ih

/-- C10: the writers derive on-disk names exactly by the spec-side
policy (uppercase whole name, first dot-segment truncated to 8 and
space-padded, second dot-segment truncated to 3 and space-padded,
everything beyond discarded); `"archive.tar.gz"` becomes base
`"ARCHIVE "` with extension `"TAR"` (stored entry `ARCHIVE.TAR`); the
derived parts always have lengths 8 and 3; and the writers treat any two
names with the same derivation identically, so no name is rejected for
being too long. -/
theorem writers_name_policy :
    (∀ fileName : List Char, name83 fileName = specName83 fileName) ∧
    name83 "archive.tar.gz".data = ("ARCHIVE ".data, "TAR".data) ∧
    (∀ fileName : List Char,
      (name83 fileName).1.length = 8 ∧ (name83 fileName).2.length = 3) ∧
    (∀ (img : Image) (geo : Geometry) (n1 n2 : List Char) (d : List Nat),
      name83 n1 = name83 n2 →
        writeFileToImage img geo n1 d = writeFileToImage img geo n2 d ∧
        writeFATFile img geo n1 d = writeFATFile img geo n2 d) := by
  refine ⟨?_, by decide, ?_, ?_⟩
  · intro fileName
    simp only [name83, specName83]
    rw [splitOnDot_first, splitOnDot_second]
  · intro fileName
    constructor <;> (simp [name83, padEnd]; try omega)
  · intro img geo n1 n2 d h
    constructor
    · unfold writeFileToImage
      rw [h]
    · unfold writeFATFile
      rw [h]

/-- Witness for C10 at two concrete names with the same derivation. -/
theorem writers_name_policy_witness :
    name83 "readme.txt.bak".data = name83 "README.TXT.old".data ∧
    writeFileToImage zeroImg512 geoTriv "readme.txt.bak".data [1] =
      writeFileToImage zeroImg512 geoTriv "README.TXT.old".data [1] := by
  have h : name83 "readme.txt.bak".data = name83 "README.TXT.old".data := by decide
  exact ⟨h, (writers_name_policy.2.2.2 zeroImg512 geoTriv _ _ [1] h).1⟩

/-! ## C1: failure paths of the writers -/

/-- C1 (amended): when a write fails because fewer free clusters exist
than the number needed, both writers return failure with the image
byte-for-byte unchanged (the returned image is the input image itself).
The other failure path — no free or deleted root-directory slot — runs
only after the data clusters and the FAT chain have already been
written, so it does mutate the image (see the counterexample). -/
theorem writers_disk_full_unmodified (img : Image) (geo : Geometry)
    (fileName : List Char) (fileData : List Nat)
    (h : (collectFree img geo (clustersNeeded geo fileData.length)).length <
      clustersNeeded geo fileData.length) :
    writeFileToImage img geo fileName fileData = (false, img) ∧
    writeFATFile img geo fileName fileData = some (false, img) := by
  constructor
  · unfold writeFileToImage
    simp only [h, if_true, if_pos]
  · unfold writeFATFile
    simp only [h, if_true, if_pos]

/-- Witness for C1 on a geometry without data clusters. -/
theorem writers_disk_full_unmodified_witness :
    writeFileToImage zeroImg512 geoFull "A.TXT".data [65] = (false, zeroImg512) ∧
    writeFATFile zeroImg512 geoFull "A.TXT".data [65] = some (false, zeroImg512) :=
  writers_disk_full_unmodified zeroImg512 geoFull "A.TXT".data [65] (by decide)

/-- Counterexample for C1 as stated: on `cimg1` (valid parsed geometry,
directory full, a free cluster available) the server-side writer returns
failure, yet the byte at offset 512 — the first byte of the data region —
has changed from 0 to 65: the directory-full failure path leaves a
partial mutation. -/
theorem writer_directory_full_mutates :
    parseGeometry cimg1 = some (some cgeo1) ∧
    (writeFileToImage cimg1 cgeo1 "A.TXT".data [65]).1 = false ∧
    (writeFileToImage cimg1 cgeo1 "A.TXT".data [65]).2.getD 512 = 65 ∧
    cimg1.getD 512 = 0 := by
  refine ⟨by decide, by decide, by decide, by decide⟩

/-! ## C7: chain-walk iteration bounds -/

theorem chainWalk_length_le (img : Image) (geo : Geometry) :
    ∀ (n cluster : Nat), (chainWalk img geo n cluster).length ≤ n := by
  intro n
  induction n with
  | zero => intro cluster; simp [chainWalk]
  | succ m ih =>
    intro cluster
    unfold chainWalk
    split
    · simpa using ih (readFATEntry img geo cluster)
    · simp

theorem byChainAux_length_le (img : Image) (geo : Geometry) :
    ∀ (safety cluster : Nat), (byChainAux img geo safety cluster).length ≤ safety - 1 := by
  intro safety
  induction safety with
  | zero => intro cluster; simp [byChainAux]
  | succ m ih =>
    intro cluster
    unfold byChainAux
    split
    · split
      · have := ih (readFATEntry img geo cluster)
        simp only [List.length_cons]
        omega
      · simp
    · simp

theorem readFATFileIters_le (img : Image) (geo : Geometry) (hb : 0 < geo.bytesPerCluster) :
    ∀ (fuel remaining cluster : Nat),
      (remaining + geo.bytesPerCluster - 1) / geo.bytesPerCluster ≤ fuel →
      readFATFileIters img geo fuel cluster remaining ≤
        (remaining + geo.bytesPerCluster - 1) / geo.bytesPerCluster := by
  intro fuel
  induction fuel with
  | zero => intro remaining cluster h; simp [readFATFileIters]
  | succ m ih =>
    intro remaining cluster h
    unfold readFATFileIters
    split
    · rename_i hcond
      dsimp only
      set b := geo.bytesPerCluster with hbdef
      have hr : 0 < remaining := hcond.2.2
      have hkey : (remaining - min b remaining + b - 1) / b + 1 = (remaining + b - 1) / b := by
        rcases Nat.le_total remaining b with hle | hle
        · have h1 : remaining - min b remaining = 0 := by omega
          have h3 : (remaining + b - 1) / b = 1 :=
            Nat.div_eq_of_lt_le (by omega) (by omega)
          have h2 : (0 + b - 1) / b = 0 := Nat.div_eq_of_lt (by omega)
          rw [h1, h3, h2]
        · have h1 : remaining - min b remaining = remaining - b := by omega
          rw [h1]
          have h2 : remaining - b + b - 1 + b = remaining + b - 1 := by omega
          calc (remaining - b + b - 1) / b + 1 = (remaining - b + b - 1 + b) / b := by
                rw [Nat.add_div_right _ hb]
            _ = (remaining + b - 1) / b := by rw [h2]
      have hrec := ih (remaining - min b remaining) (readFATEntry img geo cluster) (by omega)
      omega
    · simp

/-- C7: every cluster-chain walk is iteration-bounded on every input
image, cyclic or corrupt FATs included: the extractor's walk
(`chainWalk`) visits at most `totalClusters + 2` clusters, the
chain-following reader's loop (`byChainAux`, started with safety
counter 10000) visits at most 9999 clusters, and the by-size reader
(`readFATFileIters` counts its loop) performs at most
`ceil(size / bytesPerCluster)` iterations whenever the cluster size is
positive. -/
theorem chain_walks_bounded :
    (∀ (img : Image) (geo : Geometry) (first : Nat),
      (chainWalk img geo (geo.totalClusters + 2).toNat first).length ≤
        (geo.totalClusters + 2).toNat) ∧
    (∀ (img : Image) (geo : Geometry) (first : Nat),
      (byChainAux img geo 10000 first).length ≤ 9999) ∧
    (∀ (img : Image) (geo : Geometry) (first size : Nat),
      0 < geo.bytesPerCluster →
      readFATFileIters img geo (size + 1) first size ≤
        (size + geo.bytesPerCluster - 1) / geo.bytesPerCluster) := by
  refine ⟨fun img geo first => chainWalk_length_le img geo _ _,
    fun img geo first => byChainAux_length_le img geo 10000 first,
    fun img geo first size hb => ?_⟩
  apply readFATFileIters_le img geo hb
  rcases Nat.eq_zero_or_pos size with h0 | hpos
  · subst h0
    simp [Nat.div_eq_of_lt (show geo.bytesPerCluster - 1 < geo.bytesPerCluster by omega)]
  · have : (size + geo.bytesPerCluster - 1) / geo.bytesPerCluster ≤ size := by
      rw [Nat.div_le_iff_le_mul_add_pred hb]
      have hmul : size ≤ geo.bytesPerCluster * size := Nat.le_mul_of_pos_left size hb
      omega
    omega

/-- Witness for C7 part three at a concrete geometry. -/
theorem chain_walks_bounded_witness :
    0 < geoTriv.bytesPerCluster ∧
    readFATFileIters zeroImg512 geoTriv 101 2 100 ≤
      (100 + geoTriv.bytesPerCluster - 1) / geoTriv.bytesPerCluster := by
  exact ⟨by decide, chain_walks_bounded.2.2 zeroImg512 geoTriv 2 100 (by decide)⟩

/-! ## Image extensionality (reads determine every operation) -/

theorem Image.get?_eq_getD (img : Image) (i : Nat) :
    img.get? i = if i < img.len then some (img.getD i) else none := by
  unfold Image.get? Image.getD
  split <;> simp_all

theorem get?_congr {i1 i2 : Image} (hlen : i1.len = i2.len)
    (hgetD : ∀ j, i1.getD j = i2.getD j) : ∀ j, i1.get? j = i2.get? j := by
  intro j
  rw [Image.get?_eq_getD, Image.get?_eq_getD, hlen, hgetD]

theorem getW16_congr {i1 i2 : Image} (hgetD : ∀ j, i1.getD j = i2.getD j) :
    ∀ o, i1.getW16 o = i2.getW16 o := by
  intro o
  unfold Image.getW16
  rw [hgetD, hgetD]

theorem getW32_congr {i1 i2 : Image} (hgetD : ∀ j, i1.getD j = i2.getD j) :
    ∀ o, i1.getW32 o = i2.getW32 o := by
  intro o
  unfold Image.getW32
  rw [hgetD, hgetD, hgetD, hgetD]

theorem readU16_congr {i1 i2 : Image} (hlen : i1.len = i2.len)
    (hgetD : ∀ j, i1.getD j = i2.getD j) : ∀ o, i1.readU16 o = i2.readU16 o := by
  intro o
  unfold Image.readU16
  rw [hlen, hgetD, hgetD]

theorem readU32_congr {i1 i2 : Image} (hlen : i1.len = i2.len)
    (hgetD : ∀ j, i1.getD j = i2.getD j) : ∀ o, i1.readU32 o = i2.readU32 o := by
  intro o
  unfold Image.readU32
  rw [hlen, hgetD, hgetD, hgetD, hgetD]

theorem scanPartsAux_congr {i1 i2 : Image} (hgetD : ∀ j, i1.getD j = i2.getD j) :
    ∀ fuel i, scanPartsAux i1 i fuel = scanPartsAux i2 i fuel := by
  intro fuel
  induction fuel with
  | zero => intro i; rfl
  | succ m ih =>
    intro i
    unfold scanPartsAux
    dsimp only
    rw [hgetD, getW32_congr hgetD, ih]

theorem scanPartsBAux_congr {i1 i2 : Image} (hgetD : ∀ j, i1.getD j = i2.getD j) :
    ∀ fuel i, scanPartsBAux i1 i fuel = scanPartsBAux i2 i fuel := by
  intro fuel
  induction fuel with
  | zero => intro i; rfl
  | succ m ih =>
    intro i
    unfold scanPartsBAux
    dsimp only
    rw [hgetD, getW32_congr hgetD, ih]

theorem hasMBR_congr {i1 i2 : Image} (hlen : i1.len = i2.len)
    (hgetD : ∀ j, i1.getD j = i2.getD j) : hasMBR i1 ↔ hasMBR i2 := by
  unfold hasMBR
  rw [hlen, get?_congr hlen hgetD, get?_congr hlen hgetD]

theorem parseGeometry_congr {i1 i2 : Image} (hlen : i1.len = i2.len)
    (hgetD : ∀ j, i1.getD j = i2.getD j) : parseGeometry i1 = parseGeometry i2 := by
  unfold parseGeometry
  dsimp only
  have hpo : (if hasMBR i1 then scanPartsAux i1 0 4 else 0) =
      (if hasMBR i2 then scanPartsAux i2 0 4 else 0) := by
    by_cases hm : hasMBR i1
    · rw [if_pos hm, if_pos ((hasMBR_congr hlen hgetD).mp hm), scanPartsAux_congr hgetD]
    · rw [if_neg hm, if_neg (fun h2 => hm ((hasMBR_congr hlen hgetD).mpr h2))]
  rw [hpo, readU16_congr hlen hgetD, readU16_congr hlen hgetD, readU16_congr hlen hgetD,
    readU16_congr hlen hgetD, readU16_congr hlen hgetD, readU32_congr hlen hgetD,
    hgetD, hgetD]

theorem parseFATGeometry_congr {i1 i2 : Image} (hlen : i1.len = i2.len)
    (hgetD : ∀ j, i1.getD j = i2.getD j) : parseFATGeometry i1 = parseFATGeometry i2 := by
  unfold parseFATGeometry
  dsimp only
  have hpo : (if hasMBR i1 then scanPartsBAux i1 0 4 else 0) =
      (if hasMBR i2 then scanPartsBAux i2 0 4 else 0) := by
    by_cases hm : hasMBR i1
    · rw [if_pos hm, if_pos ((hasMBR_congr hlen hgetD).mp hm), scanPartsBAux_congr hgetD]
    · rw [if_neg hm, if_neg (fun h2 => hm ((hasMBR_congr hlen hgetD).mpr h2))]
  rw [hpo, getW16_congr hgetD, getW16_congr hgetD, getW16_congr hgetD, getW16_congr hgetD,
    getW16_congr hgetD, getW32_congr hgetD, get?_congr hlen hgetD, get?_congr hlen hgetD]


/-! ## C6: fingerprint lemmas -/

theorem fnvStep_lt (h b : Nat) : fnvStep h b < 4294967296 := by
  unfold fnvStep
  exact Nat.mod_lt _ (by norm_num)

theorem xor_lt_32 {a b : Nat} (ha : a < 4294967296) (hb : b < 4294967296) :
    Nat.xor a b < 4294967296 := by
  have : (4294967296 : Nat) = 2 ^ 32 := by norm_num
  rw [this] at ha hb ⊢
  exact Nat.xor_lt_two_pow ha hb

theorem mul_fnv_prime_inj {a c : Nat} (ha : a < 4294967296) (hc : c < 4294967296)
    (h : a * 0x01000193 % 4294967296 = c * 0x01000193 % 4294967296) : a = c := by
  have hco : Nat.Coprime 0x01000193 4294967296 := by decide
  have hmod : a % 4294967296 = c % 4294967296 :=
    Nat.ModEq.cancel_right_of_coprime (Nat.Coprime.symm hco) h
  rwa [Nat.mod_eq_of_lt ha, Nat.mod_eq_of_lt hc] at hmod

theorem fnvStep_inj_h {h1 h2 b : Nat} (hl1 : h1 < 4294967296) (hl2 : h2 < 4294967296)
    (hb : b < 4294967296) (hne : h1 ≠ h2) : fnvStep h1 b ≠ fnvStep h2 b := by
  intro heq
  exact hne (Nat.xor_left_inj.mp (mul_fnv_prime_inj (xor_lt_32 hl1 hb) (xor_lt_32 hl2 hb) heq))

theorem fnvStep_inj_b {h b1 b2 : Nat} (hh : h < 4294967296) (hb1 : b1 < 4294967296)
    (hb2 : b2 < 4294967296) (hne : b1 ≠ b2) : fnvStep h b1 ≠ fnvStep h b2 := by
  intro heq
  exact hne (Nat.xor_right_inj.mp (mul_fnv_prime_inj (xor_lt_32 hh hb1) (xor_lt_32 hh hb2) heq))

theorem fnvRegion_congr {i1 i2 : Image} :
    ∀ (n h s : Nat), (∀ j, s ≤ j → j < s + n → i1.getD j = i2.getD j) →
      fnvRegion i1 h s n = fnvRegion i2 h s n := by
  intro n
  induction n with
  | zero => intro h s _; rfl
  | succ m ih =>
    intro h s hagree
    unfold fnvRegion
    rw [hagree s (le_refl s) (by omega)]
    exact ih _ _ (fun j hj1 hj2 => hagree j (by omega) (by omega))

theorem fnvRegion_lt {img : Image} :
    ∀ (n h s : Nat), h < 4294967296 → fnvRegion img h s n < 4294967296 := by
  intro n
  induction n with
  | zero => intro h s hh; exact hh
  | succ m ih =>
    intro h s hh
    unfold fnvRegion
    exact ih _ _ (fnvStep_lt _ _)

theorem fnvRegion_ne {i1 i2 : Image} :
    ∀ (n h1 h2 s : Nat), h1 < 4294967296 → h2 < 4294967296 → h1 ≠ h2 →
      (∀ j, s ≤ j → j < s + n → i1.getD j = i2.getD j) →
      fnvRegion i1 h1 s n ≠ fnvRegion i2 h2 s n := by
  intro n
  induction n with
  | zero => intro h1 h2 s _ _ hne _; exact hne
  | succ m ih =>
    intro h1 h2 s hl1 hl2 hne hagree
    unfold fnvRegion
    rw [hagree s (le_refl s) (by omega)]
    exact ih _ _ _ (fnvStep_lt _ _) (fnvStep_lt _ _)
      (fnvStep_inj_h hl1 hl2 (by have := i2.getD_lt_256 s; omega) hne)
      (fun j hj1 hj2 => hagree j (by omega) (by omega))

theorem fnvRegion_split {img : Image} :
    ∀ (m n h s : Nat), fnvRegion img h s (m + n) = fnvRegion img (fnvRegion img h s m) (s + m) n := by
  intro m
  induction m with
  | zero => intro n h s; simp [fnvRegion]
  | succ k ih =>
    intro n h s
    have e1 : fnvRegion img h s (k + 1) = fnvRegion img (fnvStep h (img.getD s)) (s + 1) k := rfl
    have h1 : k + 1 + n = k + n + 1 := by omega
    have h2 : s + 1 + k = s + (k + 1) := by omega
    calc fnvRegion img h s (k + 1 + n)
        = fnvRegion img (fnvStep h (img.getD s)) (s + 1) (k + n) := by rw [h1]; rfl
      _ = fnvRegion img (fnvRegion img (fnvStep h (img.getD s)) (s + 1) k) (s + 1 + k) n :=
          ih n (fnvStep h (img.getD s)) (s + 1)
      _ = fnvRegion img (fnvRegion img h s (k + 1)) (s + (k + 1)) n := by rw [← e1, h2]

/-! ## Structural facts about parsed geometries -/

theorem mkGeometry_facts {p bps spc res nf rde : Nat} {ts : Int} {spf : Nat} {geo : Geometry}
    (h : mkGeometry p bps spc res nf rde ts spf = some geo) :
    geo.partOffset = p ∧ geo.bytesPerSector = bps ∧ geo.sectorsPerCluster = spc ∧
    geo.reservedSectors = res ∧ geo.numFATs = nf ∧ geo.rootDirEntries = rde ∧
    geo.totalSectors = ts ∧ geo.sectorsPerFAT = spf ∧
    geo.fatStart = p + res * bps ∧
    geo.fat2Start = geo.fatStart + spf * bps ∧
    geo.rootDirStart = p + (res + nf * spf) * bps ∧
    geo.dataStart = geo.rootDirStart + ((rde * 32 + (bps - 1)) / bps) * bps ∧
    geo.bytesPerCluster = bps * spc ∧
    geo.totalClusters =
      Int.fdiv (ts - res - (nf : Int) * (spf : Int) -
        (((rde * 32 + (bps - 1)) / bps : Nat) : Int)) spc ∧
    geo.fatType = (if geo.totalClusters < 4085 then 12 else 16) ∧
    128 ≤ bps ∧ bps ≤ 4096 ∧ 1 ≤ spc ∧ 1 ≤ nf ∧ 1 ≤ spf := by
  by_cases hc1 : bps < 128 ∨ 4096 < bps
  · rw [mkGeometry, if_pos hc1] at h
    exact absurd h (by simp)
  · by_cases hc2 : spc = 0 ∨ nf = 0 ∨ spf = 0
    · rw [mkGeometry, if_neg hc1, if_pos hc2] at h
      exact absurd h (by simp)
    · rw [mkGeometry, if_neg hc1, if_neg hc2] at h
      dsimp only at h
      rw [Option.some_inj] at h
      subst h
      push_neg at hc1 hc2
      refine ⟨rfl, rfl, rfl, rfl, rfl, rfl, rfl, rfl, rfl, rfl, rfl, rfl, rfl, rfl, rfl,
        ?_, ?_, ?_, ?_, ?_⟩ <;> omega

theorem parseFATGeometry_mk {img : Image} {geo : Geometry}
    (h : parseFATGeometry img = some geo) :
    ∃ p bps spc res nf rde ts spf, mkGeometry p bps spc res nf rde ts spf = some geo := by
  unfold parseFATGeometry at h
  dsimp only at h
  split_ifs at h <;> exact ⟨_, _, _, _, _, _, _, _, h⟩

theorem parseFATGeometry_facts {img : Image} {geo : Geometry}
    (h : parseFATGeometry img = some geo) :
    geo.fat2Start = geo.fatStart + geo.sectorsPerFAT * geo.bytesPerSector ∧
    geo.fatStart + geo.numFATs * (geo.sectorsPerFAT * geo.bytesPerSector) =
      geo.rootDirStart ∧
    1 ≤ geo.numFATs ∧ 1 ≤ geo.sectorsPerFAT ∧ 128 ≤ geo.bytesPerSector ∧
    geo.bytesPerSector ≤ 4096 ∧ 1 ≤ geo.sectorsPerCluster ∧
    geo.bytesPerCluster = geo.bytesPerSector * geo.sectorsPerCluster := by
  obtain ⟨p, bps, spc, res, nf, rde, ts, spf, hmk⟩ := parseFATGeometry_mk h
  obtain ⟨e1, e2, e3, e4, e5, e6, e7, e8, e9, e10, e11, e12, e13, e14, e15,
    f1, f2, f3, f4, f5⟩ := mkGeometry_facts hmk
  refine ⟨?_, ?_, ?_, ?_, ?_, ?_, ?_, ?_⟩
  · rw [e10, e2, e8]
  · rw [e9, e11, e2, e8, e5]
    ring
  · omega
  · omega
  · omega
  · omega
  · omega
  · rw [e13, e2, e3]

/-- The fat-region / root-directory disjointness every parsed geometry
satisfies: the root directory starts at or after the end of FAT #1. -/
theorem parseFATGeometry_fat_before_rootdir {img : Image} {geo : Geometry}
    (h : parseFATGeometry img = some geo) :
    geo.fatStart + geo.sectorsPerFAT * geo.bytesPerSector ≤ geo.rootDirStart := by
  obtain ⟨_, h2, hnf, _, _, _, _, _⟩ := parseFATGeometry_facts h
  have : geo.sectorsPerFAT * geo.bytesPerSector ≤
      geo.numFATs * (geo.sectorsPerFAT * geo.bytesPerSector) :=
    Nat.le_mul_of_pos_left _ hnf
  omega

theorem diskFingerprint_eq_of_parse {img : Image} {geo : Geometry}
    (h : parseFATGeometry img = some geo) :
    diskFingerprint img = some (fnvRegion img
      (fnvRegion img 0x811c9dc5 geo.fatStart (geo.sectorsPerFAT * geo.bytesPerSector))
      geo.rootDirStart (geo.rootDirEntries * 32)) := by
  unfold diskFingerprint
  rw [h]

set_option maxRecDepth 4000 in
/-- C6: the disk fingerprint is a pure function of the image bytes
(computing it twice on identical bytes yields the same 32-bit value),
and for two images with the same parsed geometry differing in exactly
one byte: a difference inside the root-directory region changes the
fingerprint, while a difference outside both the FAT #1 region and the
root-directory region leaves it unchanged. -/
theorem diskFingerprint_metadata_sensitive :
    (∀ (i1 i2 : Image), i1.len = i2.len → (∀ j, i1.getD j = i2.getD j) →
      diskFingerprint i1 = diskFingerprint i2) ∧
    (∀ (img1 img2 : Image) (geo : Geometry) (i : Nat),
      parseFATGeometry img1 = some geo → parseFATGeometry img2 = some geo →
      (∀ j, j ≠ i → img1.getD j = img2.getD j) → img1.getD i ≠ img2.getD i →
      (geo.rootDirStart ≤ i → i < geo.rootDirStart + geo.rootDirEntries * 32 →
        diskFingerprint img1 ≠ diskFingerprint img2) ∧
      ((i < geo.fatStart ∨ geo.fatStart + geo.sectorsPerFAT * geo.bytesPerSector ≤ i) →
       (i < geo.rootDirStart ∨ geo.rootDirStart + geo.rootDirEntries * 32 ≤ i) →
        diskFingerprint img1 = diskFingerprint img2)) := by
  constructor
  · intro i1 i2 hlen hgetD
    unfold diskFingerprint
    rw [parseFATGeometry_congr hlen hgetD]
    cases hp : parseFATGeometry i2 with
    | none => rfl
    | some geo =>
      dsimp only
      rw [fnvRegion_congr _ _ _ (fun j _ _ => hgetD j),
        fnvRegion_congr _ _ _ (fun j _ _ => hgetD j)]
  · intro img1 img2 geo i h1 h2 hag hne
    have hdisj := parseFATGeometry_fat_before_rootdir h1
    constructor
    · intro hi1 hi2
      rw [diskFingerprint_eq_of_parse h1, diskFingerprint_eq_of_parse h2]
      intro heq
      rw [Option.some_inj] at heq
      have hA : fnvRegion img1 0x811c9dc5 geo.fatStart
          (geo.sectorsPerFAT * geo.bytesPerSector) =
          fnvRegion img2 0x811c9dc5 geo.fatStart
          (geo.sectorsPerFAT * geo.bytesPerSector) :=
        fnvRegion_congr _ _ _ (fun j hj1 hj2 => hag j (by omega))
      rw [hA] at heq
      set hmid := fnvRegion img2 0x811c9dc5 geo.fatStart
        (geo.sectorsPerFAT * geo.bytesPerSector) with hmiddef
      have hmidlt : hmid < 4294967296 := fnvRegion_lt _ _ _ (by norm_num)
      obtain ⟨k, hk⟩ : ∃ k, geo.rootDirEntries * 32 = (i - geo.rootDirStart) + (k + 1) :=
        ⟨geo.rootDirEntries * 32 - (i - geo.rootDirStart) - 1, by omega⟩
      rw [hk, fnvRegion_split (i - geo.rootDirStart) (k + 1) hmid geo.rootDirStart,
        fnvRegion_split (i - geo.rootDirStart) (k + 1) hmid geo.rootDirStart] at heq
      have hpre : fnvRegion img1 hmid geo.rootDirStart (i - geo.rootDirStart) =
          fnvRegion img2 hmid geo.rootDirStart (i - geo.rootDirStart) :=
        fnvRegion_congr _ _ _ (fun j hj1 hj2 => hag j (by omega))
      rw [hpre] at heq
      set hpre2 := fnvRegion img2 hmid geo.rootDirStart (i - geo.rootDirStart) with hpre2def
      have hpre2lt : hpre2 < 4294967296 := fnvRegion_lt _ _ _ hmidlt
      have hidx : geo.rootDirStart + (i - geo.rootDirStart) = i := by omega
      rw [hidx] at heq
      have hstep : fnvStep hpre2 (img1.getD i) ≠ fnvStep hpre2 (img2.getD i) :=
        fnvStep_inj_b hpre2lt (by have := img1.getD_lt_256 i; omega)
          (by have := img2.getD_lt_256 i; omega) hne
      have htail : fnvRegion img1 (fnvStep hpre2 (img1.getD i)) (i + 1) k ≠
          fnvRegion img2 (fnvStep hpre2 (img2.getD i)) (i + 1) k :=
        fnvRegion_ne _ _ _ _ (fnvStep_lt _ _) (fnvStep_lt _ _) hstep
          (fun j hj1 hj2 => hag j (by omega))
      have hunf : ∀ (img : Image) (h s : Nat),
          fnvRegion img h s (k + 1) = fnvRegion img (fnvStep h (img.getD s)) (s + 1) k :=
        fun img h s => rfl
      rw [hunf, hunf] at heq
      exact htail heq
    · intro hiF hiR
      rw [diskFingerprint_eq_of_parse h1, diskFingerprint_eq_of_parse h2]
      rw [fnvRegion_congr _ _ _ (fun j hj1 hj2 => hag j (by omega)),
        fnvRegion_congr _ _ _ (fun j hj1 hj2 => hag j (by omega))]

/-- Witness for C6: flipping root-directory byte 384 of `cimg1` changes
the fingerprint. -/
theorem diskFingerprint_metadata_sensitive_witness :
    diskFingerprint cimg1 ≠ diskFingerprint (cimg1.setB 384 67) :=
  (diskFingerprint_metadata_sensitive.2 cimg1 (cimg1.setB 384 67) cgeo1 384
    (by decide) (by decide)
    (fun j hj => (cimg1.setB_getD_ne 384 67 j hj).symm)
    (by decide)).1 (by decide) (by decide)

/-! ## C4: geometry parsing -/

theorem Image.get?_getD_zero (img : Image) (j : Nat) : (img.get? j).getD 0 = img.getD j := by
  unfold Image.get? Image.getD
  split <;> simp

theorem Image.getD_of_get?_some {img : Image} {j v : Nat} (h : img.get? j = some v) :
    img.getD j = v := by
  rw [← Image.get?_getD_zero, h]
  rfl

theorem Image.readU16_some {img : Image} {off : Nat} (h : off + 2 ≤ img.len) :
    img.readU16 off = some (img.getW16 off) := by
  unfold Image.readU16 Image.getW16
  rw [if_pos h]

theorem Image.readU32_some {img : Image} {off : Nat} (h : off + 4 ≤ img.len) :
    img.readU32 off = some (img.getW32 off) := by
  unfold Image.readU32 Image.getW32
  rw [if_pos h]

theorem mkGeometry_none_iff (p bps spc res nf rde : Nat) (ts : Int) (spf : Nat) :
    mkGeometry p bps spc res nf rde ts spf = none ↔
      (bps < 128 ∨ 4096 < bps ∨ spc = 0 ∨ nf = 0 ∨ spf = 0) := by
  unfold mkGeometry
  by_cases h1 : bps < 128 ∨ 4096 < bps
  · rw [if_pos h1]
    simp only [true_iff]
    tauto
  · rw [if_neg h1]
    by_cases h2 : spc = 0 ∨ nf = 0 ∨ spf = 0
    · rw [if_pos h2]
      simp only [true_iff]
      tauto
    · rw [if_neg h2]
      push_neg at h1 h2
      constructor
      · intro hcontra
        exact absurd hcontra (by simp)
      · intro hcond
        exfalso
        rcases hcond with h | h | h | h | h <;> omega

theorem parseFATGeometry_none_iff (img : Image) :
    parseFATGeometry img = none ↔ geoRejectCond img (bpbOffB img) := by
  have hbpb : (if hasMBR img then scanPartsBAux img 0 4 else 0) = bpbOffB img := rfl
  unfold parseFATGeometry
  dsimp only
  rw [hbpb]
  by_cases hA : img.getW16 (bpbOffB img + 11) < 128 ∨ 4096 < img.getW16 (bpbOffB img + 11)
  · rw [if_pos hA]
    unfold geoRejectCond
    simp only [true_iff]
    tauto
  · rw [if_neg hA]
    by_cases hB : img.get? (bpbOffB img + 13) = some 0 ∨ img.get? (bpbOffB img + 16) = some 0
    · rw [if_pos hB]
      unfold geoRejectCond
      simp only [true_iff]
      rcases hB with h | h
      · exact Or.inr (Or.inr (Or.inl (Image.getD_of_get?_some h)))
      · exact Or.inr (Or.inr (Or.inr (Or.inl (Image.getD_of_get?_some h))))
    · rw [if_neg hB]
      by_cases hC : img.getW16 (bpbOffB img + 22) = 0
      · rw [if_pos hC]
        unfold geoRejectCond
        simp only [true_iff]
        exact Or.inr (Or.inr (Or.inr (Or.inr hC)))
      · rw [if_neg hC]
        rw [mkGeometry_none_iff]
        unfold geoRejectCond
        rw [Image.get?_getD_zero, Image.get?_getD_zero]

theorem parseGeometry_of_inbounds {img : Image} (h : bpbInBounds img) :
    parseGeometry img =
      some (mkGeometry (bpbOff img) (img.getW16 (bpbOff img + 11))
        (img.getD (bpbOff img + 13)) (img.getW16 (bpbOff img + 14))
        (img.getD (bpbOff img + 16)) (img.getW16 (bpbOff img + 17))
        (((if img.getW16 (bpbOff img + 19) = 0 then img.getW32 (bpbOff img + 32)
          else img.getW16 (bpbOff img + 19)) : Nat) : Int)
        (img.getW16 (bpbOff img + 22))) := by
  have hbpb : (if hasMBR img then scanPartsAux img 0 4 else 0) = bpbOff img := rfl
  unfold bpbInBounds at h
  unfold parseGeometry
  dsimp only
  rw [hbpb]
  rw [Image.readU16_some (by omega), Image.readU16_some (by omega),
    Image.readU16_some (by omega), Image.readU16_some (by omega),
    Image.readU16_some (by omega)]
  dsimp only
  by_cases hts : img.getW16 (bpbOff img + 19) = 0
  · rw [if_pos hts, if_pos hts, Image.readU32_some (by omega)]
  · rw [if_neg hts, if_neg hts]

/-- C4 (amended): the browser-side `parseFATGeometry` is total and
returns "no geometry" (`none`) precisely when the BPB fields read at its
partition offset are invalid (bytes/sector outside `[128, 4096]`, or a
zero sectors/cluster, FAT count or sectors/FAT byte); the server-side
`parseGeometry` cannot throw while its BPB reads stay inside the buffer
and then rejects under exactly the same condition; a 512-byte all-zero
buffer yields "no geometry" from both (no exception); and both parsers
are deterministic functions of the image bytes.  (As stated the claim is
false: a larger buffer whose partition entry points the BPB outside the
buffer makes the server-side `readUInt16LE` throw — see the
counterexample.) -/
theorem parsers_reject_iff_invalid_bpb :
    (∀ img : Image, parseFATGeometry img = none ↔ geoRejectCond img (bpbOffB img)) ∧
    (∀ img : Image, bpbInBounds img →
      parseGeometry img ≠ none ∧
      (parseGeometry img = some none ↔ geoRejectCond img (bpbOff img))) ∧
    (parseGeometry zeroImg512 = some none ∧ parseFATGeometry zeroImg512 = none) ∧
    (∀ i1 i2 : Image, i1.len = i2.len → (∀ j, i1.getD j = i2.getD j) →
      parseGeometry i1 = parseGeometry i2 ∧ parseFATGeometry i1 = parseFATGeometry i2) := by
  refine ⟨parseFATGeometry_none_iff, ?_, ⟨by decide, by decide⟩,
    fun i1 i2 hl hg => ⟨parseGeometry_congr hl hg, parseFATGeometry_congr hl hg⟩⟩
  intro img h
  rw [parseGeometry_of_inbounds h]
  constructor
  · simp
  · rw [Option.some_inj, mkGeometry_none_iff]
    unfold geoRejectCond
    exact Iff.rfl

/-- Witness for C4 on the in-bounds image `cimg1`. -/
theorem parsers_reject_iff_invalid_bpb_witness :
    parseGeometry cimg1 ≠ none ∧ (parseGeometry cimg1 = some none ↔
      geoRejectCond cimg1 (bpbOff cimg1)) :=
  parsers_reject_iff_invalid_bpb.2.1 cimg1 (by decide)

/-- Counterexample for C4 as stated: `cimg4` is a 1024-byte buffer with
a valid MBR signature and a FAT16 partition entry whose starting LBA
sends the BPB reads far outside the buffer, so the server-side
`parseGeometry` throws a `RangeError` (modelled `none`) instead of
returning "no geometry". -/
theorem parseGeometry_throws_on_crafted_mbr :
    512 ≤ cimg4.len ∧ parseGeometry cimg4 = none := ⟨by decide, by decide⟩

/-! ## C8: live-sync push idempotence -/

theorem wsLookup_cons (p : List Char × List Nat) (rest : Workspace) (n : List Char) :
    wsLookup (p :: rest) n = if p.1 = n then some p.2 else wsLookup rest n := by
  unfold wsLookup
  simp only [List.find?]
  by_cases h : p.1 = n
  · rw [show decide (p.1 = n) = true from decide_eq_true h]
    simp [h]
  · rw [show decide (p.1 = n) = false from decide_eq_false h]
    simp [h]

theorem wsUpsert_lookup_same (ws : Workspace) (n : List Char) (d : List Nat) :
    wsLookup (wsUpsert ws n d) n = some d := by
  induction ws with
  | nil => simp [wsUpsert, wsLookup_cons]
  | cons p rest ih =>
    unfold wsUpsert
    by_cases hm : p.1 = n
    · rw [if_pos hm, wsLookup_cons]
      simp
    · rw [if_neg hm, wsLookup_cons, if_neg hm]
      exact ih

theorem wsUpsert_lookup_ne (ws : Workspace) (n m : List Char) (d : List Nat)
    (hne : m ≠ n) : wsLookup (wsUpsert ws n d) m = wsLookup ws m := by
  induction ws with
  | nil =>
    unfold wsUpsert
    rw [wsLookup_cons, if_neg (fun h => hne h.symm)]
  | cons p rest ih =>
    unfold wsUpsert
    by_cases hm : p.1 = n
    · rw [if_pos hm, wsLookup_cons, if_neg (fun h => hne h.symm), wsLookup_cons,
        if_neg (by rw [hm]; exact fun h => hne h.symm)]
    · rw [if_neg hm, wsLookup_cons, wsLookup_cons]
      by_cases hp : p.1 = m
      · rw [if_pos hp, if_pos hp]
      · rw [if_neg hp, if_neg hp]
        exact ih

theorem syncWriteFiles_lookup_not_mem (ws : Workspace)
    (fs : List (List Char × List Nat)) (n : List Char)
    (hn : ¬ n ∈ fs.map Prod.fst) :
    wsLookup (syncWriteFiles ws fs).1 n = wsLookup ws n := by
  induction fs generalizing ws with
  | nil => rfl
  | cons f rest ih =>
    unfold syncWriteFiles
    dsimp only
    simp only [List.map_cons, List.mem_cons] at hn
    push_neg at hn
    rw [ih _ (hn.2)]
    split
    · exact wsUpsert_lookup_ne ws f.1 n f.2 hn.1
    · rfl

theorem syncWriteFiles_lookup_mem (ws : Workspace)
    (fs : List (List Char × List Nat)) (n : List Char) (d : List Nat)
    (hmem : (n, d) ∈ fs) (hnd : (fs.map Prod.fst).Nodup) :
    wsLookup (syncWriteFiles ws fs).1 n = some d := by
  induction fs generalizing ws with
  | nil => simp at hmem
  | cons f rest ih =>
    simp only [List.map_cons, List.nodup_cons] at hnd
    rcases List.mem_cons.mp hmem with heq | hrest
    · subst heq
      unfold syncWriteFiles
      dsimp only
      rw [syncWriteFiles_lookup_not_mem _ _ _ hnd.1]
      split
      · exact wsUpsert_lookup_same ws n d
      · rename_i hw
        rw [not_not] at hw
        exact hw
    · unfold syncWriteFiles
      dsimp only
      exact ih _ hrest hnd.2

theorem syncWriteFiles_all_match (ws : Workspace) (fs : List (List Char × List Nat))
    (h : ∀ p ∈ fs, wsLookup ws p.1 = some p.2) :
    syncWriteFiles ws fs = (ws, []) := by
  induction fs with
  | nil => rfl
  | cons f rest ih =>
    unfold syncWriteFiles
    dsimp only
    have hf : wsLookup ws f.1 = some f.2 := h f (by simp)
    rw [if_neg (show ¬ wsLookup ws f.1 ≠ some f.2 by rw [hf]; simp),
      if_neg (show ¬ wsLookup ws f.1 ≠ some f.2 by rw [hf]; simp)]
    rw [ih (fun p hp => h p (by simp [hp]))]
    rfl

theorem wsLookup_filter_mem (ws : Workspace) (names : List (List Char)) (n : List Char)
    (hn : names.contains n = true) :
    wsLookup (ws.filter fun p => names.contains p.1) n = wsLookup ws n := by
  induction ws with
  | nil => rfl
  | cons p rest ih =>
    by_cases hc : names.contains p.1 = true
    · rw [List.filter_cons, if_pos hc, wsLookup_cons, wsLookup_cons]
      by_cases hp : p.1 = n
      · rw [if_pos hp, if_pos hp]
      · rw [if_neg hp, if_neg hp]
        exact ih
    · rw [List.filter_cons, if_neg hc, wsLookup_cons,
        if_neg (fun h => hc (by rw [h]; exact hn))]
      exact ih

/-- C8 (amended): whenever the extracted file list of an image carries
pairwise-distinct names, pushing that unchanged image twice in a row
reports zero changed files on the second run, rewrites nothing, and
deletes no host file: the second `liveSync` leaves the host workspace
exactly as the first run left it, with an empty changed report.  (With
duplicate 8.3 names in the root directory the second run keeps
rewriting, see the counterexample.) -/
theorem liveSync_push_idempotent (img : Image) (ws : Workspace)
    (files : List (List Char × List Nat))
    (hex : extractFilesFromImage img = some files)
    (hnd : (files.map Prod.fst).Nodup)
    (ws1 : Workspace) (ch1 : List (List Char))
    (hrun1 : liveSync img ws = some (ws1, ch1)) :
    liveSync img ws1 = some (ws1, []) := by
  unfold liveSync at hrun1 ⊢
  rw [hex] at hrun1 ⊢
  simp only [Option.map_some'] at hrun1 ⊢
  rw [Option.some_inj] at hrun1
  have hws1 : ws1 = (syncWriteFiles ws files).1.filter
      (fun p => (files.map (fun f => f.1)).contains p.1) := by
    have := congrArg Prod.fst hrun1
    simpa using this.symm
  have hmapeq : files.map (fun f => f.1) = files.map Prod.fst := rfl
  have hA : ∀ p ∈ files, wsLookup ws1 p.1 = some p.2 := by
    intro p hp
    have hcont : (files.map (fun f => f.1)).contains p.1 = true := by
      rw [hmapeq]
      exact List.elem_eq_true_of_mem (List.mem_map_of_mem Prod.fst hp)
    rw [hws1, wsLookup_filter_mem _ _ _ hcont]
    exact syncWriteFiles_lookup_mem ws files p.1 p.2 hp hnd
  have hB : syncWriteFiles ws1 files = (ws1, []) := syncWriteFiles_all_match ws1 files hA
  rw [Option.some_inj]
  have hmem1 : ∀ p ∈ ws1, (files.map (fun f => f.1)).contains p.1 = true := by
    intro p hp
    rw [hws1] at hp
    exact (List.mem_filter.mp hp).2
  rw [hB]
  dsimp only
  rw [Prod.mk.injEq]
  refine ⟨List.filter_eq_self.mpr hmem1, ?_⟩
  rw [List.nil_append, List.map_eq_nil_iff, List.filter_eq_nil_iff]
  intro p hp
  rw [hmem1 p hp]
  simp

/-- Witness for C8 on an image whose extraction is empty. -/
theorem liveSync_push_idempotent_witness :
    liveSync zeroImg512 [] = some ([], []) := by
  have h := liveSync_push_idempotent zeroImg512 [] [] (by decide) (by decide) [] []
    (by decide)
  exact h

/-- C8 counterexample: `cimg8` carries two root-directory entries that
both decode to the name `A.TXT` with different contents (cluster 2 holds
`A`, cluster 3 holds `B`).  Pushing it into an empty host workspace
leaves the host copy of `A.TXT` holding the second entry's bytes, so the
second push finds the first entry differing again and rewrites: the
second run's changed-file report is `["A.TXT", "A.TXT"]`, not empty. -/
theorem liveSync_push_second_run_changed :
    (liveSync cimg8 []).map Prod.fst = some c8ws1 ∧
    (liveSync cimg8 c8ws1).map Prod.snd =
      some [['A', '.', 'T', 'X', 'T'], ['A', '.', 'T', 'X', 'T']] := by
  exact ⟨by decide, by decide⟩

/-! ## C5: chain-following reader round-trip -/

theorem byChainAux_succ_eq (img : Image) (geo : Geometry) (t c : Nat) :
    byChainAux img geo (t + 1) c =
      if 2 ≤ c ∧ ¬ isEOF geo c then
        if 0 < t then
          sliceChunk img (geo.dataStart + (c - 2) * geo.bytesPerCluster)
              geo.bytesPerCluster ::
            byChainAux img geo t (readFATEntry img geo c)
        else []
      else [] := rfl

theorem byChainAux_of_eof (img : Image) (geo : Geometry) (c : Nat) (h : isEOF geo c) :
    ∀ s, byChainAux img geo s c = []
  | 0 => rfl
  | s + 1 => by rw [byChainAux_succ_eq, if_neg (fun hx => hx.2 h)]

theorem byChainAux_proper (img : Image) (geo : Geometry) :
    ∀ (rest : List Nat) (c0 s : Nat), properChain img geo (c0 :: rest) →
      rest.length + 1 < s →
      byChainAux img geo s c0 = (c0 :: rest).map (chainChunk img geo) := by
  intro rest
  induction rest with
  | nil =>
    intro c0 s hp hs
    obtain ⟨t, rfl⟩ : ∃ t, s = t + 1 := ⟨s - 1, by omega⟩
    obtain ⟨h2, hne, heof⟩ : 2 ≤ c0 ∧ ¬ isEOF geo c0 ∧
        isEOF geo (readFATEntry img geo c0) := hp
    rw [byChainAux_succ_eq, if_pos ⟨h2, hne⟩, if_pos (by omega : 0 < t),
      byChainAux_of_eof img geo _ heof t]
    rfl
  | cons c1 rest ih =>
    intro c0 s hp hs
    obtain ⟨t, rfl⟩ : ∃ t, s = t + 1 := ⟨s - 1, by omega⟩
    obtain ⟨h2, hne, hentry, hrec⟩ : 2 ≤ c0 ∧ ¬ isEOF geo c0 ∧
        readFATEntry img geo c0 = c1 ∧ properChain img geo (c1 :: rest) := hp
    simp only [List.length_cons] at hs
    rw [byChainAux_succ_eq, if_pos ⟨h2, hne⟩, if_pos (by omega : 0 < t), hentry,
      ih c1 t hrec (by omega)]
    rfl

theorem readFATFileByChain_def (img : Image) (geo : Geometry) (c : Nat) :
    readFATFileByChain img geo c =
      if c < 2 then none
      else if byChainAux img geo 10000 c = [] then none
      else if trimTrailingZeros (byChainAux img geo 10000 c).flatten = [] then none
      else some (trimTrailingZeros (byChainAux img geo 10000 c).flatten) := rfl

theorem trimTrailingZeros_concat_zero (l : List Nat) :
    trimTrailingZeros (l ++ [0]) = trimTrailingZeros l := by
  unfold trimTrailingZeros
  rw [List.reverse_append]
  simp

theorem trimTrailingZeros_append_replicate (l : List Nat) (n : Nat) :
    trimTrailingZeros (l ++ List.replicate n 0) = trimTrailingZeros l := by
  induction n with
  | zero => simp
  | succ m ih =>
    rw [List.replicate_succ', ← List.append_assoc, trimTrailingZeros_concat_zero, ih]

theorem trimTrailingZeros_of_last_ne (l : List Nat) (a : Nat) (ha : a ≠ 0) :
    trimTrailingZeros (l ++ [a]) = l ++ [a] := by
  unfold trimTrailingZeros
  rw [List.reverse_append]
  simp [List.dropWhile_cons, ha]

theorem trimTrailingZeros_length_le (l : List Nat) :
    (trimTrailingZeros l).length ≤ l.length := by
  unfold trimTrailingZeros
  rw [List.length_reverse]
  exact le_trans ((List.dropWhile_sublist _).length_le)
    (Nat.le_of_eq (List.length_reverse _))

theorem getLast?_replicate_pos (n a : Nat) (h : 0 < n) :
    (List.replicate n a).getLast? = some a := by
  cases n with
  | zero => omega
  | succ m => rw [List.replicate_succ', List.getLast?_concat]

/-- C5 (amended): on any image with parsed geometry, any properly
end-of-chain-terminated cluster chain of at most 9999 clusters, and any
non-empty payload whose last byte is not NUL laid out at the start of
the chain's data clusters followed only by zero padding, the
chain-following reader `readFATFileByChain` started at the chain's first
cluster returns exactly the payload.  (The original claim holds only up
to the reader's safety counter: chains of 10000 or more clusters are
truncated, see the counterexample.) -/
theorem readFATFileByChain_roundtrip (img : Image) (geo : Geometry)
    (_hgeo : parseFATGeometry img = some geo)
    (chain : List Nat) (c0 : Nat) (rest : List Nat) (hch : chain = c0 :: rest)
    (hproper : properChain img geo chain)
    (hlen : chain.length ≤ 9999)
    (payload : List Nat) (pad : Nat)
    (hflat : (chain.map (chainChunk img geo)).flatten = payload ++ List.replicate pad 0)
    (hpne : payload ≠ [])
    (hlast : payload.getLast? ≠ some 0) :
    readFATFileByChain img geo c0 = some payload := by
  subst hch
  have h2 : 2 ≤ c0 := by
    cases rest with
    | nil => exact hproper.1
    | cons a l => exact hproper.1
  simp only [List.length_cons] at hlen
  rw [readFATFileByChain_def, if_neg (by omega : ¬ c0 < 2),
    byChainAux_proper img geo rest c0 10000 hproper (by omega)]
  rw [if_neg (by simp : ¬ ((c0 :: rest).map (chainChunk img geo) = []))]
  rw [hflat]
  have htrim : trimTrailingZeros (payload ++ List.replicate pad 0) = payload := by
    rw [trimTrailingZeros_append_replicate]
    have ha : payload.getLast? = some (payload.getLast hpne) :=
      List.getLast?_eq_getLast_of_ne_nil hpne
    have ha0 : payload.getLast hpne ≠ 0 := fun h => hlast (h ▸ ha)
    have hsplit : payload.dropLast ++ [payload.getLast hpne] = payload :=
      List.dropLast_append_getLast hpne
    conv_lhs => rw [← hsplit]
    rw [trimTrailingZeros_of_last_ne _ _ ha0, hsplit]
  rw [htrim, if_neg hpne]

/-- Witness for C5 on a one-cluster chain holding the payload `HI`. -/
theorem readFATFileByChain_roundtrip_witness :
    readFATFileByChain cimg5w cgeo1 2 = some [72, 73] :=
  readFATFileByChain_roundtrip cimg5w cgeo1 (by decide) [2] 2 [] rfl (by decide)
    (by decide) [72, 73] 126 (by decide) (by decide) (by decide)

theorem cimg5big_byte_lo (c : Nat) (h2 : 2 ≤ c) (hle : c ≤ 10000) :
    cimg5big.getD (512 + c * 2) = (c + 1) % 256 := by
  unfold cimg5big Image.getD
  dsimp only
  rw [if_pos (by omega)]
  iterate 8 rw [if_neg (by omega)]
  rw [if_pos (by omega : 516 ≤ 512 + c * 2 ∧ 512 + c * 2 ≤ 20515)]
  have e1 : (512 + c * 2 - 512) / 2 = c := by omega
  have e2 : (512 + c * 2 - 512) % 2 = 0 := by omega
  rw [e1, e2, if_pos hle, if_pos rfl]
  exact Nat.mod_mod_of_dvd (c + 1) (dvd_refl 256)

theorem cimg5big_byte_hi (c : Nat) (h2 : 2 ≤ c) (hle : c ≤ 10000) :
    cimg5big.getD (512 + c * 2 + 1) = (c + 1) / 256 := by
  unfold cimg5big Image.getD
  dsimp only
  rw [if_pos (by omega)]
  iterate 8 rw [if_neg (by omega)]
  rw [if_pos (by omega : 516 ≤ 512 + c * 2 + 1 ∧ 512 + c * 2 + 1 ≤ 20515)]
  have e1 : (512 + c * 2 + 1 - 512) / 2 = c := by omega
  have e2 : ¬ ((512 + c * 2 + 1 - 512) % 2 = 0) := by omega
  rw [e1, if_pos hle, if_neg e2]
  exact Nat.mod_eq_of_lt (by omega)

theorem cimg5big_entry (c : Nat) (h2 : 2 ≤ c) (hle : c ≤ 10000) :
    readFATEntry cimg5big cgeo5big c = c + 1 := by
  unfold readFATEntry
  rw [if_neg (by decide : ¬ cgeo5big.fatType = 12)]
  show cimg5big.getD (cgeo5big.fatStart + c * 2) +
    256 * cimg5big.getD (cgeo5big.fatStart + c * 2 + 1) = c + 1
  have hfs : cgeo5big.fatStart = 512 := rfl
  rw [hfs, cimg5big_byte_lo c h2 hle, cimg5big_byte_hi c h2 hle]
  omega

theorem cimg5big_entry_eof : readFATEntry cimg5big cgeo5big 10001 = 65535 := by decide

theorem cimg5big_chain : ∀ (n c : Nat), 2 ≤ c → c + n = 10002 →
    properChain cimg5big cgeo5big (List.range' c n) := by
  intro n
  induction n with
  | zero => intro c _ _; exact True.intro
  | succ m ih =>
    intro c h2 hsum
    rw [List.range'_succ]
    cases m with
    | zero =>
      have hc : c = 10001 := by omega
      subst hc
      show 2 ≤ 10001 ∧ ¬ isEOF cgeo5big 10001 ∧
        isEOF cgeo5big (readFATEntry cimg5big cgeo5big 10001)
      refine ⟨by omega, by decide, ?_⟩
      rw [cimg5big_entry_eof]
      decide
    | succ k =>
      rw [List.range'_succ]
      show 2 ≤ c ∧ ¬ isEOF cgeo5big c ∧ readFATEntry cimg5big cgeo5big c = c + 1 ∧
        properChain cimg5big cgeo5big ((c + 1) :: List.range' (c + 1 + 1) k)
      refine ⟨h2, ?_, cimg5big_entry c h2 (by omega), ?_⟩
      · show ¬ isEOF cgeo5big c
        unfold isEOF
        rw [if_neg (by decide : ¬ cgeo5big.fatType = 12)]
        omega
      · have hrec := ih (c + 1) (by omega) (by omega)
        rw [List.range'_succ] at hrec
        exact hrec

theorem cimg5big_chunk (c : Nat) (h2 : 2 ≤ c) (hle : c ≤ 10001) :
    chainChunk cimg5big cgeo5big c = List.replicate 512 1 := by
  unfold chainChunk sliceChunk
  have hds : cgeo5big.dataStart = 41984 := rfl
  have hbpc : cgeo5big.bytesPerCluster = 512 := rfl
  have hilen : cimg5big.len = 5161984 := rfl
  rw [hds, hbpc, hilen, min_eq_left (by omega)]
  rw [List.eq_replicate_iff]
  refine ⟨by simp, ?_⟩
  intro x hx
  obtain ⟨b, hb, rfl⟩ := List.mem_map.mp hx
  have hbb : b < 512 := List.mem_range.mp hb
  show cimg5big.getD (41984 + (c - 2) * 512 + b) = 1
  unfold cimg5big Image.getD
  dsimp only
  rw [if_pos (by omega)]
  iterate 8 rw [if_neg (by omega)]
  rw [if_neg (by omega : ¬ (516 ≤ 41984 + (c - 2) * 512 + b ∧
      41984 + (c - 2) * 512 + b ≤ 20515)),
    if_pos (by omega : 41984 ≤ 41984 + (c - 2) * 512 + b)]

theorem cimg5big_map_chunks :
    (List.range' 2 10000).map (chainChunk cimg5big cgeo5big)
      = List.replicate 10000 (List.replicate 512 1) := by
  rw [List.eq_replicate_iff]
  refine ⟨by simp, ?_⟩
  intro x hx
  obtain ⟨c, hc, rfl⟩ := List.mem_map.mp hx
  have hb := List.mem_range'_1.mp hc
  exact cimg5big_chunk c (by omega) (by omega)

theorem cimg5big_flatten :
    ((List.range' 2 10000).map (chainChunk cimg5big cgeo5big)).flatten
      = List.replicate 5120000 1 ++ List.replicate 0 0 := by
  rw [cimg5big_map_chunks, List.flatten_replicate_replicate]
  norm_num

theorem sliceChunk_length_le (img : Image) (off limit : Nat) :
    (sliceChunk img off limit).length ≤ limit := by
  unfold sliceChunk
  simp only [List.length_map, List.length_range]
  exact min_le_left _ _

theorem byChainAux_chunk_length_le (img : Image) (geo : Geometry) :
    ∀ (s c : Nat), ∀ l ∈ byChainAux img geo s c, l.length ≤ geo.bytesPerCluster := by
  intro s
  induction s with
  | zero => intro c l hl; exact absurd hl (by simp [byChainAux])
  | succ t ih =>
    intro c l hl
    rw [byChainAux_succ_eq] at hl
    by_cases h1 : 2 ≤ c ∧ ¬ isEOF geo c
    · rw [if_pos h1] at hl
      by_cases hp : 0 < t
      · rw [if_pos hp] at hl
        rcases List.mem_cons.mp hl with rfl | hl2
        · exact sliceChunk_length_le img _ _
        · exact ih _ l hl2
      · rw [if_neg hp] at hl
        exact absurd hl (by simp)
    · rw [if_neg h1] at hl
      exact absurd hl (by simp)

theorem flatten_length_le_mul (L : List (List Nat)) (b : Nat)
    (h : ∀ l ∈ L, l.length ≤ b) : L.flatten.length ≤ L.length * b := by
  induction L with
  | nil => simp
  | cons x xs ih =>
    rw [List.flatten_cons, List.length_append, List.length_cons]
    have h1 := h x (List.mem_cons_self x xs)
    have h2 := ih (fun l hl => h l (List.mem_cons_of_mem x hl))
    have h3 : (xs.length + 1) * b = xs.length * b + b := by ring
    omega

/-- C5 counterexample: the FAT of `cimg5big` links clusters 2 … 10001
into one properly terminated 10000-cluster chain whose data is the
5120000-byte all-ones payload (no zero padding at all), yet
`readFATFileByChain` does not return that payload: its safety counter
stops the walk after 9999 clusters, so the result is too short. -/
theorem readFATFileByChain_truncates_long_chain :
    parseFATGeometry cimg5big = some cgeo5big ∧
    properChain cimg5big cgeo5big (List.range' 2 10000) ∧
    ((List.range' 2 10000).map (chainChunk cimg5big cgeo5big)).flatten
      = List.replicate 5120000 1 ++ List.replicate 0 0 ∧
    List.replicate 5120000 1 ≠ ([] : List Nat) ∧
    (List.replicate 5120000 1).getLast? ≠ some 0 ∧
    readFATFileByChain cimg5big cgeo5big 2 ≠ some (List.replicate 5120000 1) := by
  refine ⟨by decide, cimg5big_chain 10000 2 (by omega) (by omega), cimg5big_flatten,
    ?_, ?_, ?_⟩
  · intro h
    have hlc := congrArg List.length h
    rw [List.length_replicate, List.length_nil] at hlc
    exact absurd hlc (by omega)
  · rw [getLast?_replicate_pos 5120000 1 (by omega)]
    decide
  · intro h
    rw [readFATFileByChain_def, if_neg (by omega : ¬ (2 : Nat) < 2)] at h
    have hlen9 : (byChainAux cimg5big cgeo5big 10000 2).length ≤ 9999 := by
      have hb := byChainAux_length_le cimg5big cgeo5big 10000 2
      omega
    have hchl : ∀ l ∈ byChainAux cimg5big cgeo5big 10000 2, l.length ≤ 512 := by
      intro l hl
      have hc := byChainAux_chunk_length_le cimg5big cgeo5big 10000 2 l hl
      rwa [show cgeo5big.bytesPerCluster = 512 from rfl] at hc
    have hfl : (byChainAux cimg5big cgeo5big 10000 2).flatten.length ≤ 9999 * 512 := by
      have hm := flatten_length_le_mul _ 512 hchl
      have hmul := Nat.mul_le_mul_right 512 hlen9
      omega
    by_cases hc0 : byChainAux cimg5big cgeo5big 10000 2 = []
    · rw [if_pos hc0] at h
      exact Option.noConfusion h
    · rw [if_neg hc0] at h
      by_cases ht : trimTrailingZeros (byChainAux cimg5big cgeo5big 10000 2).flatten = []
      · rw [if_pos ht] at h
        exact Option.noConfusion h
      · rw [if_neg ht] at h
        have heq := Option.some_inj.mp h
        have htl := trimTrailingZeros_length_le
          (byChainAux cimg5big cgeo5big 10000 2).flatten
        rw [heq] at htl
        simp only [List.length_replicate] at htl
        omega

/-! ## C3: FAT mirror invariant -/

theorem writeFATEntry_eq16 (img : Image) (geo : Geometry) (c v : Nat)
    (hft : ¬ geo.fatType = 12) :
    writeFATEntry img geo c v =
      (((img.setB (geo.fatStart + c * 2) (v % 256)).setB
        (geo.fatStart + c * 2 + 1) (v / 256 % 256)).setB
        (geo.fat2Start + c * 2) (v % 256)).setB
        (geo.fat2Start + c * 2 + 1) (v / 256 % 256) := by
  unfold writeFATEntry writeFATEntry1
  rw [if_neg hft, if_neg hft]

theorem writeFATEntry1_len (img : Image) (geo : Geometry) (base c v : Nat) :
    (writeFATEntry1 img geo base c v).len = img.len := by
  unfold writeFATEntry1
  split <;> (dsimp only; rw [Image.setB_len, Image.setB_len])

theorem writeFATEntry_len (img : Image) (geo : Geometry) (c v : Nat) :
    (writeFATEntry img geo c v).len = img.len := by
  unfold writeFATEntry
  rw [writeFATEntry1_len, writeFATEntry1_len]

theorem writeFATEntry_fat16_preserves (img : Image) (geo : Geometry) (c v : Nat)
    (hft : ¬ geo.fatType = 12)
    (hlay1 : geo.fat2Start = geo.fatStart + geo.sectorsPerFAT * geo.bytesPerSector)
    (hbound : geo.fat2Start + geo.sectorsPerFAT * geo.bytesPerSector ≤ img.len)
    (hc : 2 * c + 2 ≤ geo.sectorsPerFAT * geo.bytesPerSector)
    (hinv : fatRegionsEqual img geo) :
    fatRegionsEqual (writeFATEntry img geo c v) geo := by
  intro j hj
  rw [writeFATEntry_eq16 img geo c v hft]
  by_cases h1 : j = c * 2
  · subst h1
    rw [Image.setB_getD_ne _ _ _ _ (by omega), Image.setB_getD_ne _ _ _ _ (by omega),
      Image.setB_getD_ne _ _ _ _ (by omega),
      Image.setB_getD_same _ _ _ (by omega),
      Image.setB_getD_ne _ _ _ _ (by omega),
      Image.setB_getD_same _ _ _ (by rw [Image.setB_len, Image.setB_len]; omega)]
  · by_cases h2 : j = c * 2 + 1
    · subst h2
      rw [show geo.fatStart + (c * 2 + 1) = geo.fatStart + c * 2 + 1 from by omega,
        show geo.fat2Start + (c * 2 + 1) = geo.fat2Start + c * 2 + 1 from by omega]
      rw [Image.setB_getD_ne _ _ _ _ (by omega), Image.setB_getD_ne _ _ _ _ (by omega),
        Image.setB_getD_same _ _ _ (by rw [Image.setB_len]; omega),
        Image.setB_getD_same _ _ _
          (by rw [Image.setB_len, Image.setB_len, Image.setB_len]; omega)]
    · rw [Image.setB_getD_ne _ _ _ _ (by omega), Image.setB_getD_ne _ _ _ _ (by omega),
        Image.setB_getD_ne _ _ _ _ (by omega), Image.setB_getD_ne _ _ _ _ (by omega),
        Image.setB_getD_ne _ _ _ _ (by omega), Image.setB_getD_ne _ _ _ _ (by omega),
        Image.setB_getD_ne _ _ _ _ (by omega), Image.setB_getD_ne _ _ _ _ (by omega)]
      exact hinv j hj

theorem writeFATEntry_getD_high (img : Image) (geo : Geometry) (c v k : Nat)
    (hft : ¬ geo.fatType = 12)
    (hlay1 : geo.fat2Start = geo.fatStart + geo.sectorsPerFAT * geo.bytesPerSector)
    (hc : 2 * c + 2 ≤ geo.sectorsPerFAT * geo.bytesPerSector)
    (hk : geo.fat2Start + geo.sectorsPerFAT * geo.bytesPerSector ≤ k) :
    (writeFATEntry img geo c v).getD k = img.getD k := by
  rw [writeFATEntry_eq16 img geo c v hft]
  rw [Image.setB_getD_ne _ _ _ _ (by omega), Image.setB_getD_ne _ _ _ _ (by omega),
    Image.setB_getD_ne _ _ _ _ (by omega), Image.setB_getD_ne _ _ _ _ (by omega)]

theorem writeDataChain_len (geo : Geometry) (fileData : List Nat) (eofMark : Nat) :
    ∀ (cs : List Nat) (img : Image) (i : Nat),
      (writeDataChain geo fileData eofMark img i cs).len = img.len := by
  intro cs
  induction cs with
  | nil => intro img i; rfl
  | cons c rest ih =>
    intro img i
    unfold writeDataChain
    dsimp only
    rw [ih, writeFATEntry_len, Image.setBytes_len]

theorem writeDataChain_getD_away (geo : Geometry) (fileData : List Nat) (eofMark : Nat)
    (hft : ¬ geo.fatType = 12)
    (hlay1 : geo.fat2Start = geo.fatStart + geo.sectorsPerFAT * geo.bytesPerSector) :
    ∀ (cs : List Nat) (img : Image) (i k : Nat),
      (∀ c ∈ cs, 2 * c + 2 ≤ geo.sectorsPerFAT * geo.bytesPerSector) →
      geo.fat2Start + geo.sectorsPerFAT * geo.bytesPerSector ≤ k → k < geo.dataStart →
      (writeDataChain geo fileData eofMark img i cs).getD k = img.getD k := by
  intro cs
  induction cs with
  | nil => intro img i k _ _ _; rfl
  | cons c rest ih =>
    intro img i k hcs hk1 hk2
    unfold writeDataChain
    dsimp only
    have hoff : geo.dataStart ≤ geo.dataStart + (c - 2) * geo.bytesPerCluster :=
      Nat.le_add_right _ _
    rw [ih _ _ _ (fun c2 h2 => hcs c2 (List.mem_cons_of_mem c h2)) hk1 hk2,
      writeFATEntry_getD_high _ _ _ _ _ hft hlay1 (hcs c (List.mem_cons_self c rest)) hk1,
      Image.setBytes_getD_lt _ _ _ _ (lt_of_lt_of_le hk2 hoff)]

theorem writeDataChain_fat16_preserves (geo : Geometry) (fileData : List Nat)
    (eofMark : Nat) (hft : ¬ geo.fatType = 12)
    (hlay1 : geo.fat2Start = geo.fatStart + geo.sectorsPerFAT * geo.bytesPerSector)
    (hds : geo.fat2Start + geo.sectorsPerFAT * geo.bytesPerSector ≤ geo.dataStart) :
    ∀ (cs : List Nat) (img : Image) (i : Nat),
      (∀ c ∈ cs, 2 * c + 2 ≤ geo.sectorsPerFAT * geo.bytesPerSector) →
      geo.fat2Start + geo.sectorsPerFAT * geo.bytesPerSector ≤ img.len →
      fatRegionsEqual img geo →
      fatRegionsEqual (writeDataChain geo fileData eofMark img i cs) geo := by
  intro cs
  induction cs with
  | nil => intro img i _ _ hinv; exact hinv
  | cons c rest ih =>
    intro img i hcs hbound hinv
    unfold writeDataChain
    dsimp only
    apply ih
    · exact fun c2 h2 => hcs c2 (List.mem_cons_of_mem c h2)
    · rw [writeFATEntry_len, Image.setBytes_len]; exact hbound
    · apply writeFATEntry_fat16_preserves _ _ _ _ hft hlay1
      · rw [Image.setBytes_len]; exact hbound
      · exact hcs c (List.mem_cons_self c rest)
      · intro j hj
        have hoff : geo.dataStart ≤ geo.dataStart + (c - 2) * geo.bytesPerCluster :=
          Nat.le_add_right _ _
        have hfa : geo.fatStart + j < geo.fat2Start := by
          rw [hlay1]; exact Nat.add_lt_add_left hj _
        have hfb : geo.fat2Start + j < geo.fat2Start + geo.sectorsPerFAT * geo.bytesPerSector :=
          Nat.add_lt_add_left hj _
        rw [Image.setBytes_getD_lt _ _ _ _
            (lt_of_lt_of_le hfa (le_trans (le_trans (Nat.le_add_right _ _) hds) hoff)),
          Image.setBytes_getD_lt _ _ _ _ (lt_of_lt_of_le hfb (le_trans hds hoff))]
        exact hinv j hj

theorem get?_eq_ite (img : Image) (k : Nat) :
    img.get? k = if k < img.len then some (img.getD k) else none := by
  by_cases h : k < img.len <;> simp [Image.get?, Image.getD, h]

theorem findSome?_congr_mem {α β : Type} (f g : α → Option β) (l : List α)
    (h : ∀ a ∈ l, f a = g a) : l.findSome? f = l.findSome? g := by
  induction l with
  | nil => rfl
  | cons a l ih =>
    rw [List.findSome?_cons, List.findSome?_cons, h a (List.mem_cons_self a l)]
    cases g a with
    | none => exact ih (fun x hx => h x (List.mem_cons_of_mem a hx))
    | some b => rfl

theorem findExisting_congr (imgA imgB : Image) (geo : Geometry) (fnfe : List Char)
    (hlen : imgA.len = imgB.len)
    (hb : ∀ k, geo.rootDirStart ≤ k → k < geo.rootDirStart + geo.rootDirEntries * 32 →
      imgA.getD k = imgB.getD k) :
    findExisting imgA geo fnfe = findExisting imgB geo fnfe := by
  unfold findExisting
  apply findSome?_congr_mem
  intro i hi
  have hiN : i < geo.rootDirEntries := List.mem_range.mp hi
  dsimp only
  have hoff : ∀ c : Nat, c < 32 →
      imgA.getD (geo.rootDirStart + i * 32 + c) = imgB.getD (geo.rootDirStart + i * 32 + c) :=
    fun c hc => hb _ (by omega) (by omega)
  have h0 : imgA.getD (geo.rootDirStart + i * 32) = imgB.getD (geo.rootDirStart + i * 32) := by
    have := hoff 0 (by omega)
    simpa using this
  have hget : imgA.get? (geo.rootDirStart + i * 32) = imgB.get? (geo.rootDirStart + i * 32) := by
    rw [get?_eq_ite, get?_eq_ite, hlen, h0]
  have hfd : slotFreeOrDeleted imgA (geo.rootDirStart + i * 32) ↔
      slotFreeOrDeleted imgB (geo.rootDirStart + i * 32) := by
    unfold slotFreeOrDeleted
    rw [hget]
  have hname : slotName imgA (geo.rootDirStart + i * 32) =
      slotName imgB (geo.rootDirStart + i * 32) := by
    unfold slotName
    apply List.map_congr_left
    intro a ha
    have haN : a < 11 := List.mem_range.mp ha
    rw [hoff a (by omega)]
  exact if_congr hfd rfl (if_congr (by rw [hname]) rfl rfl)

theorem findFreeSlot_congr (imgA imgB : Image) (geo : Geometry)
    (hlen : imgA.len = imgB.len)
    (hb : ∀ k, geo.rootDirStart ≤ k → k < geo.rootDirStart + geo.rootDirEntries * 32 →
      imgA.getD k = imgB.getD k) :
    findFreeSlot imgA geo = findFreeSlot imgB geo := by
  unfold findFreeSlot
  apply findSome?_congr_mem
  intro i hi
  have hiN : i < geo.rootDirEntries := List.mem_range.mp hi
  dsimp only
  have h0 : imgA.getD (geo.rootDirStart + i * 32) = imgB.getD (geo.rootDirStart + i * 32) :=
    hb _ (by omega) (by omega)
  have hget : imgA.get? (geo.rootDirStart + i * 32) = imgB.get? (geo.rootDirStart + i * 32) := by
    rw [get?_eq_ite, get?_eq_ite, hlen, h0]
  have hfd : slotFreeOrDeleted imgA (geo.rootDirStart + i * 32) ↔
      slotFreeOrDeleted imgB (geo.rootDirStart + i * 32) := by
    unfold slotFreeOrDeleted
    rw [hget]
  exact if_congr hfd rfl rfl

theorem findFreeSlot_some_ge (img : Image) (geo : Geometry) (o : Nat)
    (h : findFreeSlot img geo = some o) : geo.rootDirStart ≤ o := by
  unfold findFreeSlot at h
  obtain ⟨i, hi, hfi⟩ := List.exists_of_findSome?_eq_some h
  dsimp only at hfi
  by_cases hc : slotFreeOrDeleted img (geo.rootDirStart + i * 32)
  · rw [if_pos hc] at hfi
    have := Option.some_inj.mp hfi
    omega
  · rw [if_neg hc] at hfi
    exact absurd hfi (by simp)

theorem writeDirEntry_getD_lt (img : Image) (o : Nat) (fn fe : List Char)
    (fc sz k : Nat) (hk : k < o) :
    (writeDirEntry img o fn fe fc sz).getD k = img.getD k := by
  unfold writeDirEntry
  dsimp only
  rw [Image.setB_getD_ne _ _ _ _ (by omega), Image.setB_getD_ne _ _ _ _ (by omega),
    Image.setB_getD_ne _ _ _ _ (by omega), Image.setB_getD_ne _ _ _ _ (by omega),
    Image.setB_getD_ne _ _ _ _ (by omega), Image.setB_getD_ne _ _ _ _ (by omega),
    Image.setBytes_getD_lt _ _ _ _ (by omega), Image.setB_getD_ne _ _ _ _ (by omega),
    Image.setBytes_getD_lt _ _ _ _ (by omega), Image.setBytes_getD_lt _ _ _ _ (by omega)]

theorem collectFree_bound (img : Image) (geo : Geometry) (needed c : Nat)
    (h : c ∈ collectFree img geo needed) :
    2 ≤ c ∧ c ≤ (geo.totalClusters + 1).toNat := by
  unfold collectFree at h
  have h1 := List.mem_of_mem_take h
  have h2 := List.mem_of_mem_filter h1
  have h3 := List.mem_range'_1.mp h2
  omega

theorem headers_mirror (ipre : Image) (f1 L : Nat) (hL4 : 4 ≤ L)
    (hbound : f1 + L + 4 ≤ ipre.len)
    (hpre : ∀ k, f1 ≤ k → ipre.getD k = 0)
    (j : Nat) (hj : j < L) :
    ((((((((ipre.setB f1 0xF8).setB (f1 + 1) 0xFF).setB (f1 + 2) 0xFF).setB
        (f1 + 3) 0xFF).setB (f1 + L) 0xF8).setB (f1 + L + 1) 0xFF).setB
        (f1 + L + 2) 0xFF).setB (f1 + L + 3) 0xFF).getD (f1 + j) =
    ((((((((ipre.setB f1 0xF8).setB (f1 + 1) 0xFF).setB (f1 + 2) 0xFF).setB
        (f1 + 3) 0xFF).setB (f1 + L) 0xF8).setB (f1 + L + 1) 0xFF).setB
        (f1 + L + 2) 0xFF).setB (f1 + L + 3) 0xFF).getD (f1 + L + j) := by
  by_cases h4 : 4 ≤ j
  · rw [Image.setB_getD_ne _ _ _ _ (by omega), Image.setB_getD_ne _ _ _ _ (by omega),
      Image.setB_getD_ne _ _ _ _ (by omega), Image.setB_getD_ne _ _ _ _ (by omega),
      Image.setB_getD_ne _ _ _ _ (by omega), Image.setB_getD_ne _ _ _ _ (by omega),
      Image.setB_getD_ne _ _ _ _ (by omega), Image.setB_getD_ne _ _ _ _ (by omega),
      Image.setB_getD_ne _ _ _ _ (by omega), Image.setB_getD_ne _ _ _ _ (by omega),
      Image.setB_getD_ne _ _ _ _ (by omega), Image.setB_getD_ne _ _ _ _ (by omega),
      Image.setB_getD_ne _ _ _ _ (by omega), Image.setB_getD_ne _ _ _ _ (by omega),
      Image.setB_getD_ne _ _ _ _ (by omega), Image.setB_getD_ne _ _ _ _ (by omega),
      hpre (f1 + j) (by omega), hpre (f1 + L + j) (by omega)]
  · have hlen : ∀ (im : Image) (i v : Nat), (im.setB i v).len = im.len := Image.setB_len
    interval_cases j
    · simp only [Nat.add_zero]
      rw [Image.setB_getD_ne _ _ _ _ (by omega), Image.setB_getD_ne _ _ _ _ (by omega),
        Image.setB_getD_ne _ _ _ _ (by omega), Image.setB_getD_ne _ _ _ _ (by omega),
        Image.setB_getD_ne _ _ _ _ (by omega), Image.setB_getD_ne _ _ _ _ (by omega),
        Image.setB_getD_ne _ _ _ _ (by omega),
        Image.setB_getD_same _ _ _ (by omega),
        Image.setB_getD_ne _ _ _ _ (by omega), Image.setB_getD_ne _ _ _ _ (by omega),
        Image.setB_getD_ne _ _ _ _ (by omega),
        Image.setB_getD_same _ _ _ (by simp only [hlen]; omega)]
    · rw [Image.setB_getD_ne _ _ _ _ (by omega), Image.setB_getD_ne _ _ _ _ (by omega),
        Image.setB_getD_ne _ _ _ _ (by omega), Image.setB_getD_ne _ _ _ _ (by omega),
        Image.setB_getD_ne _ _ _ _ (by omega), Image.setB_getD_ne _ _ _ _ (by omega),
        Image.setB_getD_same _ _ _ (by simp only [hlen]; omega),
        Image.setB_getD_ne _ _ _ _ (by omega), Image.setB_getD_ne _ _ _ _ (by omega),
        Image.setB_getD_same _ _ _ (by simp only [hlen]; omega)]
    · rw [Image.setB_getD_ne _ _ _ _ (by omega), Image.setB_getD_ne _ _ _ _ (by omega),
        Image.setB_getD_ne _ _ _ _ (by omega), Image.setB_getD_ne _ _ _ _ (by omega),
        Image.setB_getD_ne _ _ _ _ (by omega),
        Image.setB_getD_same _ _ _ (by simp only [hlen]; omega),
        Image.setB_getD_ne _ _ _ _ (by omega),
        Image.setB_getD_same _ _ _ (by simp only [hlen]; omega)]
    · rw [Image.setB_getD_ne _ _ _ _ (by omega), Image.setB_getD_ne _ _ _ _ (by omega),
        Image.setB_getD_ne _ _ _ _ (by omega), Image.setB_getD_ne _ _ _ _ (by omega),
        Image.setB_getD_same _ _ _ (by simp only [hlen]; omega),
        Image.setB_getD_same _ _ _ (by simp only [hlen]; omega)]

theorem setU16_getD_ne (img : Image) (off v k : Nat) (h1 : k ≠ off) (h2 : k ≠ off + 1) :
    (img.setU16 off v).getD k = img.getD k := by
  unfold Image.setU16
  rw [Image.setB_getD_ne _ _ _ _ h2, Image.setB_getD_ne _ _ _ _ h1]

theorem setU32_getD_ne (img : Image) (off v k : Nat) (h1 : k ≠ off) (h2 : k ≠ off + 1)
    (h3 : k ≠ off + 2) (h4 : k ≠ off + 3) :
    (img.setU32 off v).getD k = img.getD k := by
  unfold Image.setU32
  rw [Image.setB_getD_ne _ _ _ _ h4, Image.setB_getD_ne _ _ _ _ h3,
    Image.setB_getD_ne _ _ _ _ h2, Image.setB_getD_ne _ _ _ _ h1]

theorem setB_getD_congr (A B : Image) (hlen : A.len = B.len) (i v k : Nat)
    (h : A.getD k = B.getD k) : (A.setB i v).getD k = (B.setB i v).getD k := by
  by_cases hk : k = i
  · subst hk
    by_cases hin : k < A.len
    · rw [Image.setB_getD_same _ _ _ hin, Image.setB_getD_same _ _ _ (hlen ▸ hin)]
    · rw [Image.setB_getD_oob _ _ _ hin, Image.setB_getD_oob _ _ _ (by omega)]
      exact h
  · rw [Image.setB_getD_ne _ _ _ _ hk, Image.setB_getD_ne _ _ _ _ hk]
    exact h

set_option maxRecDepth 16000 in
set_option maxHeartbeats 2000000 in
theorem createBlankImage_getD_ge (sizeMB serial k : Nat) (hk : 32768 ≤ k) :
    (createBlankImage sizeMB serial).getD k = (fatHeaderImage sizeMB).getD k := by
  unfold createBlankImage fatHeaderImage
  dsimp only
  rw [show sizeMB * 1048576 / 512 = sizeMB * 2048 from by omega]
  refine setB_getD_congr _ _ ?_ _ _ _ (setB_getD_congr _ _ ?_ _ _ _
    (setB_getD_congr _ _ ?_ _ _ _ (setB_getD_congr _ _ ?_ _ _ _
    (setB_getD_congr _ _ ?_ _ _ _ (setB_getD_congr _ _ ?_ _ _ _
    (setB_getD_congr _ _ ?_ _ _ _ (setB_getD_congr _ _ ?_ _ _ _ ?_)))))))
  all_goals try (simp only [Image.setB_len, Image.setBytes_len, Image.setU16_len,
    Image.setU32_len])
  have hs1 : (strBytes "FAT16   ").length = 8 := rfl
  have hs2 : (strBytes "WORKSPACE  ").length = 11 := rfl
  have hs3 : (strBytes "MSDOS5.0").length = 8 := rfl
  rw [Image.setB_getD_ne _ _ _ _ (by omega), Image.setB_getD_ne _ _ _ _ (by omega),
    Image.setBytes_getD_ge _ _ _ _ (by omega), Image.setBytes_getD_ge _ _ _ _ (by omega),
    setU32_getD_ne _ _ _ _ (by omega) (by omega) (by omega) (by omega),
    Image.setB_getD_ne _ _ _ _ (by omega), Image.setB_getD_ne _ _ _ _ (by omega),
    setU32_getD_ne _ _ _ _ (by omega) (by omega) (by omega) (by omega),
    setU32_getD_ne _ _ _ _ (by omega) (by omega) (by omega) (by omega),
    setU16_getD_ne _ _ _ _ (by omega) (by omega),
    setU16_getD_ne _ _ _ _ (by omega) (by omega),
    setU16_getD_ne _ _ _ _ (by omega) (by omega),
    Image.setB_getD_ne _ _ _ _ (by omega),
    setU16_getD_ne _ _ _ _ (by omega) (by omega),
    setU16_getD_ne _ _ _ _ (by omega) (by omega),
    Image.setB_getD_ne _ _ _ _ (by omega),
    setU16_getD_ne _ _ _ _ (by omega) (by omega),
    Image.setB_getD_ne _ _ _ _ (by omega),
    setU16_getD_ne _ _ _ _ (by omega) (by omega),
    Image.setBytes_getD_ge _ _ _ _ (by omega),
    Image.setB_getD_ne _ _ _ _ (by omega), Image.setB_getD_ne _ _ _ _ (by omega),
    Image.setB_getD_ne _ _ _ _ (by omega),
    Image.setB_getD_ne _ _ _ _ (by omega), Image.setB_getD_ne _ _ _ _ (by omega),
    setU32_getD_ne _ _ _ _ (by omega) (by omega) (by omega) (by omega),
    setU32_getD_ne _ _ _ _ (by omega) (by omega) (by omega) (by omega),
    Image.setB_getD_ne _ _ _ _ (by omega), Image.setB_getD_ne _ _ _ _ (by omega),
    Image.setB_getD_ne _ _ _ _ (by omega), Image.setB_getD_ne _ _ _ _ (by omega),
    Image.setB_getD_ne _ _ _ _ (by omega), Image.setB_getD_ne _ _ _ _ (by omega),
    Image.setB_getD_ne _ _ _ _ (by omega), Image.setB_getD_ne _ _ _ _ (by omega)]

theorem createBlankImage_fat_mirror (sizeMB serial : Nat) (_hsz : 1 ≤ sizeMB)
    (hL4 : 4 ≤ (calcGeometry ((sizeMB * 2048 - 63 : Nat) : Int)).sectorsPerFAT * 512)
    (hbig : 32772 + (calcGeometry ((sizeMB * 2048 - 63 : Nat) : Int)).sectorsPerFAT * 512
      ≤ sizeMB * 1048576) :
    fatRegionsEqual (createBlankImage sizeMB serial) (blankGeo sizeMB) := by
  intro j hj
  have hsp : (blankGeo sizeMB).sectorsPerFAT * (blankGeo sizeMB).bytesPerSector
      = (calcGeometry ((sizeMB * 2048 - 63 : Nat) : Int)).sectorsPerFAT * 512 := rfl
  rw [hsp] at hj
  have hf1 : (blankGeo sizeMB).fatStart = 32768 := rfl
  have hf2 : (blankGeo sizeMB).fat2Start
      = 32768 + (calcGeometry ((sizeMB * 2048 - 63 : Nat) : Int)).sectorsPerFAT * 512 := rfl
  rw [hf1, hf2, createBlankImage_getD_ge sizeMB serial _ (by omega),
    createBlankImage_getD_ge sizeMB serial _ (by omega),
    show (32768 : Nat) = 63 * 512 + 512 from by norm_num]
  unfold fatHeaderImage
  have hbd : 63 * 512 + 512 +
      (calcGeometry ((sizeMB * 2048 - 63 : Nat) : Int)).sectorsPerFAT * 512 + 4 ≤
      sizeMB * 1048576 := by omega
  exact headers_mirror _ (63 * 512 + 512)
    ((calcGeometry ((sizeMB * 2048 - 63 : Nat) : Int)).sectorsPerFAT * 512) hL4
    hbd (fun k _ => by simp [Image.getD]) j hj

/-- C3 (amended): the FAT-mirror invariant is preserved by the
server-side writer on adequately provisioned FAT16 geometries — standard
layout, FAT #2 in bounds, a FAT region large enough to hold an entry for
every scannable cluster index — for file names without an existing
directory entry (both on success and on either failure path); and
`createBlankImage` establishes the invariant for its own layout whenever
its computed FAT size fits the image.  (On under-provisioned geometries
a FAT entry write spills past its region and breaks the mirror, see the
counterexample.) -/
theorem fat_mirror_invariant (img : Image) (geo : Geometry)
    (hft : ¬ geo.fatType = 12)
    (hlay1 : geo.fat2Start = geo.fatStart + geo.sectorsPerFAT * geo.bytesPerSector)
    (hlay2 : geo.fat2Start + geo.sectorsPerFAT * geo.bytesPerSector ≤ geo.rootDirStart)
    (hlay3 : geo.rootDirStart + geo.rootDirEntries * 32 ≤ geo.dataStart)
    (hbound : geo.fat2Start + geo.sectorsPerFAT * geo.bytesPerSector ≤ img.len)
    (hadq : 2 * (geo.totalClusters + 1).toNat + 2 ≤ geo.sectorsPerFAT * geo.bytesPerSector)
    (fileName : List Char) (fileData : List Nat)
    (hnew : findExisting img geo ((name83 fileName).1 ++ (name83 fileName).2) = none)
    (hinv : fatRegionsEqual img geo) :
    fatRegionsEqual (writeFileToImage img geo fileName fileData).2 geo ∧
    (∀ (sizeMB serial : Nat), 1 ≤ sizeMB →
      4 ≤ (calcGeometry ((sizeMB * 2048 - 63 : Nat) : Int)).sectorsPerFAT * 512 →
      32772 + (calcGeometry ((sizeMB * 2048 - 63 : Nat) : Int)).sectorsPerFAT * 512
        ≤ sizeMB * 1048576 →
      fatRegionsEqual (createBlankImage sizeMB serial) (blankGeo sizeMB)) := by
  refine ⟨?_, fun sizeMB serial h1 h2 h3 =>
    createBlankImage_fat_mirror sizeMB serial h1 h2 h3⟩
  have hds : geo.fat2Start + geo.sectorsPerFAT * geo.bytesPerSector ≤ geo.dataStart := by
    omega
  unfold writeFileToImage
  dsimp only
  by_cases hfull : (collectFree img geo (clustersNeeded geo fileData.length)).length <
      clustersNeeded geo fileData.length
  · rw [if_pos hfull]
    exact hinv
  · rw [if_neg hfull]
    have hcb : ∀ c ∈ collectFree img geo (clustersNeeded geo fileData.length),
        2 * c + 2 ≤ geo.sectorsPerFAT * geo.bytesPerSector := by
      intro c hc
      have := collectFree_bound img geo _ c hc
      omega
    have h1 : fatRegionsEqual (writeDataChain geo fileData
        (if geo.fatType = 12 then 0xFFF else 0xFFFF) img 0
        (collectFree img geo (clustersNeeded geo fileData.length))) geo :=
      writeDataChain_fat16_preserves geo fileData _ hft hlay1 hds _ img 0 hcb hbound hinv
    have hlen1 : (writeDataChain geo fileData
        (if geo.fatType = 12 then 0xFFF else 0xFFFF) img 0
        (collectFree img geo (clustersNeeded geo fileData.length))).len = img.len :=
      writeDataChain_len geo fileData _ _ img 0
    have hdir : ∀ k, geo.rootDirStart ≤ k →
        k < geo.rootDirStart + geo.rootDirEntries * 32 →
        (writeDataChain geo fileData (if geo.fatType = 12 then 0xFFF else 0xFFFF) img 0
          (collectFree img geo (clustersNeeded geo fileData.length))).getD k
          = img.getD k := by
      intro k hk1 hk2
      exact writeDataChain_getD_away geo fileData _ hft hlay1 _ img 0 k hcb
        (le_trans hlay2 hk1) (lt_of_lt_of_le hk2 hlay3)
    have hex : findExisting (writeDataChain geo fileData
        (if geo.fatType = 12 then 0xFFF else 0xFFFF) img 0
        (collectFree img geo (clustersNeeded geo fileData.length))) geo
        ((name83 fileName).1 ++ (name83 fileName).2) = none := by
      rw [findExisting_congr _ img geo _ hlen1 hdir]
      exact hnew
    rw [hex]
    dsimp only
    cases hslot : findFreeSlot (writeDataChain geo fileData
        (if geo.fatType = 12 then 0xFFF else 0xFFFF) img 0
        (collectFree img geo (clustersNeeded geo fileData.length))) geo with
    | none =>
      exact h1
    | some o =>
      dsimp only
      have ho : geo.rootDirStart ≤ o := findFreeSlot_some_ge _ geo o hslot
      intro j hj
      have hfa : geo.fatStart + j < geo.fat2Start := by
        rw [hlay1]; exact Nat.add_lt_add_left hj _
      have hfb : geo.fat2Start + j < geo.rootDirStart :=
        lt_of_lt_of_le (Nat.add_lt_add_left hj _) hlay2
      rw [writeDirEntry_getD_lt _ _ _ _ _ _ _
          (lt_of_lt_of_le hfa (le_trans (le_trans (Nat.le_add_right _ _) hlay2) ho)),
        writeDirEntry_getD_lt _ _ _ _ _ _ _ (lt_of_lt_of_le hfb ho)]
      exact h1 j hj

theorem cimg3w_getD_zero (k : Nat) (hk : 23 ≤ k) : cimg3w.getD k = 0 := by
  unfold cimg3w Image.getD
  dsimp only
  split
  · iterate 8 rw [if_neg (by omega)]
  · rfl

theorem cimg3w_mirror : fatRegionsEqual cimg3w cgeo3w := by
  intro j hj
  have h1 : cgeo3w.sectorsPerFAT * cgeo3w.bytesPerSector = 8704 := rfl
  have hf1 : cgeo3w.fatStart = 512 := rfl
  have hf2 : cgeo3w.fat2Start = 9216 := rfl
  rw [h1] at hj
  rw [hf1, hf2, cimg3w_getD_zero (512 + j) (by omega),
    cimg3w_getD_zero (9216 + j) (by omega)]

set_option maxRecDepth 100000 in
set_option maxHeartbeats 4000000 in
/-- Witness for C3 on an adequately provisioned FAT16 volume and on the
4 MB blank image. -/
theorem fat_mirror_invariant_witness :
    fatRegionsEqual (writeFileToImage cimg3w cgeo3w ['A', '.', 'T', 'X', 'T'] [65]).2
      cgeo3w ∧
    fatRegionsEqual (createBlankImage 4 0) (blankGeo 4) := by
  have h := fat_mirror_invariant cimg3w cgeo3w (by decide) (by decide) (by decide)
    (by decide) (by decide) (by decide) ['A', '.', 'T', 'X', 'T'] [65] (by decide)
    cimg3w_mirror
  exact ⟨h.1, h.2 4 0 (by decide) (by decide) (by decide)⟩

/-- The two-cluster chain write of the C3 counterexample, spelled out as
its four primitive writes (data chunk and FAT entry per cluster). -/
theorem cimg3_chain_eval :
    writeDataChain cgeo3 (List.replicate 513 65) 65535 cimg3 0 [44, 300]
      = writeFATEntry
          ((writeFATEntry
            (cimg3.setBytes 23552 (((List.replicate 513 65).drop 0).take 512)) cgeo3
            44 300).setBytes 154624 (((List.replicate 513 65).drop 512).take 512)) cgeo3
          300 65535 := rfl

/-- The chain write of the C3 counterexample leaves the root-directory
region of `cimg3` untouched. -/
theorem cimg3_chain_dir_eq : ∀ k, cgeo3.rootDirStart ≤ k →
    k < cgeo3.rootDirStart + cgeo3.rootDirEntries * 32 →
    (writeDataChain cgeo3 (List.replicate 513 65) 65535 cimg3 0 [44, 300]).getD k
      = cimg3.getD k := by
  intro k hk1 hk2
  have hrd : cgeo3.rootDirStart = 1536 := rfl
  have hrde : cgeo3.rootDirEntries = 1 := rfl
  have hfs : cgeo3.fatStart = 512 := rfl
  have hf2 : cgeo3.fat2Start = 1024 := rfl
  rw [hrd] at hk1 hk2
  rw [hrde] at hk2
  rw [cimg3_chain_eval]
  rw [writeFATEntry_eq16 _ cgeo3 300 65535 (by decide)]
  rw [Image.setB_getD_ne _ _ _ _ (by rw [hf2] at *; omega),
    Image.setB_getD_ne _ _ _ _ (by rw [hf2] at *; omega),
    Image.setB_getD_ne _ _ _ _ (by rw [hfs] at *; omega),
    Image.setB_getD_ne _ _ _ _ (by rw [hfs] at *; omega),
    Image.setBytes_getD_lt _ _ _ _ (by omega)]
  rw [writeFATEntry_eq16 _ cgeo3 44 300 (by decide)]
  rw [Image.setB_getD_ne _ _ _ _ (by rw [hf2] at *; omega),
    Image.setB_getD_ne _ _ _ _ (by rw [hf2] at *; omega),
    Image.setB_getD_ne _ _ _ _ (by rw [hfs] at *; omega),
    Image.setB_getD_ne _ _ _ _ (by rw [hfs] at *; omega),
    Image.setBytes_getD_lt _ _ _ _ (by omega)]

/-- After the C3 counterexample write, FAT #1's byte of entry 44 (offset
600) holds the low byte of the chain link to cluster 300. -/
theorem cimg3_write_getD600 :
    (writeDirEntry
        (writeDataChain cgeo3 (List.replicate 513 65) 65535 cimg3 0 [44, 300])
        1536 (name83 ['A', '.', 'T', 'X', 'T']).1 (name83 ['A', '.', 'T', 'X', 'T']).2
        44 513).getD 600 = 44 := by
  have hfs : cgeo3.fatStart = 512 := rfl
  have hf2 : cgeo3.fat2Start = 1024 := rfl
  rw [writeDirEntry_getD_lt _ _ _ _ _ _ _ (by omega)]
  rw [cimg3_chain_eval]
  rw [writeFATEntry_eq16 _ cgeo3 300 65535 (by decide)]
  rw [Image.setB_getD_ne _ _ _ _ (by rw [hf2]; omega),
    Image.setB_getD_ne _ _ _ _ (by rw [hf2]; omega),
    Image.setB_getD_ne _ _ _ _ (by rw [hfs]; omega),
    Image.setB_getD_ne _ _ _ _ (by rw [hfs]; omega),
    Image.setBytes_getD_lt _ _ _ _ (by omega)]
  rw [writeFATEntry_eq16 _ cgeo3 44 300 (by decide)]
  rw [Image.setB_getD_ne _ _ _ _ (by rw [hf2]; omega),
    Image.setB_getD_ne _ _ _ _ (by rw [hf2]; omega),
    Image.setB_getD_ne _ _ _ _ (by rw [hfs]; omega)]
  rw [show (600 : Nat) = cgeo3.fatStart + 44 * 2 from by rw [hfs]]
  rw [Image.setB_getD_same _ _ _ (by rw [Image.setBytes_len]; decide)]

/-- After the C3 counterexample write, the same mirror offset inside
FAT #2 (offset 1112) was overwritten by the end-of-chain mark of entry
300, whose FAT #1 position spills past the one-sector FAT region. -/
theorem cimg3_write_getD1112 :
    (writeDirEntry
        (writeDataChain cgeo3 (List.replicate 513 65) 65535 cimg3 0 [44, 300])
        1536 (name83 ['A', '.', 'T', 'X', 'T']).1 (name83 ['A', '.', 'T', 'X', 'T']).2
        44 513).getD 1112 = 255 := by
  have hfs : cgeo3.fatStart = 512 := rfl
  have hf2 : cgeo3.fat2Start = 1024 := rfl
  rw [writeDirEntry_getD_lt _ _ _ _ _ _ _ (by omega)]
  rw [cimg3_chain_eval]
  rw [writeFATEntry_eq16 _ cgeo3 300 65535 (by decide)]
  rw [Image.setB_getD_ne _ _ _ _ (by rw [hf2]; omega),
    Image.setB_getD_ne _ _ _ _ (by rw [hf2]; omega),
    Image.setB_getD_ne _ _ _ _ (by rw [hfs]; omega)]
  rw [show (1112 : Nat) = cgeo3.fatStart + 300 * 2 from by rw [hfs]]
  rw [Image.setB_getD_same _ _ _ (by
    rw [Image.setBytes_len, writeFATEntry_len, Image.setBytes_len]; decide)]

set_option maxRecDepth 100000 in
set_option maxHeartbeats 4000000 in
/-- Evaluation of the C3 counterexample write: on `cimg3` the free scan
collects clusters 44 and 300, no directory entry matches, and the first
(and only) root-directory slot is free, so the call succeeds with the
chain `[44, 300]`. -/
theorem cimg3_write_eval :
    writeFileToImage cimg3 cgeo3 ['A', '.', 'T', 'X', 'T'] (List.replicate 513 65)
      = (true, writeDirEntry
          (writeDataChain cgeo3 (List.replicate 513 65) 65535 cimg3 0 [44, 300])
          1536 (name83 ['A', '.', 'T', 'X', 'T']).1 (name83 ['A', '.', 'T', 'X', 'T']).2
          44 513) := by
  have hfree : collectFree cimg3 cgeo3 (clustersNeeded cgeo3 513) = [44, 300] := by
    decide
  have hlen1 : (writeDataChain cgeo3 (List.replicate 513 65) 65535 cimg3 0
      [44, 300]).len = cimg3.len :=
    writeDataChain_len cgeo3 (List.replicate 513 65) 65535 [44, 300] cimg3 0
  have hex : findExisting
      (writeDataChain cgeo3 (List.replicate 513 65) 65535 cimg3 0 [44, 300]) cgeo3
      ((name83 ['A', '.', 'T', 'X', 'T']).1 ++ (name83 ['A', '.', 'T', 'X', 'T']).2)
      = none := by
    rw [findExisting_congr _ cimg3 cgeo3 _ hlen1 cimg3_chain_dir_eq]
    decide
  have hslot : findFreeSlot
      (writeDataChain cgeo3 (List.replicate 513 65) 65535 cimg3 0 [44, 300]) cgeo3
      = some 1536 := by
    rw [findFreeSlot_congr _ cimg3 cgeo3 hlen1 cimg3_chain_dir_eq]
    decide
  unfold writeFileToImage
  dsimp only
  rw [List.length_replicate, hfree,
    show (if cgeo3.fatType = 12 then (0xFFF : Nat) else 0xFFFF) = 65535 from rfl]
  rw [if_neg (by decide)]
  rw [hex]
  dsimp only
  rw [hslot]
  rfl

set_option maxRecDepth 100000 in
set_option maxHeartbeats 4000000 in
/-- C3 counterexample: `cimg3` parses as a FAT16 volume with equal FAT
regions, yet a successful `writeFileToImage` call leaves them different:
the allocated chain reaches cluster 300, whose FAT #1 entry byte lies
inside the FAT #2 region (one 512-byte sector cannot hold 4996 entries),
so the end-of-chain write lands at offsets 1112–1113 in FAT #2's copy
of entry 44 while FAT #1's entry 44 keeps the chain link. -/
theorem writer_breaks_fat_mirror :
    parseGeometry cimg3 = some (some cgeo3) ∧
    fatRegionsEqual cimg3 cgeo3 ∧
    (writeFileToImage cimg3 cgeo3 ['A', '.', 'T', 'X', 'T'] (List.replicate 513 65)).1
      = true ∧
    ¬ fatRegionsEqual
        (writeFileToImage cimg3 cgeo3 ['A', '.', 'T', 'X', 'T']
          (List.replicate 513 65)).2 cgeo3 := by
  refine ⟨by decide, by decide, ?_, ?_⟩
  · rw [cimg3_write_eval]
  · rw [cimg3_write_eval]
    dsimp only
    intro hmir
    have h88 := hmir 88 (by decide)
    rw [show cgeo3.fatStart + 88 = 600 from rfl,
      show cgeo3.fat2Start + 88 = 1112 from rfl] at h88
    rw [cimg3_write_getD600, cimg3_write_getD1112] at h88
    exact absurd h88 (by decide)

/-! ## C2: name-handling lemmas -/

theorem toUpper_validChar {c : Char} (h : validChar c) : c.toUpper = c := by
  unfold Char.toUpper
  rw [if_neg]
  unfold validChar at h
  omega

theorem joinDots_splitOnDot : ∀ n : List Char, joinDots (splitOnDot n) = n := by
  intro n
  induction n with
  | nil => rfl
  | cons c rest ih =>
    unfold splitOnDot
    cases h : splitOnDot rest with
    | nil => exact absurd h (splitOnDot_ne_nil rest)
    | cons hd tl =>
      rw [h] at ih
      dsimp only
      by_cases hc : c = '.'
      · subst hc
        rw [if_pos rfl]
        show [] ++ '.' :: joinDots (hd :: tl) = '.' :: rest
        rw [List.nil_append, ih]
      · rw [if_neg hc]
        cases tl with
        | nil => show c :: hd = c :: rest; rw [show hd = rest from ih]
        | cons x xs =>
          show (c :: hd) ++ '.' :: joinDots (x :: xs) = c :: rest
          rw [List.cons_append]
          have : hd ++ '.' :: joinDots (x :: xs) = rest := ih
          rw [this]

theorem mem_joinDots {c : Char} : ∀ {ps : List (List Char)}, c ∈ joinDots ps →
    (∃ p ∈ ps, c ∈ p) ∨ c = '.' := by
  intro ps
  induction ps with
  | nil => intro h; exact absurd h (by simp [joinDots])
  | cons x rest ih =>
    intro h
    cases rest with
    | nil =>
      exact Or.inl ⟨x, by simp, h⟩
    | cons y ys =>
      rw [show joinDots (x :: y :: ys) = x ++ '.' :: joinDots (y :: ys) from rfl] at h
      rcases List.mem_append.mp h with hx | hdot
      · exact Or.inl ⟨x, by simp, hx⟩
      · rcases List.mem_cons.mp hdot with rfl | hrest
        · exact Or.inr rfl
        · rcases ih hrest with ⟨p, hp, hcp⟩ | hd
          · exact Or.inl ⟨p, by simp [hp], hcp⟩
          · exact Or.inr hd

theorem valid83_chars {n : List Char} (h : valid83 n) :
    ∀ c ∈ n, validChar c ∨ c = '.' := by
  obtain ⟨hlen, ⟨hb1, hb2, hbc⟩, hext⟩ := h
  intro c hc
  rw [← joinDots_splitOnDot n] at hc
  rcases mem_joinDots hc with ⟨p, hp, hcp⟩ | hd
  · rcases hlen with h1 | h2
    · obtain ⟨a, ha⟩ := List.length_eq_one.mp h1
      rw [ha] at hp
      rw [List.mem_singleton.mp hp] at hcp
      rw [ha] at hbc
      exact Or.inl (hbc c hcp)
    · obtain ⟨a, b, hab⟩ := List.length_eq_two.mp h2
      obtain ⟨he1, he2, hec⟩ := hext h2
      rw [hab] at hp
      rcases List.mem_cons.mp hp with rfl | hp2
      · rw [hab] at hbc
        exact Or.inl (hbc c hcp)
      · rw [List.mem_singleton.mp hp2] at hcp
        rw [hab] at hec
        exact Or.inl (hec c hcp)
  · exact Or.inr hd

theorem jsToUpper_valid {n : List Char} (h : valid83 n) : jsToUpper n = n := by
  unfold jsToUpper
  have : ∀ c ∈ n, c.toUpper = c := by
    intro c hc
    rcases valid83_chars h c hc with hv | rfl
    · exact toUpper_validChar hv
    · rfl
  calc n.map Char.toUpper = n.map id := List.map_congr_left this
    _ = n := List.map_id n

theorem name83_valid {n : List Char} (h : valid83 n) :
    name83 n = (padEnd 8 ' ' ((splitOnDot n).getD 0 []),
      padEnd 3 ' ' ((splitOnDot n).getD 1 [])) := by
  obtain ⟨hlen, ⟨hb1, hb2, _⟩, hext⟩ := id h
  unfold name83
  rw [jsToUpper_valid h]
  dsimp only
  rw [List.take_of_length_le hb2]
  have hextlen : ((splitOnDot n).getD 1 []).length ≤ 3 := by
    rcases hlen with h1 | h2
    · rw [List.getD_eq_default _ _ (by omega)]
      simp
    · exact (hext h2).2.1
  rw [List.take_of_length_le hextlen]

theorem trimEnd_concat_ws (l : List Char) (a : Char) (ha : isJsWS a = true) :
    trimEnd (l ++ [a]) = trimEnd l := by
  unfold trimEnd
  rw [List.reverse_append]
  simp [List.dropWhile_cons, ha]

theorem trimEnd_append_spaces (l : List Char) (k : Nat) :
    trimEnd (l ++ List.replicate k ' ') = trimEnd l := by
  induction k with
  | zero => simp
  | succ m ih =>
    rw [List.replicate_succ', ← List.append_assoc,
      trimEnd_concat_ws _ ' ' (by decide), ih]

theorem trimEnd_of_last_not_ws (l : List Char) (a : Char) (ha : isJsWS a = false) :
    trimEnd (l ++ [a]) = l ++ [a] := by
  unfold trimEnd
  rw [List.reverse_append]
  simp [List.dropWhile_cons, ha]

theorem validChar_not_ws {c : Char} (h : validChar c) : isJsWS c = false := by
  unfold validChar at h
  unfold isJsWS
  simp only [Bool.or_eq_false_iff, decide_eq_false_iff_not]
  omega

theorem trimEnd_padEnd {l : List Char} (n : Nat) (hne : l ≠ [])
    (hv : ∀ c ∈ l, validChar c) : trimEnd (padEnd n ' ' l) = l := by
  unfold padEnd
  rw [trimEnd_append_spaces]
  conv_lhs => rw [← List.dropLast_append_getLast hne]
  rw [trimEnd_of_last_not_ws _ _ (validChar_not_ws (hv _ (List.getLast_mem hne))),
    List.dropLast_append_getLast hne]

theorem trimEnd_padEnd_nil (n : Nat) : trimEnd (padEnd n ' ' []) = [] := by
  unfold padEnd
  rw [List.nil_append]
  have : (List.replicate (n - 0) ' ' : List Char)
      = [] ++ List.replicate (n - 0) ' ' := by simp
  rw [show (List.replicate (n - ([] : List Char).length) ' ' : List Char)
      = [] ++ List.replicate n ' ' from by simp, trimEnd_append_spaces]
  rfl

theorem name83_inj {n1 n2 : List Char} (h1 : valid83 n1) (h2 : valid83 n2)
    (heq : name83 n1 = name83 n2) : n1 = n2 := by
  rw [name83_valid h1, name83_valid h2, Prod.mk.injEq] at heq
  obtain ⟨hbase, hext⟩ := heq
  obtain ⟨hlen1, ⟨hb11, _, hbc1⟩, hext1⟩ := id h1
  obtain ⟨hlen2, ⟨hb21, _, hbc2⟩, hext2⟩ := id h2
  have hbne1 : (splitOnDot n1).getD 0 [] ≠ [] := by
    intro hh; rw [hh] at hb11; simp at hb11
  have hbne2 : (splitOnDot n2).getD 0 [] ≠ [] := by
    intro hh; rw [hh] at hb21; simp at hb21
  have hbaseEq : (splitOnDot n1).getD 0 [] = (splitOnDot n2).getD 0 [] := by
    have e1 := trimEnd_padEnd 8 hbne1 hbc1
    have e2 := trimEnd_padEnd 8 hbne2 hbc2
    rw [← e1, ← e2, hbase]
  have hextEq : (splitOnDot n1).getD 1 [] = (splitOnDot n2).getD 1 [] := by
    have t1 : trimEnd (padEnd 3 ' ' ((splitOnDot n1).getD 1 []))
        = (splitOnDot n1).getD 1 [] := by
      rcases hlen1 with hl | hl
      · rw [List.getD_eq_default _ _ (by omega)]
        exact trimEnd_padEnd_nil 3
      · exact trimEnd_padEnd 3 (by
          intro hh
          have := (hext1 hl).1
          rw [hh] at this; simp at this) (hext1 hl).2.2
    have t2 : trimEnd (padEnd 3 ' ' ((splitOnDot n2).getD 1 []))
        = (splitOnDot n2).getD 1 [] := by
      rcases hlen2 with hl | hl
      · rw [List.getD_eq_default _ _ (by omega)]
        exact trimEnd_padEnd_nil 3
      · exact trimEnd_padEnd 3 (by
          intro hh
          have := (hext2 hl).1
          rw [hh] at this; simp at this) (hext2 hl).2.2
    rw [← t1, ← t2, hext]
  -- rebuild the names from their parts
  have hparts : splitOnDot n1 = splitOnDot n2 := by
    rcases hlen1 with hl1 | hl1 <;> rcases hlen2 with hl2 | hl2
    · obtain ⟨a1, ha1⟩ := List.length_eq_one.mp hl1
      obtain ⟨a2, ha2⟩ := List.length_eq_one.mp hl2
      rw [ha1, ha2]
      rw [ha1] at hbaseEq; rw [ha2] at hbaseEq
      simpa using hbaseEq
    · have hd1 : (splitOnDot n1).getD 1 [] = [] := List.getD_eq_default _ _ (by omega)
      have := (hext2 hl2).1
      rw [← hextEq, hd1] at this
      simp at this
    · have hd2 : (splitOnDot n2).getD 1 [] = [] := List.getD_eq_default _ _ (by omega)
      have := (hext1 hl1).1
      rw [hextEq, hd2] at this
      simp at this
    · obtain ⟨a1, b1, hab1⟩ := List.length_eq_two.mp hl1
      obtain ⟨a2, b2, hab2⟩ := List.length_eq_two.mp hl2
      rw [hab1, hab2]
      rw [hab1] at hbaseEq hextEq; rw [hab2] at hbaseEq hextEq
      simp at hbaseEq hextEq
      rw [hbaseEq, hextEq]
  rw [← joinDots_splitOnDot n1, ← joinDots_splitOnDot n2, hparts]

theorem getElem!_append_left_nat (l1 l2 : List Nat) (n : Nat) (h : n < l1.length) :
    (l1 ++ l2)[n]! = l1[n]! := by
  rw [getElem!_pos (l1 ++ l2) n (by rw [List.length_append]; omega), getElem!_pos l1 n h]
  exact List.getElem_append_left h

theorem getElem!_append_right_nat (l1 l2 : List Nat) (n : Nat) (h1 : l1.length ≤ n)
    (h2 : n - l1.length < l2.length) :
    (l1 ++ l2)[n]! = l2[n - l1.length]! := by
  rw [getElem!_pos (l1 ++ l2) n (by rw [List.length_append]; omega),
    getElem!_pos l2 _ h2]
  exact List.getElem_append_right h1

theorem getElem!_map_toNat (l : List Char) (n : Nat) (h : n < l.length) :
    (l.map Char.toNat)[n]! = (l[n]!).toNat := by
  rw [getElem!_pos (l.map Char.toNat) n (by rw [List.length_map]; omega),
    getElem!_pos l n h, List.getElem_map]

theorem name83_len1 (n : List Char) : (name83 n).1.length = 8 := by
  unfold name83 padEnd
  dsimp only
  rw [List.length_append, List.length_replicate]
  have := List.length_take_le 8 ((splitOnDot (jsToUpper n)).getD 0 [])
  omega

theorem name83_len2 (n : List Char) : (name83 n).2.length = 3 := by
  unfold name83 padEnd
  dsimp only
  rw [List.length_append, List.length_replicate]
  have := List.length_take_le 3 ((splitOnDot (jsToUpper n)).getD 1 [])
  omega

theorem name83_mem1 {n : List Char} (h : valid83 n) :
    ∀ c ∈ (name83 n).1, validChar c ∨ c = ' ' := by
  rw [name83_valid h]
  obtain ⟨_, ⟨_, _, hbc⟩, _⟩ := id h
  intro c hc
  unfold padEnd at hc
  rcases List.mem_append.mp hc with hm | hm
  · exact Or.inl (hbc c hm)
  · exact Or.inr (List.eq_of_mem_replicate hm)

theorem name83_mem2 {n : List Char} (h : valid83 n) :
    ∀ c ∈ (name83 n).2, validChar c ∨ c = ' ' := by
  rw [name83_valid h]
  obtain ⟨hlen, _, hext⟩ := id h
  intro c hc
  unfold padEnd at hc
  rcases List.mem_append.mp hc with hm | hm
  · rcases hlen with h1 | h2
    · rw [List.getD_eq_default _ _ (by omega)] at hm
      exact absurd hm (by simp)
    · exact Or.inl ((hext h2).2.2 c hm)
  · exact Or.inr (List.eq_of_mem_replicate hm)

theorem validChar_or_space_code {c : Char} (h : validChar c ∨ c = ' ') :
    32 ≤ c.toNat ∧ c.toNat ≤ 90 := by
  rcases h with hv | rfl
  · unfold validChar at hv
    omega
  · decide

theorem name83_first_code {n : List Char} (h : valid83 n) :
    48 ≤ ((name83 n).1[0]!).toNat ∧ ((name83 n).1[0]!).toNat ≤ 90 := by
  rw [name83_valid h]
  obtain ⟨_, ⟨hb1, _, hbc⟩, _⟩ := id h
  dsimp only
  unfold padEnd
  rw [getElem!_pos _ 0 (by rw [List.length_append]; omega),
    List.getElem_append_left (by omega)]
  have h0 : 0 < ((splitOnDot n).getD 0 []).length := by omega
  have hmem : ((splitOnDot n).getD 0 [])[0] ∈ (splitOnDot n).getD 0 [] :=
    List.getElem_mem h0
  have := hbc _ hmem
  unfold validChar at this
  omega

theorem getElem!_replicate (n a i : Nat) (h : i < n) :
    (List.replicate n a)[i]! = a := by
  rw [getElem!_pos _ _ (by rw [List.length_replicate]; omega)]
  exact List.getElem_replicate _ _

theorem writeDirEntry_len (img : Image) (o : Nat) (fn fe : List Char) (fc sz : Nat) :
    (writeDirEntry img o fn fe fc sz).len = img.len := by
  unfold writeDirEntry
  dsimp only
  simp only [Image.setB_len, Image.setBytes_len]

theorem writeDirEntry_getD_ge (img : Image) (o : Nat) (fn fe : List Char)
    (fc sz k : Nat) (hfn : fn.length = 8) (hfe : fe.length = 3) (hk : o + 32 ≤ k) :
    (writeDirEntry img o fn fe fc sz).getD k = img.getD k := by
  unfold writeDirEntry
  dsimp only
  rw [Image.setB_getD_ne _ _ _ _ (by omega), Image.setB_getD_ne _ _ _ _ (by omega),
    Image.setB_getD_ne _ _ _ _ (by omega), Image.setB_getD_ne _ _ _ _ (by omega),
    Image.setB_getD_ne _ _ _ _ (by omega), Image.setB_getD_ne _ _ _ _ (by omega),
    Image.setBytes_getD_ge _ _ _ _ (by rw [List.length_replicate]; omega),
    Image.setB_getD_ne _ _ _ _ (by omega),
    Image.setBytes_getD_ge _ _ _ _ (by rw [List.length_map]; omega),
    Image.setBytes_getD_ge _ _ _ _ (by rw [List.length_map]; omega)]

theorem writeDirEntry_getD_name (img : Image) (o : Nat) (fn fe : List Char)
    (fc sz : Nat) (hfn : fn.length = 8) (hfe : fe.length = 3)
    (hin : o + 32 ≤ img.len) (t : Nat) (ht : t < 11) :
    (writeDirEntry img o fn fe fc sz).getD (o + t)
      = ((fn ++ fe).map Char.toNat)[t]! % 256 := by
  unfold writeDirEntry
  dsimp only
  by_cases h8 : t < 8
  · rw [Image.setB_getD_ne _ _ _ _ (by omega), Image.setB_getD_ne _ _ _ _ (by omega),
      Image.setB_getD_ne _ _ _ _ (by omega), Image.setB_getD_ne _ _ _ _ (by omega),
      Image.setB_getD_ne _ _ _ _ (by omega), Image.setB_getD_ne _ _ _ _ (by omega),
      Image.setBytes_getD_lt _ _ _ _ (by omega), Image.setB_getD_ne _ _ _ _ (by omega),
      Image.setBytes_getD_lt _ _ _ _ (by omega),
      Image.setBytes_getD_in _ _ _ t (by rw [List.length_map]; omega) (by omega)]
    rw [List.map_append,
      getElem!_append_left_nat _ _ _ (by rw [List.length_map]; omega)]
  · rw [Image.setB_getD_ne _ _ _ _ (by omega), Image.setB_getD_ne _ _ _ _ (by omega),
      Image.setB_getD_ne _ _ _ _ (by omega), Image.setB_getD_ne _ _ _ _ (by omega),
      Image.setB_getD_ne _ _ _ _ (by omega), Image.setB_getD_ne _ _ _ _ (by omega),
      Image.setBytes_getD_lt _ _ _ _ (by omega), Image.setB_getD_ne _ _ _ _ (by omega),
      show o + t = o + 8 + (t - 8) from by omega,
      Image.setBytes_getD_in _ _ _ (t - 8) (by rw [List.length_map]; omega)
        (by rw [Image.setBytes_len]; omega)]
    rw [List.map_append,
      getElem!_append_right_nat _ _ _ (by rw [List.length_map]; omega)
        (by rw [List.length_map, List.length_map]; omega),
      List.length_map, hfn]

theorem writeDirEntry_getD_attr (img : Image) (o : Nat) (fn fe : List Char)
    (fc sz : Nat) (hin : o + 32 ≤ img.len) :
    (writeDirEntry img o fn fe fc sz).getD (o + 11) = 0x20 := by
  unfold writeDirEntry
  dsimp only
  rw [Image.setB_getD_ne _ _ _ _ (by omega), Image.setB_getD_ne _ _ _ _ (by omega),
    Image.setB_getD_ne _ _ _ _ (by omega), Image.setB_getD_ne _ _ _ _ (by omega),
    Image.setB_getD_ne _ _ _ _ (by omega), Image.setB_getD_ne _ _ _ _ (by omega),
    Image.setBytes_getD_lt _ _ _ _ (by omega),
    Image.setB_getD_same _ _ _
      (by simp only [Image.setB_len, Image.setBytes_len]; omega)]

theorem writeDirEntry_getD_fc (img : Image) (o : Nat) (fn fe : List Char)
    (fc sz : Nat) (hin : o + 32 ≤ img.len) :
    (writeDirEntry img o fn fe fc sz).getD (o + 26) = fc % 256 ∧
    (writeDirEntry img o fn fe fc sz).getD (o + 27) = fc / 256 % 256 := by
  unfold writeDirEntry
  dsimp only
  constructor
  · rw [Image.setB_getD_ne _ _ _ _ (by omega), Image.setB_getD_ne _ _ _ _ (by omega),
      Image.setB_getD_ne _ _ _ _ (by omega), Image.setB_getD_ne _ _ _ _ (by omega),
      Image.setB_getD_ne _ _ _ _ (by omega),
      Image.setB_getD_same _ _ _
        (by simp only [Image.setB_len, Image.setBytes_len]; omega)]
    exact Nat.mod_mod_of_dvd fc (dvd_refl 256)
  · rw [Image.setB_getD_ne _ _ _ _ (by omega), Image.setB_getD_ne _ _ _ _ (by omega),
      Image.setB_getD_ne _ _ _ _ (by omega), Image.setB_getD_ne _ _ _ _ (by omega),
      Image.setB_getD_same _ _ _
        (by simp only [Image.setB_len, Image.setBytes_len]; omega)]
    exact Nat.mod_mod_of_dvd _ (dvd_refl 256)

theorem writeDirEntry_getD_sz (img : Image) (o : Nat) (fn fe : List Char)
    (fc sz : Nat) (hin : o + 32 ≤ img.len) :
    (writeDirEntry img o fn fe fc sz).getD (o + 28) = sz % 256 ∧
    (writeDirEntry img o fn fe fc sz).getD (o + 29) = sz / 256 % 256 ∧
    (writeDirEntry img o fn fe fc sz).getD (o + 30) = sz / 65536 % 256 ∧
    (writeDirEntry img o fn fe fc sz).getD (o + 31) = sz / 16777216 % 256 := by
  unfold writeDirEntry
  dsimp only
  refine ⟨?_, ?_, ?_, ?_⟩
  · rw [Image.setB_getD_ne _ _ _ _ (by omega), Image.setB_getD_ne _ _ _ _ (by omega),
      Image.setB_getD_ne _ _ _ _ (by omega),
      Image.setB_getD_same _ _ _
        (by simp only [Image.setB_len, Image.setBytes_len]; omega)]
    exact Nat.mod_mod_of_dvd _ (dvd_refl 256)
  · rw [Image.setB_getD_ne _ _ _ _ (by omega), Image.setB_getD_ne _ _ _ _ (by omega),
      Image.setB_getD_same _ _ _
        (by simp only [Image.setB_len, Image.setBytes_len]; omega)]
    exact Nat.mod_mod_of_dvd _ (dvd_refl 256)
  · rw [Image.setB_getD_ne _ _ _ _ (by omega),
      Image.setB_getD_same _ _ _
        (by simp only [Image.setB_len, Image.setBytes_len]; omega)]
    exact Nat.mod_mod_of_dvd _ (dvd_refl 256)
  · rw [Image.setB_getD_same _ _ _
        (by simp only [Image.setB_len, Image.setBytes_len]; omega)]
    exact Nat.mod_mod_of_dvd _ (dvd_refl 256)

theorem writeDirEntry_getD_mid (img : Image) (o : Nat) (fn fe : List Char)
    (fc sz : Nat) (hin : o + 32 ≤ img.len) (t : Nat) (h1 : 12 ≤ t) (h2 : t < 26) :
    (writeDirEntry img o fn fe fc sz).getD (o + t) = 0 := by
  unfold writeDirEntry
  dsimp only
  rw [Image.setB_getD_ne _ _ _ _ (by omega), Image.setB_getD_ne _ _ _ _ (by omega),
    Image.setB_getD_ne _ _ _ _ (by omega), Image.setB_getD_ne _ _ _ _ (by omega),
    Image.setB_getD_ne _ _ _ _ (by omega), Image.setB_getD_ne _ _ _ _ (by omega),
    show o + t = o + 12 + (t - 12) from by omega,
    Image.setBytes_getD_in _ _ _ (t - 12) (by rw [List.length_replicate]; omega)
      (by simp only [Image.setB_len, Image.setBytes_len]; omega),
    getElem!_replicate _ _ _ (by omega)]

theorem isEOF16 {geo : Geometry} (hft : ¬ geo.fatType = 12) (v : Nat) :
    isEOF geo v ↔ 65528 ≤ v := by
  unfold isEOF
  rw [if_neg hft]

theorem chainWalk_succ_eq (img : Image) (geo : Geometry) (r c : Nat) :
    chainWalk img geo (r + 1) c =
      if 2 ≤ c ∧ ¬ isEOF geo c then
        c :: chainWalk img geo r (readFATEntry img geo c)
      else [] := rfl

theorem chainWalk_of_eof (img : Image) (geo : Geometry) (c : Nat) (h : isEOF geo c) :
    ∀ fuel, chainWalk img geo fuel c = []
  | 0 => rfl
  | fuel + 1 => by rw [chainWalk_succ_eq, if_neg (fun hx => hx.2 h)]

theorem chainWalk_range' (img : Image) (geo : Geometry) (hft : ¬ geo.fatType = 12) :
    ∀ (k s fuel : Nat), 1 ≤ k →
      (∀ t, t + 1 < k → readFATEntry img geo (s + t) = s + t + 1) →
      readFATEntry img geo (s + k - 1) = 65535 →
      2 ≤ s → s + k ≤ 65528 → k ≤ fuel →
      chainWalk img geo fuel s = List.range' s k := by
  intro k
  induction k with
  | zero => intro s fuel h1; omega
  | succ m ih =>
    intro s fuel _ hlink heof h2 hbound hfuel
    obtain ⟨f, rfl⟩ : ∃ f, fuel = f + 1 := ⟨fuel - 1, by omega⟩
    rw [chainWalk_succ_eq,
      if_pos ⟨h2, fun hx => by rw [isEOF16 hft] at hx; omega⟩]
    cases m with
    | zero =>
      have he : readFATEntry img geo s = 65535 := by
        have := heof
        simpa using this
      rw [he, chainWalk_of_eof img geo 65535 (by rw [isEOF16 hft]; omega) f]
      rfl
    | succ m2 =>
      have hl0 : readFATEntry img geo s = s + 1 := by
        have := hlink 0 (by omega)
        simpa using this
      rw [hl0, List.range'_succ]
      congr 1
      apply ih (s + 1) f (by omega)
      · intro t ht
        have := hlink (t + 1) (by omega)
        rw [show s + (t + 1) = s + 1 + t from by omega] at this
        rw [this]
      · have := heof
        rw [show s + (m2 + 2) - 1 = s + 1 + (m2 + 1) - 1 from by omega] at this
        exact this
      · omega
      · omega
      · omega

theorem readClusters_zero (img : Image) (geo : Geometry) (l : List Nat) :
    readClusters img geo l 0 = [] := by
  cases l with
  | nil => rfl
  | cons c rest =>
    unfold readClusters
    dsimp only
    rw [if_pos]
    simp

theorem readClusters_range' (img : Image) (geo : Geometry)
    (hbpc : 0 < geo.bytesPerCluster) :
    ∀ (k s rem : Nat), 2 ≤ s → rem ≤ k * geo.bytesPerCluster →
      readClusters img geo (List.range' s k) rem
        = (List.range rem).map
            (fun b => img.getD (geo.dataStart + (s - 2) * geo.bytesPerCluster + b)) := by
  intro k
  induction k with
  | zero =>
    intro s rem _ hrem
    have : rem = 0 := by omega
    subst this
    rfl
  | succ m ih =>
    intro s rem h2 hrem
    rcases Nat.eq_zero_or_pos rem with h0 | hpos
    · subst h0
      rw [readClusters_zero]
      rfl
    · rw [List.range'_succ]
      unfold readClusters
      dsimp only
      rw [if_neg (by omega : ¬ min geo.bytesPerCluster rem = 0)]
      by_cases hsmall : rem ≤ geo.bytesPerCluster
      · rw [Nat.min_eq_right hsmall]
        rw [show rem - rem = 0 from by omega, readClusters_zero, List.append_nil]
      · rw [Nat.min_eq_left (by omega)]
        rw [ih (s + 1) (rem - geo.bytesPerCluster) (by omega) (by
          have h9 : (m + 1) * geo.bytesPerCluster
              = m * geo.bytesPerCluster + geo.bytesPerCluster := by ring
          omega)]
        conv_rhs => rw [show rem = geo.bytesPerCluster + (rem - geo.bytesPerCluster)
            from by omega,
          List.range_add, List.map_append]
        congr 1
        rw [List.map_map]
        apply List.map_congr_left
        intro b _
        show img.getD (geo.dataStart + (s + 1 - 2) * geo.bytesPerCluster + b)
          = img.getD (geo.dataStart + (s - 2) * geo.bytesPerCluster
            + (geo.bytesPerCluster + b))
        have he2 : (s + 1 - 2) * geo.bytesPerCluster
            = (s - 2) * geo.bytesPerCluster + geo.bytesPerCluster := by
          have h8 : s + 1 - 2 = (s - 2) + 1 := by omega
          rw [h8]; ring
        rw [he2]
        congr 1
        omega

theorem take_range'_eq : ∀ (m s n : Nat), m ≤ n →
    List.take m (List.range' s n) = List.range' s m := by
  intro m
  induction m with
  | zero => intro s n _; rfl
  | succ k ih =>
    intro s n hm
    obtain ⟨n', rfl⟩ : ∃ n', n = n' + 1 := ⟨n - 1, by omega⟩
    rw [List.range'_succ, List.take_cons (by omega), show k + 1 - 1 = k from rfl,
      ih (s + 1) n' (by omega), List.range'_succ]

theorem filter_range'_ge (p : Nat → Bool) :
    ∀ (n a s : Nat), (∀ c, a ≤ c → c < a + n → (p c = true ↔ s ≤ c)) →
      a ≤ s → s ≤ a + n →
      List.filter p (List.range' a n) = List.range' s (a + n - s) := by
  intro n
  induction n with
  | zero =>
    intro a s _ h1 h2
    have : s = a := by omega
    subst this
    simp
  | succ m ih =>
    intro a s hp h1 h2
    rw [List.range'_succ, List.filter_cons]
    by_cases ha : a < s
    · rw [if_neg (by
        intro hc
        have := (hp a (by omega) (by omega)).mp hc
        omega)]
      rw [ih (a + 1) s (fun c hc1 hc2 => hp c (by omega) (by omega)) (by omega)
        (by omega)]
      congr 1
      omega
    · have : s = a := by omega
      subst this
      rw [if_pos ((hp s (by omega) (by omega)).mpr (by omega))]
      rw [ih (s + 1) (s + 1) (fun c hc1 hc2 => by
          rw [hp c (by omega) (by omega)]
          omega) (by omega) (by omega)]
      rw [show s + 1 + m - (s + 1) = m from by omega,
        show s + (m + 1) - s = m + 1 from by omega, List.range'_succ]

theorem map_getElem!_range (l : List Nat) :
    (List.range l.length).map (fun b => l[b]!) = l := by
  apply List.ext_getElem
  · rw [List.length_map, List.length_range]
  · intro i h1 h2
    rw [List.getElem_map, List.getElem_range, getElem!_pos l i h2]

theorem startOf_succ (geo : Geometry) (files : List (List Char × List Nat)) (j : Nat)
    (hj : j < files.length) :
    startOf geo files (j + 1) = startOf geo files j + needK geo (files[j]!).2 := by
  unfold startOf
  rw [List.take_succ, List.map_append, List.sum_append]
  rw [getElem!_pos files j hj]
  have : files[j]?.toList = [files[j]] := by
    rw [List.getElem?_eq_getElem hj]
    rfl
  rw [this]
  simp [Nat.add_assoc]

theorem startOf_mono (geo : Geometry) (files : List (List Char × List Nat)) :
    ∀ i j, i ≤ j → j ≤ files.length → startOf geo files i ≤ startOf geo files j := by
  intro i j hij hj
  induction j with
  | zero =>
    have : i = 0 := by omega
    subst this
    exact le_refl _
  | succ m ih =>
    by_cases him : i = m + 1
    · subst him; exact le_refl _
    · have h1 := ih (by omega) (by omega)
      rw [startOf_succ geo files m (by omega)]
      omega

theorem needK_pos (geo : Geometry) (d : List Nat) : 1 ≤ needK geo d := by
  unfold needK clustersNeeded
  omega

theorem needK_mul_ge (geo : Geometry) (d : List Nat) (hbpc : 0 < geo.bytesPerCluster) :
    d.length ≤ needK geo d * geo.bytesPerCluster := by
  unfold needK clustersNeeded
  rcases Nat.eq_zero_or_pos d.length with h0 | hpos
  · rw [h0]; omega
  · have hle : (d.length + (geo.bytesPerCluster - 1)) / geo.bytesPerCluster ≤
        max 1 ((d.length + (geo.bytesPerCluster - 1)) / geo.bytesPerCluster) :=
      le_max_right _ _
    have hdm := Nat.div_add_mod (d.length + (geo.bytesPerCluster - 1)) geo.bytesPerCluster
    have hmlt : (d.length + (geo.bytesPerCluster - 1)) % geo.bytesPerCluster
        < geo.bytesPerCluster := Nat.mod_lt _ hbpc
    have hc : max 1 ((d.length + (geo.bytesPerCluster - 1)) / geo.bytesPerCluster)
        * geo.bytesPerCluster ≥
        ((d.length + (geo.bytesPerCluster - 1)) / geo.bytesPerCluster)
        * geo.bytesPerCluster := Nat.mul_le_mul_right _ hle
    have he : geo.bytesPerCluster
        * ((d.length + (geo.bytesPerCluster - 1)) / geo.bytesPerCluster)
        = ((d.length + (geo.bytesPerCluster - 1)) / geo.bytesPerCluster)
        * geo.bytesPerCluster := Nat.mul_comm _ _
    omega

theorem readFATEntry_eq16 (img : Image) (geo : Geometry) (c : Nat)
    (hft : ¬ geo.fatType = 12) :
    readFATEntry img geo c
      = img.getD (geo.fatStart + c * 2) + 256 * img.getD (geo.fatStart + c * 2 + 1) := by
  unfold readFATEntry
  rw [if_neg hft]

theorem writeFATEntry_readFATEntry_same (img : Image) (geo : Geometry) (c v : Nat)
    (hft : ¬ geo.fatType = 12)
    (hlay1 : geo.fat2Start = geo.fatStart + geo.sectorsPerFAT * geo.bytesPerSector)
    (hc : 2 * c + 2 ≤ geo.sectorsPerFAT * geo.bytesPerSector)
    (hlen : geo.fat2Start + geo.sectorsPerFAT * geo.bytesPerSector ≤ img.len)
    (hv : v < 65536) :
    readFATEntry (writeFATEntry img geo c v) geo c = v := by
  rw [readFATEntry_eq16 _ _ _ hft, writeFATEntry_eq16 _ _ _ _ hft]
  rw [Image.setB_getD_ne _ _ _ _ (by omega), Image.setB_getD_ne _ _ _ _ (by omega),
    Image.setB_getD_ne _ _ _ _ (by omega),
    Image.setB_getD_same _ _ _ (by omega),
    Image.setB_getD_ne _ _ _ _ (by omega), Image.setB_getD_ne _ _ _ _ (by omega),
    Image.setB_getD_same _ _ _ (by rw [Image.setB_len]; omega)]
  omega

theorem writeFATEntry_readFATEntry_ne (img : Image) (geo : Geometry) (c c2 v : Nat)
    (hft : ¬ geo.fatType = 12)
    (hlay1 : geo.fat2Start = geo.fatStart + geo.sectorsPerFAT * geo.bytesPerSector)
    (hc : 2 * c + 2 ≤ geo.sectorsPerFAT * geo.bytesPerSector)
    (hc2 : 2 * c2 + 2 ≤ geo.sectorsPerFAT * geo.bytesPerSector)
    (hne : c2 ≠ c) :
    readFATEntry (writeFATEntry img geo c v) geo c2 = readFATEntry img geo c2 := by
  rw [readFATEntry_eq16 _ _ _ hft, readFATEntry_eq16 _ _ _ hft,
    writeFATEntry_eq16 _ _ _ _ hft]
  rw [Image.setB_getD_ne _ _ _ _ (by omega), Image.setB_getD_ne _ _ _ _ (by omega),
    Image.setB_getD_ne _ _ _ _ (by omega), Image.setB_getD_ne _ _ _ _ (by omega),
    Image.setB_getD_ne _ _ _ _ (by omega), Image.setB_getD_ne _ _ _ _ (by omega),
    Image.setB_getD_ne _ _ _ _ (by omega), Image.setB_getD_ne _ _ _ _ (by omega)]

theorem setBytes_readFATEntry (img : Image) (geo : Geometry) (c off : Nat)
    (bs : List Nat) (hft : ¬ geo.fatType = 12)
    (hoff : geo.fatStart + c * 2 + 1 < off) :
    readFATEntry (img.setBytes off bs) geo c = readFATEntry img geo c := by
  rw [readFATEntry_eq16 _ _ _ hft, readFATEntry_eq16 _ _ _ hft,
    Image.setBytes_getD_lt _ _ _ _ (by omega), Image.setBytes_getD_lt _ _ _ _ (by omega)]

theorem chunk_getElem (d : List Nat) (m c b : Nat) (hb : b < ((d.drop m).take c).length) :
    ((d.drop m).take c)[b]! = d[m + b]! := by
  rw [List.length_take, List.length_drop] at hb
  rw [getElem!_pos _ b (by rw [List.length_take, List.length_drop]; omega),
    getElem!_pos d (m + b) (by omega)]
  rw [List.getElem_take, List.getElem_drop]

theorem writeDataChain_effect (geo : Geometry) (d : List Nat)
    (hft : ¬ geo.fatType = 12)
    (hlay1 : geo.fat2Start = geo.fatStart + geo.sectorsPerFAT * geo.bytesPerSector)
    (hds : geo.fat2Start + geo.sectorsPerFAT * geo.bytesPerSector ≤ geo.dataStart)
    (hbpc : 0 < geo.bytesPerCluster) :
    ∀ (k s i : Nat) (img : Image),
      2 ≤ s →
      2 * (s + k) + 2 ≤ geo.sectorsPerFAT * geo.bytesPerSector →
      geo.fat2Start + geo.sectorsPerFAT * geo.bytesPerSector ≤ img.len →
      s + k ≤ 65528 →
      (k = 0 ∨ geo.dataStart + (s + k - 2) * geo.bytesPerCluster ≤ img.len) →
      (∀ t, t + 1 < k →
        readFATEntry (writeDataChain geo d 65535 img i (List.range' s k)) geo (s + t)
          = s + t + 1) ∧
      (1 ≤ k →
        readFATEntry (writeDataChain geo d 65535 img i (List.range' s k)) geo (s + k - 1)
          = 65535) ∧
      (∀ c, 2 * c + 2 ≤ geo.sectorsPerFAT * geo.bytesPerSector →
        (c < s ∨ s + k ≤ c) →
        readFATEntry (writeDataChain geo d 65535 img i (List.range' s k)) geo c
          = readFATEntry img geo c) ∧
      (∀ b, b < d.length - i * geo.bytesPerCluster → b < k * geo.bytesPerCluster →
        (writeDataChain geo d 65535 img i (List.range' s k)).getD
            (geo.dataStart + (s - 2) * geo.bytesPerCluster + b)
          = d[i * geo.bytesPerCluster + b]! % 256) ∧
      (∀ p, geo.fat2Start + geo.sectorsPerFAT * geo.bytesPerSector ≤ p →
        p < geo.dataStart + (s - 2) * geo.bytesPerCluster →
        (writeDataChain geo d 65535 img i (List.range' s k)).getD p = img.getD p) := by
  intro k
  induction k with
  | zero =>
    intro s i img _ _ _ _ _
    refine ⟨fun t ht => by omega, fun h1 => by omega, fun c _ _ => rfl,
      fun b hb1 hb2 => by simp at hb2, fun p _ _ => rfl⟩
  | succ k ih =>
    intro s i img h2s hadq hlen hb65 hdlen
    rcases hdlen with h00 | hdlen
    · omega
    rw [List.range'_succ]
    unfold writeDataChain
    dsimp only
    -- abbreviations
    have hoffge : geo.dataStart ≤ geo.dataStart + (s - 2) * geo.bytesPerCluster :=
      Nat.le_add_right _ _
    have hchunklen : ((d.drop (i * geo.bytesPerCluster)).take geo.bytesPerCluster).length
        = min geo.bytesPerCluster (d.length - i * geo.bytesPerCluster) := by
      rw [List.length_take, List.length_drop]
    have hs1 : (s + 1 - 2) * geo.bytesPerCluster
        = (s - 2) * geo.bytesPerCluster + geo.bytesPerCluster := by
      rw [show s + 1 - 2 = (s - 2) + 1 from by omega]; ring
    have hiK : (i + 1) * geo.bytesPerCluster
        = i * geo.bytesPerCluster + geo.bytesPerCluster := by ring
    have hkK : (k + 1) * geo.bytesPerCluster
        = k * geo.bytesPerCluster + geo.bytesPerCluster := by ring
    have hskK : (s + (k + 1) - 2) * geo.bytesPerCluster
        = (s + 1 + k - 2) * geo.bytesPerCluster := by
      rw [show s + (k + 1) - 2 = s + 1 + k - 2 from by omega]
    have hmono1 : (s + 1 - 2) * geo.bytesPerCluster
        ≤ (s + 1 + k - 2) * geo.bytesPerCluster :=
      Nat.mul_le_mul_right _ (by omega)
    rcases Nat.eq_zero_or_pos k with rfl | hkpos
    · -- single-cluster chain [s]
      rw [List.range'_zero]
      dsimp only
      rw [show writeDataChain geo d 65535
          (writeFATEntry (Image.setBytes img
            (geo.dataStart + (s - 2) * geo.bytesPerCluster)
            ((d.drop (i * geo.bytesPerCluster)).take geo.bytesPerCluster)) geo s 65535)
          (i + 1) [] =
          writeFATEntry (Image.setBytes img
            (geo.dataStart + (s - 2) * geo.bytesPerCluster)
            ((d.drop (i * geo.bytesPerCluster)).take geo.bytesPerCluster)) geo s 65535
        from rfl]
      refine ⟨fun t ht => by omega, fun _ => ?_, fun c hcb hco => ?_, fun b hb1 hb2 => ?_,
        fun p hp1 hp2 => ?_⟩
      · rw [show s + (0 + 1) - 1 = s from by omega]
        apply writeFATEntry_readFATEntry_same _ _ _ _ hft hlay1 (by omega)
          (by rw [Image.setBytes_len]; omega) (by omega)
      · rw [writeFATEntry_readFATEntry_ne _ _ _ _ _ hft hlay1 (by omega)
          (by omega) (by omega)]
        exact setBytes_readFATEntry _ _ _ _ _ hft (by omega)
      · rw [hkK] at hb2
        simp only [Nat.zero_mul, Nat.zero_add] at hb2
        have hbc : b < ((d.drop (i * geo.bytesPerCluster)).take
            geo.bytesPerCluster).length := by
          rw [hchunklen]; omega
        rw [writeFATEntry_getD_high _ _ _ _ _ hft hlay1 (by omega) (by omega)]
        rw [Image.setBytes_getD_in _ _ _ b hbc (by omega)]
        rw [chunk_getElem _ _ _ _ hbc]
      · rw [writeFATEntry_getD_high _ _ _ _ _ hft hlay1 (by omega) (by omega)]
        exact Image.setBytes_getD_lt _ _ _ _ (by omega)
    · -- chain of length k+1 ≥ 2
      obtain ⟨m, rfl⟩ : ∃ m, k = m + 1 := ⟨k - 1, by omega⟩
      rw [List.range'_succ]
      dsimp only
      rw [← List.range'_succ]
      have hlen2 : (writeFATEntry (Image.setBytes img
          (geo.dataStart + (s - 2) * geo.bytesPerCluster)
          ((d.drop (i * geo.bytesPerCluster)).take geo.bytesPerCluster)) geo s
          (s + 1)).len = img.len := by
        rw [writeFATEntry_len, Image.setBytes_len]
      have hihm := ih (s + 1) (i + 1)
        (writeFATEntry (Image.setBytes img
          (geo.dataStart + (s - 2) * geo.bytesPerCluster)
          ((d.drop (i * geo.bytesPerCluster)).take geo.bytesPerCluster)) geo s (s + 1))
        (by omega) (by omega) (by rw [hlen2]; omega) (by omega)
        (Or.inr (by rw [hlen2, ← hskK]; omega))
      obtain ⟨ha1, hb1, hc1, hd1, he1⟩ := hihm
      refine ⟨fun t ht => ?_, fun _ => ?_, fun c hcb hco => ?_, fun b hbb1 hbb2 => ?_,
        fun p hp1 hp2 => ?_⟩
      · rcases Nat.eq_zero_or_pos t with rfl | htpos
        · rw [show s + 0 = s from by omega]
          rw [hc1 s (by omega) (by omega)]
          rw [writeFATEntry_readFATEntry_same _ _ _ _ hft hlay1 (by omega)
            (by rw [Image.setBytes_len]; omega) (by omega)]
        · have := ha1 (t - 1) (by omega)
          rw [show s + 1 + (t - 1) = s + t from by omega] at this
          exact this
      · have := hb1 (by omega)
        rw [show s + 1 + (m + 1) - 1 = s + (m + 1 + 1) - 1 from by omega] at this
        exact this
      · rw [hc1 c hcb (by omega)]
        rw [writeFATEntry_readFATEntry_ne _ _ _ _ _ hft hlay1 (by omega) hcb (by omega)]
        exact setBytes_readFATEntry _ _ _ _ _ hft (by omega)
      · by_cases hbc : b < ((d.drop (i * geo.bytesPerCluster)).take
            geo.bytesPerCluster).length
        · have hblt : b < geo.bytesPerCluster := by
            rw [hchunklen] at hbc; omega
          rw [he1 _ (by omega) (by rw [hs1]; omega)]
          rw [writeFATEntry_getD_high _ _ _ _ _ hft hlay1 (by omega) (by omega)]
          rw [Image.setBytes_getD_in _ _ _ b hbc (by
            have : geo.dataStart + (s + (m + 1 + 1) - 2) * geo.bytesPerCluster ≤ img.len :=
              hdlen
            have hm2 : (s - 2) * geo.bytesPerCluster
                ≤ (s + (m + 1 + 1) - 2) * geo.bytesPerCluster :=
              Nat.mul_le_mul_right _ (by omega)
            omega)]
          rw [chunk_getElem _ _ _ _ hbc]
        · have hbpcle : geo.bytesPerCluster ≤ b := by
            rw [hchunklen] at hbc; omega
          have := hd1 (b - geo.bytesPerCluster) (by rw [hiK] at *; omega)
            (by rw [hkK] at hbb2; omega)
          rw [hs1] at this
          rw [show geo.dataStart + ((s - 2) * geo.bytesPerCluster + geo.bytesPerCluster)
              + (b - geo.bytesPerCluster)
              = geo.dataStart + (s - 2) * geo.bytesPerCluster + b from by omega] at this
          rw [this]
          congr 2
          rw [hiK]
          omega
      · rw [he1 p hp1 (by rw [hs1]; omega)]
        rw [writeFATEntry_getD_high _ _ _ _ _ hft hlay1 (by omega) (by omega)]
        exact Image.setBytes_getD_lt _ _ _ _ (by omega)

/-! ## C2: bounded parser congruence -/

theorem get?_congr_lt {i1 i2 : Image} {B : Nat} (hlen : i1.len = i2.len)
    (hb : ∀ j, j < B → i1.getD j = i2.getD j) (j : Nat) (hj : j < B) :
    i1.get? j = i2.get? j := by
  rw [Image.get?_eq_getD, Image.get?_eq_getD, hlen, hb j hj]

theorem getW32_congr_lt {i1 i2 : Image} {B : Nat}
    (hb : ∀ j, j < B → i1.getD j = i2.getD j) (o : Nat) (ho : o + 3 < B) :
    i1.getW32 o = i2.getW32 o := by
  unfold Image.getW32
  rw [hb o (by omega), hb (o + 1) (by omega), hb (o + 2) (by omega),
    hb (o + 3) (by omega)]

theorem readU16_congr_lt {i1 i2 : Image} {B : Nat} (hlen : i1.len = i2.len)
    (hb : ∀ j, j < B → i1.getD j = i2.getD j) (o : Nat) (ho : o + 1 < B) :
    i1.readU16 o = i2.readU16 o := by
  unfold Image.readU16
  rw [hlen, hb o (by omega), hb (o + 1) (by omega)]

theorem readU32_congr_lt {i1 i2 : Image} {B : Nat} (hlen : i1.len = i2.len)
    (hb : ∀ j, j < B → i1.getD j = i2.getD j) (o : Nat) (ho : o + 3 < B) :
    i1.readU32 o = i2.readU32 o := by
  unfold Image.readU32
  rw [hlen, hb o (by omega), hb (o + 1) (by omega), hb (o + 2) (by omega),
    hb (o + 3) (by omega)]

theorem hasMBR_congr_lt {i1 i2 : Image} {B : Nat} (hlen : i1.len = i2.len)
    (hb : ∀ j, j < B → i1.getD j = i2.getD j) (h512 : 512 ≤ B) :
    hasMBR i1 ↔ hasMBR i2 := by
  unfold hasMBR
  rw [hlen, get?_congr_lt hlen hb 510 (by omega), get?_congr_lt hlen hb 511 (by omega)]

theorem scanPartsAux_congr_lt {i1 i2 : Image} {B : Nat}
    (hb : ∀ j, j < B → i1.getD j = i2.getD j) (h512 : 512 ≤ B) :
    ∀ fuel i, i + fuel ≤ 4 → scanPartsAux i1 i fuel = scanPartsAux i2 i fuel := by
  intro fuel
  induction fuel with
  | zero => intro i _; rfl
  | succ m ih =>
    intro i hi
    unfold scanPartsAux
    dsimp only
    rw [hb (446 + i * 16 + 4) (by omega),
      getW32_congr_lt hb (446 + i * 16 + 8) (by omega), ih (i + 1) (by omega)]

theorem parseGeometry_congr_lt {i1 i2 : Image} {B : Nat} (hlen : i1.len = i2.len)
    (hb : ∀ j, j < B → i1.getD j = i2.getD j) (h512 : 512 ≤ B)
    (hscan : (if hasMBR i2 then scanPartsAux i2 0 4 else 0) + 36 ≤ B) :
    parseGeometry i1 = parseGeometry i2 := by
  unfold parseGeometry
  dsimp only
  have hpo : (if hasMBR i1 then scanPartsAux i1 0 4 else 0) =
      (if hasMBR i2 then scanPartsAux i2 0 4 else 0) := by
    by_cases hm : hasMBR i1
    · rw [if_pos hm, if_pos ((hasMBR_congr_lt hlen hb h512).mp hm),
        scanPartsAux_congr_lt hb h512 4 0 (by omega)]
    · rw [if_neg hm, if_neg (fun h2 => hm ((hasMBR_congr_lt hlen hb h512).mpr h2))]
  rw [hpo]
  rw [readU16_congr_lt hlen hb _ (by omega), readU16_congr_lt hlen hb _ (by omega),
    readU16_congr_lt hlen hb _ (by omega), readU16_congr_lt hlen hb _ (by omega),
    readU16_congr_lt hlen hb _ (by omega), readU32_congr_lt hlen hb _ (by omega),
    hb _ (by omega), hb _ (by omega)]

/-! ## C2: low-region and directory-entry preservation -/

theorem writeFATEntry_getD_low (img : Image) (geo : Geometry) (c v p : Nat)
    (hft : ¬ geo.fatType = 12)
    (hlay1 : geo.fat2Start = geo.fatStart + geo.sectorsPerFAT * geo.bytesPerSector)
    (hp : p < geo.fatStart) :
    (writeFATEntry img geo c v).getD p = img.getD p := by
  rw [writeFATEntry_eq16 img geo c v hft]
  rw [Image.setB_getD_ne _ _ _ _ (by omega), Image.setB_getD_ne _ _ _ _ (by omega),
    Image.setB_getD_ne _ _ _ _ (by omega), Image.setB_getD_ne _ _ _ _ (by omega)]

theorem writeDataChain_getD_low (geo : Geometry) (d : List Nat) (e : Nat)
    (hft : ¬ geo.fatType = 12)
    (hlay1 : geo.fat2Start = geo.fatStart + geo.sectorsPerFAT * geo.bytesPerSector)
    (hfd : geo.fatStart ≤ geo.dataStart) :
    ∀ (cs : List Nat) (img : Image) (i p : Nat), p < geo.fatStart →
      (writeDataChain geo d e img i cs).getD p = img.getD p := by
  intro cs
  induction cs with
  | nil => intro img i p _; rfl
  | cons c rest ih =>
    intro img i p hp
    unfold writeDataChain
    dsimp only
    rw [ih _ _ _ hp, writeFATEntry_getD_low _ _ _ _ _ hft hlay1 hp,
      Image.setBytes_getD_lt _ _ _ _ (by omega)]

theorem writeDirEntry_readFATEntry (img : Image) (geo : Geometry)
    (o : Nat) (fn fe : List Char) (fc sz c : Nat)
    (hft : ¬ geo.fatType = 12)
    (ho : geo.fatStart + c * 2 + 1 < o) :
    readFATEntry (writeDirEntry img o fn fe fc sz) geo c = readFATEntry img geo c := by
  rw [readFATEntry_eq16 _ _ _ hft, readFATEntry_eq16 _ _ _ hft,
    writeDirEntry_getD_lt _ _ _ _ _ _ _ (by omega),
    writeDirEntry_getD_lt _ _ _ _ _ _ _ (by omega)]

/-! ## C2: the free-cluster scan under the batch invariant -/

theorem cluster_locate (geo : Geometry) (files : List (List Char × List Nat)) :
    ∀ (i c : Nat), i ≤ files.length → 2 ≤ c → c < startOf geo files i →
      ∃ j, j < i ∧ startOf geo files j ≤ c ∧
        c < startOf geo files j + needK geo (files[j]!).2 := by
  intro i
  induction i with
  | zero =>
    intro c _ h2 hc
    have h0 : startOf geo files 0 = 2 := rfl
    omega
  | succ m ih =>
    intro c hi h2 hc
    by_cases hcm : c < startOf geo files m
    · obtain ⟨j, hj1, hj2, hj3⟩ := ih c (by omega) h2 hcm
      exact ⟨j, by omega, hj2, hj3⟩
    · refine ⟨m, by omega, by omega, ?_⟩
      rw [startOf_succ geo files m (by omega)] at hc
      omega

theorem collectFree_under_inv (geo : Geometry) (img0 img : Image)
    (files : List (List Char × List Nat)) (i needed : Nat)
    (hinv : RTInv geo img0 img files i) (hi : i ≤ files.length)
    (hSn : startOf geo files i + needed ≤ (geo.totalClusters + 1).toNat + 1) :
    collectFree img geo needed = List.range' (startOf geo files i) needed := by
  have hS2 : 2 ≤ startOf geo files i := Nat.le_add_right 2 _
  have hT1 : 1 ≤ (geo.totalClusters + 1).toNat := by omega
  unfold collectFree
  have hp : ∀ c, 2 ≤ c → c < 2 + ((geo.totalClusters + 1).toNat - 1) →
      (decide (readFATEntry img geo c = 0) = true ↔ startOf geo files i ≤ c) := by
    intro c hc1 hc2
    rw [decide_eq_true_iff]
    constructor
    · intro h0
      by_contra hlt
      push_neg at hlt
      obtain ⟨j, hj1, hj2, hj3⟩ := cluster_locate geo files i c hi hc1 hlt
      by_cases hlast : c + 1 < startOf geo files j + needK geo (files[j]!).2
      · have hl := hinv.fat_link j hj1 (c - startOf geo files j) (by omega)
        rw [show startOf geo files j + (c - startOf geo files j) = c from by omega]
          at hl
        omega
      · have he := hinv.fat_eof j hj1
        rw [show startOf geo files j + needK geo (files[j]!).2 - 1 = c from by omega]
          at he
        omega
    · intro hS
      exact hinv.fat_free c hS (by omega)
  rw [filter_range'_ge _ _ _ _ hp (by omega) (by omega),
    take_range'_eq _ _ _ (by omega)]

/-! ## C2: directory-scan results under the batch invariant -/

theorem findSome?_all_none {α β : Type} (f : α → Option β) :
    ∀ (l : List α), (∀ x ∈ l, f x = none) → l.findSome? f = none := by
  intro l
  induction l with
  | nil => intro _; rfl
  | cons a rest ih =>
    intro h
    rw [findSome?_cons_none _ _ _ (h a (by simp))]
    exact ih (fun x hx => h x (by simp [hx]))

theorem findSome?_range'_pos {α : Type} (f : Nat → Option α) :
    ∀ (n a k : Nat) (v : α), k < n → (∀ t, t < k → f (a + t) = none) →
      f (a + k) = some v → (List.range' a n).findSome? f = some v := by
  intro n
  induction n with
  | zero => intro a k v hk _ _; omega
  | succ m ih =>
    intro a k v hk h0 hv
    rw [List.range'_succ]
    rcases Nat.eq_zero_or_pos k with rfl | hkpos
    · rw [Nat.add_zero] at hv
      rw [findSome?_cons_some _ _ _ _ hv]
    · have h00 := h0 0 (by omega)
      rw [Nat.add_zero] at h00
      rw [findSome?_cons_none _ _ _ h00]
      refine ih (a + 1) (k - 1) v (by omega) (fun t ht => ?_) ?_
      · rw [show a + 1 + t = a + (1 + t) from by omega]
        exact h0 (1 + t) (by omega)
      · rw [show a + 1 + (k - 1) = a + k from by omega]
        exact hv

theorem findFreeSlot_at (img : Image) (geo : Geometry) (i : Nat)
    (hi : i < geo.rootDirEntries)
    (hocc : ∀ j, j < i → ∃ w, img.get? (geo.rootDirStart + j * 32) = some w ∧
      48 ≤ w ∧ w ≤ 90)
    (hfree : img.get? (geo.rootDirStart + i * 32) = some 0) :
    findFreeSlot img geo = some (geo.rootDirStart + i * 32) := by
  unfold findFreeSlot
  rw [List.range_eq_range' geo.rootDirEntries]
  refine findSome?_range'_pos _ _ 0 i _ hi (fun t ht => ?_) ?_
  · dsimp only
    obtain ⟨w, hw, hw1, hw2⟩ := hocc t (by omega)
    rw [show (0 : Nat) + t = t from by omega]
    rw [if_neg ?_]
    unfold slotFreeOrDeleted
    rw [hw]
    rintro (h | h) <;> (rw [Option.some_inj] at h; omega)
  · dsimp only
    rw [show (0 : Nat) + i = i from by omega]
    rw [if_pos (show slotFreeOrDeleted img (geo.rootDirStart + i * 32) from
      Or.inl hfree)]

theorem findExisting_none_of (img : Image) (geo : Geometry) (fnfe : List Char)
    (h : ∀ j, j < geo.rootDirEntries →
      slotFreeOrDeleted img (geo.rootDirStart + j * 32) ∨
      slotName img (geo.rootDirStart + j * 32) ≠ fnfe) :
    findExisting img geo fnfe = none := by
  unfold findExisting
  apply findSome?_all_none
  intro j hj
  have hjn : j < geo.rootDirEntries := List.mem_range.mp hj
  dsimp only
  rcases h j hjn with hf | hn
  · rw [if_pos hf]
  · by_cases hf : slotFreeOrDeleted img (geo.rootDirStart + j * 32)
    · rw [if_pos hf]
    · rw [if_neg hf, if_neg hn]

theorem slotName_of_bytes (img : Image) (o : Nat) (cs : List Char)
    (hlen : cs.length = 11)
    (hb : ∀ t, t < 11 → img.getD (o + t) = (cs.map Char.toNat)[t]!) :
    slotName img o = cs := by
  unfold slotName
  apply List.ext_getElem
  · rw [List.length_map, List.length_range, hlen]
  · intro t h1 h2
    rw [List.length_map, List.length_range] at h1
    rw [List.getElem_map, List.getElem_range]
    rw [hb t h1, getElem!_map_toNat cs t (by omega),
      getElem!_pos cs t (by omega), Char.ofNat_toNat]

/-! ## C2: the per-file write step -/

theorem name83_codes {n : List Char} (h : valid83 n) (t : Nat) (ht : t < 11) :
    32 ≤ (((name83 n).1 ++ (name83 n).2).map Char.toNat)[t]! ∧
    (((name83 n).1 ++ (name83 n).2).map Char.toNat)[t]! ≤ 90 := by
  have hl1 : (name83 n).1.length = 8 := name83_len1 n
  have hl2 : (name83 n).2.length = 3 := name83_len2 n
  rw [getElem!_map_toNat _ _ (by rw [List.length_append]; omega)]
  have hmem : ((name83 n).1 ++ (name83 n).2)[t]! ∈ (name83 n).1 ++ (name83 n).2 := by
    rw [getElem!_pos _ t (by rw [List.length_append]; omega)]
    exact List.getElem_mem (by rw [List.length_append]; omega)
  rcases List.mem_append.mp hmem with hm | hm
  · exact validChar_or_space_code (name83_mem1 h _ hm)
  · exact validChar_or_space_code (name83_mem2 h _ hm)

theorem name_append_inj {n1 n2 : List Char} (h1 : valid83 n1) (h2 : valid83 n2)
    (heq : (name83 n1).1 ++ (name83 n1).2 = (name83 n2).1 ++ (name83 n2).2) :
    n1 = n2 := by
  have hp := List.append_inj heq (by rw [name83_len1, name83_len1])
  exact name83_inj h1 h2 (Prod.ext_iff.mpr ⟨hp.1, hp.2⟩)

theorem rt_write_eval (geo : Geometry) (img0 img : Image)
    (files : List (List Char × List Nat)) (i : Nat)
    (hG : GeoOk geo img0) (hF : FilesOk geo files)
    (hi : i < files.length) (hinv : RTInv geo img0 img files i) :
    writeFileToImage img geo (files[i]!).1 (files[i]!).2
      = (true, writeDirEntry
          (writeDataChain geo (files[i]!).2 65535 img 0
            (List.range' (startOf geo files i) (needK geo (files[i]!).2)))
          (geo.rootDirStart + i * 32) (name83 (files[i]!).1).1
          (name83 (files[i]!).1).2 (startOf geo files i) (files[i]!).2.length) := by
  have hmem : files[i]! ∈ files := by
    rw [getElem!_pos files i hi]
    exact List.getElem_mem hi
  have hlay2 := hG.lay2
  have hlay3 := hG.lay3
  have hadq := hG.adq
  have ht65 := hG.t65526
  have hcnt := hF.cnt
  have hdlen0 := hG.dlen
  have hfit1 : startOf geo files (i + 1) ≤ (geo.totalClusters + 1).toNat + 1 :=
    le_trans (startOf_mono geo files (i + 1) files.length (by omega) (le_refl _)) hF.fit
  have hsucc : startOf geo files (i + 1)
      = startOf geo files i + needK geo (files[i]!).2 := startOf_succ geo files i hi
  have hS2 : 2 ≤ startOf geo files i := Nat.le_add_right 2 _
  have hK1 : 1 ≤ needK geo (files[i]!).2 := needK_pos geo _
  have hds : geo.fat2Start + geo.sectorsPerFAT * geo.bytesPerSector ≤ geo.dataStart := by
    omega
  have hlen0 : img.len = img0.len := hinv.len_eq
  have hzzz : 0 ≤ ((geo.totalClusters + 1).toNat - 1) * geo.bytesPerCluster :=
    Nat.zero_le _
  have hL_img : geo.fat2Start + geo.sectorsPerFAT * geo.bytesPerSector ≤ img.len := by
    omega
  have hrde_img : geo.rootDirStart + geo.rootDirEntries * 32 ≤ img.len := by omega
  have hdata_img : geo.dataStart + (startOf geo files i + needK geo (files[i]!).2 - 2)
      * geo.bytesPerCluster ≤ img.len := by
    have hmul : (startOf geo files i + needK geo (files[i]!).2 - 2) * geo.bytesPerCluster
        ≤ ((geo.totalClusters + 1).toNat - 1) * geo.bytesPerCluster :=
      Nat.mul_le_mul_right _ (by omega)
    omega
  obtain ⟨hWa, hWb, hWc, hWd, hWe⟩ :=
    writeDataChain_effect geo (files[i]!).2 hG.ft hG.lay1 hds hG.bpc_pos
      (needK geo (files[i]!).2) (startOf geo files i) 0 img hS2 (by omega) hL_img
      (by omega) (Or.inr hdata_img)
  have himg1len : (writeDataChain geo (files[i]!).2 65535 img 0
      (List.range' (startOf geo files i) (needK geo (files[i]!).2))).len = img.len :=
    writeDataChain_len geo _ _ _ img 0
  have hdir1 : ∀ k, geo.rootDirStart ≤ k →
      k < geo.rootDirStart + geo.rootDirEntries * 32 →
      (writeDataChain geo (files[i]!).2 65535 img 0
        (List.range' (startOf geo files i) (needK geo (files[i]!).2))).getD k
        = img.getD k := by
    intro k hk1 hk2
    refine hWe k (by omega) ?_
    have hle : geo.dataStart ≤ geo.dataStart
        + (startOf geo files i - 2) * geo.bytesPerCluster := Nat.le_add_right _ _
    omega
  have hocc : ∀ j, j < i → ∃ w,
      (writeDataChain geo (files[i]!).2 65535 img 0
        (List.range' (startOf geo files i) (needK geo (files[i]!).2))).get?
        (geo.rootDirStart + j * 32) = some w ∧ 48 ≤ w ∧ w ≤ 90 := by
    intro j hj
    have hjlt : j < files.length := by omega
    have hmemj : files[j]! ∈ files := by
      rw [getElem!_pos files j hjlt]
      exact List.getElem_mem hjlt
    have hvj := hF.val _ hmemj
    have hb0 := hinv.dir_name j hj 0 (by omega)
    rw [Nat.add_zero] at hb0
    have hcode := name83_first_code hvj
    have hl1 := name83_len1 (files[j]!).1
    have hcodes0 : ((((name83 (files[j]!).1).1 ++ (name83 (files[j]!).1).2).map
        Char.toNat))[0]! = ((name83 (files[j]!).1).1[0]!).toNat := by
      rw [getElem!_map_toNat _ _ (by rw [List.length_append]; omega),
        getElem!_pos ((name83 (files[j]!).1).1 ++ (name83 (files[j]!).1).2) 0
          (by rw [List.length_append]; omega),
        List.getElem_append_left (by omega),
        getElem!_pos (name83 (files[j]!).1).1 0 (by omega)]
    refine ⟨(writeDataChain geo (files[i]!).2 65535 img 0
      (List.range' (startOf geo files i) (needK geo (files[i]!).2))).getD
      (geo.rootDirStart + j * 32), ?_, ?_, ?_⟩
    · exact Image.get?_eq_some_getD _ _ (by rw [himg1len]; omega)
    · rw [hdir1 _ (by omega) (by omega), hb0, hcodes0]
      exact hcode.1
    · rw [hdir1 _ (by omega) (by omega), hb0, hcodes0]
      exact hcode.2
  have hfree_slot : (writeDataChain geo (files[i]!).2 65535 img 0
      (List.range' (startOf geo files i) (needK geo (files[i]!).2))).get?
      (geo.rootDirStart + i * 32) = some 0 := by
    rw [Image.get?_eq_some_getD _ _ (by rw [himg1len]; omega),
      hdir1 _ (by omega) (by omega),
      hinv.dir_free (geo.rootDirStart + i * 32) (le_refl _) (by omega)]
  have hex : findExisting (writeDataChain geo (files[i]!).2 65535 img 0
      (List.range' (startOf geo files i) (needK geo (files[i]!).2))) geo
      ((name83 (files[i]!).1).1 ++ (name83 (files[i]!).1).2) = none := by
    apply findExisting_none_of
    intro j hj
    by_cases hji : j < i
    · right
      have hjlt : j < files.length := by omega
      have hmemj : files[j]! ∈ files := by
        rw [getElem!_pos files j hjlt]
        exact List.getElem_mem hjlt
      have hvj := hF.val _ hmemj
      have hsn : slotName (writeDataChain geo (files[i]!).2 65535 img 0
          (List.range' (startOf geo files i) (needK geo (files[i]!).2)))
          (geo.rootDirStart + j * 32)
          = (name83 (files[j]!).1).1 ++ (name83 (files[j]!).1).2 := by
        apply slotName_of_bytes _ _ _
          (by rw [List.length_append, name83_len1, name83_len2])
        intro t ht
        rw [hdir1 _ (by omega) (by omega)]
        exact hinv.dir_name j hji t ht
      rw [hsn]
      intro heq
      have hnmeq : (files[j]!).1 = (files[i]!).1 :=
        name_append_inj hvj (hF.val _ hmem) heq
      have hjm : j < (files.map (fun f => f.1)).length := by
        rw [List.length_map]; omega
      have him : i < (files.map (fun f => f.1)).length := by
        rw [List.length_map]; omega
      have hgeq : (files.map (fun f => f.1))[j] = (files.map (fun f => f.1))[i] := by
        rw [List.getElem_map, List.getElem_map, ← getElem!_pos files j hjlt,
          ← getElem!_pos files i hi, hnmeq]
      exact absurd (hF.nodup.getElem_inj_iff.mp hgeq) (by omega)
    · left
      unfold slotFreeOrDeleted
      left
      rw [Image.get?_eq_some_getD _ _ (by rw [himg1len]; omega),
        hdir1 _ (by omega) (by omega),
        hinv.dir_free (geo.rootDirStart + j * 32) (by omega) (by omega)]
  have hslot : findFreeSlot (writeDataChain geo (files[i]!).2 65535 img 0
      (List.range' (startOf geo files i) (needK geo (files[i]!).2))) geo
      = some (geo.rootDirStart + i * 32) :=
    findFreeSlot_at _ _ i (by omega) hocc hfree_slot
  have hKdef : clustersNeeded geo (files[i]!).2.length = needK geo (files[i]!).2 := rfl
  have hfree := collectFree_under_inv geo img0 img files i (needK geo (files[i]!).2)
    hinv (by omega) (by omega)
  have hhead : (List.range' (startOf geo files i) (needK geo (files[i]!).2)).headD 0
      = startOf geo files i := by
    obtain ⟨k, hk⟩ : ∃ k, needK geo (files[i]!).2 = k + 1 :=
      ⟨needK geo (files[i]!).2 - 1, by omega⟩
    rw [hk, List.range'_succ]
    rfl
  unfold writeFileToImage
  dsimp only
  rw [hKdef, hfree, if_neg hG.ft, List.length_range', if_neg (lt_irrefl _), hex]
  dsimp only
  rw [hslot]
  dsimp only
  rw [hhead]

theorem rt_step (geo : Geometry) (img0 img : Image)
    (files : List (List Char × List Nat)) (i : Nat)
    (hG : GeoOk geo img0) (hF : FilesOk geo files)
    (hi : i < files.length) (hinv : RTInv geo img0 img files i) :
    (writeFileToImage img geo (files[i]!).1 (files[i]!).2).1 = true ∧
    RTInv geo img0 (writeFileToImage img geo (files[i]!).1 (files[i]!).2).2 files
      (i + 1) := by
  rw [rt_write_eval geo img0 img files i hG hF hi hinv]
  refine ⟨rfl, ?_⟩
  dsimp only
  have hmem : files[i]! ∈ files := by
    rw [getElem!_pos files i hi]
    exact List.getElem_mem hi
  have hlay1' := hG.lay1
  have hlay2 := hG.lay2
  have hlay3 := hG.lay3
  have hadq := hG.adq
  have ht65 := hG.t65526
  have hcnt := hF.cnt
  have hdlen0 := hG.dlen
  have hfit1 : startOf geo files (i + 1) ≤ (geo.totalClusters + 1).toNat + 1 :=
    le_trans (startOf_mono geo files (i + 1) files.length (by omega) (le_refl _)) hF.fit
  have hsucc : startOf geo files (i + 1)
      = startOf geo files i + needK geo (files[i]!).2 := startOf_succ geo files i hi
  have hS2 : 2 ≤ startOf geo files i := Nat.le_add_right 2 _
  have hK1 : 1 ≤ needK geo (files[i]!).2 := needK_pos geo _
  have hds : geo.fat2Start + geo.sectorsPerFAT * geo.bytesPerSector ≤ geo.dataStart := by
    omega
  have hlen0 : img.len = img0.len := hinv.len_eq
  have hzzz : 0 ≤ ((geo.totalClusters + 1).toNat - 1) * geo.bytesPerCluster :=
    Nat.zero_le _
  have hL_img : geo.fat2Start + geo.sectorsPerFAT * geo.bytesPerSector ≤ img.len := by
    omega
  have hrde_img : geo.rootDirStart + geo.rootDirEntries * 32 ≤ img.len := by omega
  have hdata_img : geo.dataStart + (startOf geo files i + needK geo (files[i]!).2 - 2)
      * geo.bytesPerCluster ≤ img.len := by
    have hmul : (startOf geo files i + needK geo (files[i]!).2 - 2) * geo.bytesPerCluster
        ≤ ((geo.totalClusters + 1).toNat - 1) * geo.bytesPerCluster :=
      Nat.mul_le_mul_right _ (by omega)
    omega
  obtain ⟨hWa, hWb, hWc, hWd, hWe⟩ :=
    writeDataChain_effect geo (files[i]!).2 hG.ft hG.lay1 hds hG.bpc_pos
      (needK geo (files[i]!).2) (startOf geo files i) 0 img hS2 (by omega) hL_img
      (by omega) (Or.inr hdata_img)
  have himg1len : (writeDataChain geo (files[i]!).2 65535 img 0
      (List.range' (startOf geo files i) (needK geo (files[i]!).2))).len = img.len :=
    writeDataChain_len geo _ _ _ img 0
  have hdir1 : ∀ k, geo.rootDirStart ≤ k →
      k < geo.rootDirStart + geo.rootDirEntries * 32 →
      (writeDataChain geo (files[i]!).2 65535 img 0
        (List.range' (startOf geo files i) (needK geo (files[i]!).2))).getD k
        = img.getD k := by
    intro k hk1 hk2
    refine hWe k (by omega) ?_
    have hle : geo.dataStart ≤ geo.dataStart
        + (startOf geo files i - 2) * geo.bytesPerCluster := Nat.le_add_right _ _
    omega
  have hfn_len : (name83 (files[i]!).1).1.length = 8 := name83_len1 _
  have hfe_len : (name83 (files[i]!).1).2.length = 3 := name83_len2 _
  have hfd : geo.fatStart ≤ geo.dataStart := by omega
  have hkI := needK_mul_ge geo (files[i]!).2 hG.bpc_pos
  refine ⟨?_, ?_, ?_, ?_, ?_, ?_, ?_, ?_, ?_, ?_, ?_, ?_⟩
  · -- i_le
    omega
  · -- len_eq
    rw [writeDirEntry_len, himg1len, hlen0]
  · -- low_eq
    intro k hk
    rw [writeDirEntry_getD_lt _ _ _ _ _ _ _ (by omega),
      writeDataChain_getD_low geo (files[i]!).2 65535 hG.ft hG.lay1 hfd _ img 0 k hk]
    exact hinv.low_eq k hk
  · -- dir_name
    intro j hj t ht
    by_cases hji : j < i
    · rw [writeDirEntry_getD_lt _ _ _ _ _ _ _ (by omega), hdir1 _ (by omega) (by omega)]
      exact hinv.dir_name j hji t ht
    · have hje : j = i := by omega
      subst hje
      rw [writeDirEntry_getD_name _ _ _ _ _ _ hfn_len hfe_len
        (by rw [himg1len]; omega) t ht]
      have hc := name83_codes (hF.val _ hmem) t ht
      omega
  · -- dir_attr
    intro j hj
    by_cases hji : j < i
    · rw [writeDirEntry_getD_lt _ _ _ _ _ _ _ (by omega), hdir1 _ (by omega) (by omega)]
      exact hinv.dir_attr j hji
    · have hje : j = i := by omega
      subst hje
      exact writeDirEntry_getD_attr _ _ _ _ _ _ (by rw [himg1len]; omega)
  · -- dir_fc
    intro j hj
    by_cases hji : j < i
    · refine ⟨?_, ?_⟩
      · rw [writeDirEntry_getD_lt _ _ _ _ _ _ _ (by omega),
          hdir1 _ (by omega) (by omega)]
        exact (hinv.dir_fc j hji).1
      · rw [writeDirEntry_getD_lt _ _ _ _ _ _ _ (by omega),
          hdir1 _ (by omega) (by omega)]
        exact (hinv.dir_fc j hji).2
    · have hje : j = i := by omega
      subst hje
      exact writeDirEntry_getD_fc _ _ _ _ _ _ (by rw [himg1len]; omega)
  · -- dir_sz
    intro j hj
    by_cases hji : j < i
    · refine ⟨?_, ?_, ?_, ?_⟩ <;>
        (rw [writeDirEntry_getD_lt _ _ _ _ _ _ _ (by omega),
          hdir1 _ (by omega) (by omega)])
      · exact (hinv.dir_sz j hji).1
      · exact (hinv.dir_sz j hji).2.1
      · exact (hinv.dir_sz j hji).2.2.1
      · exact (hinv.dir_sz j hji).2.2.2
    · have hje : j = i := by omega
      subst hje
      exact writeDirEntry_getD_sz _ _ _ _ _ _ (by rw [himg1len]; omega)
  · -- dir_free
    intro k hk1 hk2
    rw [writeDirEntry_getD_ge _ _ _ _ _ _ _ hfn_len hfe_len (by omega),
      hdir1 _ (by omega) (by omega)]
    exact hinv.dir_free k (by omega) hk2
  · -- fat_link
    intro j hj t ht
    have hjlt : j < files.length := by omega
    have hsuccj := startOf_succ geo files j hjlt
    have hmonoj := startOf_mono geo files (j + 1) (i + 1) (by omega) (by omega)
    have hSj2 : 2 ≤ startOf geo files j := Nat.le_add_right 2 _
    rw [writeDirEntry_readFATEntry _ _ _ _ _ _ _ _ hG.ft (by omega)]
    by_cases hji : j < i
    · have hmonoj2 := startOf_mono geo files (j + 1) i (by omega) (by omega)
      rw [hWc _ (by omega) (Or.inl (by omega))]
      exact hinv.fat_link j hji t ht
    · have hje : j = i := by omega
      subst hje
      exact hWa t ht
  · -- fat_eof
    intro j hj
    have hjlt : j < files.length := by omega
    have hsuccj := startOf_succ geo files j hjlt
    have hmonoj := startOf_mono geo files (j + 1) (i + 1) (by omega) (by omega)
    have hSj2 : 2 ≤ startOf geo files j := Nat.le_add_right 2 _
    have hKj1 : 1 ≤ needK geo (files[j]!).2 := needK_pos geo _
    rw [writeDirEntry_readFATEntry _ _ _ _ _ _ _ _ hG.ft (by omega)]
    by_cases hji : j < i
    · have hmonoj2 := startOf_mono geo files (j + 1) i (by omega) (by omega)
      rw [hWc _ (by omega) (Or.inl (by omega))]
      exact hinv.fat_eof j hji
    · have hje : j = i := by omega
      subst hje
      exact hWb (by omega)
  · -- fat_free
    intro c hc1 hc2
    rw [writeDirEntry_readFATEntry _ _ _ _ _ _ _ _ hG.ft (by omega),
      hWc c (by omega) (Or.inr (by omega))]
    exact hinv.fat_free c (by omega) hc2
  · -- data_eq
    intro j hj b hb
    by_cases hji : j < i
    · have hjlt : j < files.length := by omega
      have hkj := needK_mul_ge geo (files[j]!).2 hG.bpc_pos
      have hsuccj := startOf_succ geo files j hjlt
      have hmonoj := startOf_mono geo files (j + 1) i (by omega) (by omega)
      have hSj2 : 2 ≤ startOf geo files j := Nat.le_add_right 2 _
      have hplt : (startOf geo files j - 2) * geo.bytesPerCluster + b
          < (startOf geo files i - 2) * geo.bytesPerCluster := by
        have h1 : b < needK geo (files[j]!).2 * geo.bytesPerCluster := by omega
        have h2 : (startOf geo files j - 2) * geo.bytesPerCluster
            + needK geo (files[j]!).2 * geo.bytesPerCluster
            = (startOf geo files (j + 1) - 2) * geo.bytesPerCluster := by
          rw [← Nat.add_mul]
          congr 1
          omega
        have h3 : (startOf geo files (j + 1) - 2) * geo.bytesPerCluster
            ≤ (startOf geo files i - 2) * geo.bytesPerCluster :=
          Nat.mul_le_mul_right _ (by omega)
        omega
      rw [writeDirEntry_getD_ge _ _ _ _ _ _ _ hfn_len hfe_len (by omega),
        hWe _ (by omega) (by omega)]
      exact hinv.data_eq j hji b hb
    · have hje : j = i := by omega
      subst hje
      rw [writeDirEntry_getD_ge _ _ _ _ _ _ _ hfn_len hfe_len (by omega)]
      have hd := hWd b (by omega) (by omega)
      rw [show (0 : Nat) * geo.bytesPerCluster + b = b from by omega] at hd
      exact hd

theorem rt_fold (geo : Geometry) (img0 : Image)
    (files : List (List Char × List Nat))
    (hG : GeoOk geo img0) (hF : FilesOk geo files) :
    ∀ (n i : Nat) (img : Image), i + n = files.length →
      RTInv geo img0 img files i →
      writeSeqOk geo img (files.drop i) ∧
      RTInv geo img0 (writeSeq geo img (files.drop i)) files files.length := by
  intro n
  induction n with
  | zero =>
    intro i img hin hinv
    rw [List.drop_eq_nil_of_le (by omega)]
    refine ⟨True.intro, ?_⟩
    have hie : i = files.length := by omega
    subst hie
    exact hinv
  | succ m ih =>
    intro i img hin hinv
    have hi : i < files.length := by omega
    have hdropi : files.drop i = files[i]! :: files.drop (i + 1) := by
      rw [getElem!_pos files i hi]
      exact List.drop_eq_getElem_cons hi
    obtain ⟨hok, hinv'⟩ := rt_step geo img0 img files i hG hF hi hinv
    obtain ⟨hok2, hinv2⟩ := ih (i + 1)
      (writeFileToImage img geo (files[i]!).1 (files[i]!).2).2 (by omega) hinv'
    rw [hdropi]
    refine ⟨?_, ?_⟩
    · show (writeFileToImage img geo (files[i]!).1 (files[i]!).2).1 = true ∧
        writeSeqOk geo (writeFileToImage img geo (files[i]!).1 (files[i]!).2).2
          (files.drop (i + 1))
      exact ⟨hok, hok2⟩
    · show RTInv geo img0 (writeSeq geo
        (writeFileToImage img geo (files[i]!).1 (files[i]!).2).2 (files.drop (i + 1)))
        files files.length
      exact hinv2

/-! ## C2: reading one written slot back -/

theorem list_len1_eq {α : Type} (l : List α) (d : α) (h : l.length = 1) :
    l = [l.getD 0 d] := by
  cases l with
  | nil => simp at h
  | cons a t =>
    cases t with
    | nil => rfl
    | cons b t2 => simp only [List.length_cons] at h; omega

theorem list_len2_eq {α : Type} (l : List α) (d : α) (h : l.length = 2) :
    l = [l.getD 0 d, l.getD 1 d] := by
  cases l with
  | nil => simp at h
  | cons a t =>
    cases t with
    | nil => simp only [List.length_cons, List.length_nil] at h; omega
    | cons b t2 =>
      cases t2 with
      | nil => rfl
      | cons c t3 => simp only [List.length_cons] at h; omega

theorem rt_read_data (geo : Geometry) (img0 imgF : Image)
    (files : List (List Char × List Nat)) (i : Nat)
    (hG : GeoOk geo img0) (hF : FilesOk geo files)
    (hinvF : RTInv geo img0 imgF files files.length) (hi : i < files.length) :
    readClusters imgF geo
      (List.range' (startOf geo files i) (needK geo (files[i]!).2))
      (files[i]!).2.length = (files[i]!).2 := by
  have hmem : files[i]! ∈ files := by
    rw [getElem!_pos files i hi]
    exact List.getElem_mem hi
  have hS2 : 2 ≤ startOf geo files i := Nat.le_add_right 2 _
  rw [readClusters_range' imgF geo hG.bpc_pos _ _ _ hS2
    (needK_mul_ge geo (files[i]!).2 hG.bpc_pos)]
  have hpt : ∀ b ∈ List.range (files[i]!).2.length,
      imgF.getD (geo.dataStart + (startOf geo files i - 2) * geo.bytesPerCluster + b)
      = (files[i]!).2[b]! := by
    intro b hb
    have hbl := List.mem_range.mp hb
    rw [hinvF.data_eq i hi b hbl]
    have hmemb : (files[i]!).2[b]! ∈ (files[i]!).2 := by
      rw [getElem!_pos (files[i]!).2 b hbl]
      exact List.getElem_mem hbl
    have := hF.bytes _ hmem _ hmemb
    omega
  rw [List.map_congr_left hpt]
  exact map_getElem!_range _

theorem rt_slot_name (geo : Geometry) (img0 imgF : Image)
    (files : List (List Char × List Nat)) (i : Nat)
    (hF : FilesOk geo files)
    (hinvF : RTInv geo img0 imgF files files.length) (hi : i < files.length) :
    slotFullName imgF (geo.rootDirStart + i * 32) = (files[i]!).1 := by
  have hmem : files[i]! ∈ files := by
    rw [getElem!_pos files i hi]
    exact List.getElem_mem hi
  have hv := hF.val _ hmem
  have hl1 : (name83 (files[i]!).1).1.length = 8 := name83_len1 _
  have hl2 : (name83 (files[i]!).1).2.length = 3 := name83_len2 _
  have hname : (List.range 8).map
      (fun c => Char.ofNat (imgF.getD (geo.rootDirStart + i * 32 + c)))
      = (name83 (files[i]!).1).1 := by
    apply List.ext_getElem
    · rw [List.length_map, List.length_range, hl1]
    · intro t h1 h2
      rw [List.length_map, List.length_range] at h1
      rw [List.getElem_map, List.getElem_range,
        hinvF.dir_name i hi t (by omega),
        getElem!_map_toNat _ _ (by rw [List.length_append]; omega),
        getElem!_pos ((name83 (files[i]!).1).1 ++ (name83 (files[i]!).1).2) t
          (by rw [List.length_append]; omega),
        List.getElem_append_left (by omega), Char.ofNat_toNat]
  have hext : (List.range 3).map
      (fun c => Char.ofNat (imgF.getD (geo.rootDirStart + i * 32 + 8 + c)))
      = (name83 (files[i]!).1).2 := by
    apply List.ext_getElem
    · rw [List.length_map, List.length_range, hl2]
    · intro t h1 h2
      rw [List.length_map, List.length_range] at h1
      rw [List.getElem_map, List.getElem_range,
        show geo.rootDirStart + i * 32 + 8 + t
          = geo.rootDirStart + i * 32 + (8 + t) from by omega,
        hinvF.dir_name i hi (8 + t) (by omega),
        getElem!_map_toNat _ _ (by rw [List.length_append]; omega),
        getElem!_pos ((name83 (files[i]!).1).1 ++ (name83 (files[i]!).1).2) (8 + t)
          (by rw [List.length_append]; omega),
        List.getElem_append_right (by omega), Char.ofNat_toNat]
      congr 1
      omega
  unfold slotFullName
  dsimp only
  rw [hname, hext]
  obtain ⟨hlen12, ⟨hb1, hb8, hbc⟩, hextv⟩ := id hv
  have hbne : (splitOnDot (files[i]!).1).getD 0 [] ≠ [] := by
    intro hh
    rw [hh] at hb1
    simp at hb1
  have hn1 : (name83 (files[i]!).1).1
      = padEnd 8 ' ' ((splitOnDot (files[i]!).1).getD 0 []) := by
    rw [name83_valid hv]
  have hn2 : (name83 (files[i]!).1).2
      = padEnd 3 ' ' ((splitOnDot (files[i]!).1).getD 1 []) := by
    rw [name83_valid hv]
  rw [hn1, hn2, trimEnd_padEnd 8 hbne hbc]
  rcases hlen12 with hone | htwo
  · rw [List.getD_eq_default _ _ (by omega), trimEnd_padEnd_nil 3]
    rw [if_neg (by simp)]
    conv_rhs => rw [← joinDots_splitOnDot (files[i]!).1,
      list_len1_eq (splitOnDot (files[i]!).1) [] hone]
    rfl
  · obtain ⟨he1, _, hec⟩ := hextv htwo
    have hene : (splitOnDot (files[i]!).1).getD 1 [] ≠ [] := by
      intro hh
      rw [hh] at he1
      simp at he1
    rw [trimEnd_padEnd 3 hene hec, if_pos hene]
    conv_rhs => rw [← joinDots_splitOnDot (files[i]!).1,
      list_len2_eq (splitOnDot (files[i]!).1) [] htwo]
    rfl

theorem rt_extract (geo : Geometry) (img0 imgF : Image)
    (files : List (List Char × List Nat))
    (hG : GeoOk geo img0) (hF : FilesOk geo files)
    (hinvF : RTInv geo img0 imgF files files.length) :
    ∀ (n i : Nat), i + n = geo.rootDirEntries → i ≤ files.length →
      extractFilesAux imgF geo n i = some (files.drop i) := by
  have hlay2 := hG.lay2
  have hlay3 := hG.lay3
  have hadq := hG.adq
  have ht65 := hG.t65526
  have hcnt := hF.cnt
  have hdlen0 := hG.dlen
  have hlenF : imgF.len = img0.len := hinvF.len_eq
  have hzzz : 0 ≤ ((geo.totalClusters + 1).toNat - 1) * geo.bytesPerCluster :=
    Nat.zero_le _
  have hrde_img : geo.rootDirStart + geo.rootDirEntries * 32 ≤ imgF.len := by omega
  intro n
  induction n with
  | zero =>
    intro i hirde hile
    have hie : i = files.length := by omega
    subst hie
    rw [List.drop_length]
    rfl
  | succ m ih =>
    intro i hirde hile
    by_cases hilt : i < files.length
    · -- occupied slot
      have hmem : files[i]! ∈ files := by
        rw [getElem!_pos files i hilt]
        exact List.getElem_mem hilt
      have hv := hF.val _ hmem
      have hS2 : 2 ≤ startOf geo files i := Nat.le_add_right 2 _
      have hK1 : 1 ≤ needK geo (files[i]!).2 := needK_pos geo _
      have hfit1 : startOf geo files (i + 1) ≤ (geo.totalClusters + 1).toNat + 1 :=
        le_trans (startOf_mono geo files (i + 1) files.length (by omega) (le_refl _))
          hF.fit
      have hsucc : startOf geo files (i + 1)
          = startOf geo files i + needK geo (files[i]!).2 :=
        startOf_succ geo files i hilt
      have hirde2 : i < geo.rootDirEntries := by omega
      have hb0 := hinvF.dir_name i hilt 0 (by omega)
      rw [Nat.add_zero] at hb0
      have hcode := name83_first_code hv
      have hcodes0 : ((((name83 (files[i]!).1).1 ++ (name83 (files[i]!).1).2).map
          Char.toNat))[0]! = ((name83 (files[i]!).1).1[0]!).toNat := by
        have hl1 := name83_len1 (files[i]!).1
        rw [getElem!_map_toNat _ _ (by rw [List.length_append]; omega),
          getElem!_pos ((name83 (files[i]!).1).1 ++ (name83 (files[i]!).1).2) 0
            (by rw [List.length_append]; omega),
          List.getElem_append_left (by omega),
          getElem!_pos (name83 (files[i]!).1).1 0 (by omega)]
      have hget0 : imgF.get? (geo.rootDirStart + i * 32)
          = some (((name83 (files[i]!).1).1[0]!).toNat) := by
        rw [Image.get?_eq_some_getD _ _ (by omega), hb0, hcodes0]
      have hattr : imgF.getD (geo.rootDirStart + i * 32 + 11) = 32 :=
        hinvF.dir_attr i hilt
      have hattrq : imgF.get? (geo.rootDirStart + i * 32 + 11) = some 32 := by
        rw [Image.get?_eq_some_getD _ _ (by omega), hattr]
      have hfc1 := (hinvF.dir_fc i hilt).1
      have hfc2 := (hinvF.dir_fc i hilt).2
      have hSlt : startOf geo files i < 65536 := by omega
      have hsz := hinvF.dir_sz i hilt
      have hszlen := hF.sz _ hmem
      have hu32 : imgF.readU32 (geo.rootDirStart + i * 32 + 28)
          = some ((files[i]!).2.length) := by
        rw [Image.readU32_some (by omega)]
        congr 1
        unfold Image.getW32
        rw [show geo.rootDirStart + i * 32 + 28 + 1
            = geo.rootDirStart + i * 32 + 29 from by omega,
          show geo.rootDirStart + i * 32 + 28 + 2
            = geo.rootDirStart + i * 32 + 30 from by omega,
          show geo.rootDirStart + i * 32 + 28 + 3
            = geo.rootDirStart + i * 32 + 31 from by omega,
          hsz.1, hsz.2.1, hsz.2.2.1, hsz.2.2.2]
        omega
      have hchain : chainWalk imgF geo (geo.totalClusters + 2).toNat
          (startOf geo files i)
          = List.range' (startOf geo files i) (needK geo (files[i]!).2) :=
        chainWalk_range' imgF geo hG.ft (needK geo (files[i]!).2)
          (startOf geo files i) ((geo.totalClusters + 2).toNat) hK1
          (hinvF.fat_link i hilt) (hinvF.fat_eof i hilt) hS2 (by omega) (by omega)
      have hlenpos : 0 < (files[i]!).2.length :=
        List.length_pos.mpr (hF.nonnil _ hmem)
      unfold extractFilesAux
      dsimp only
      rw [if_neg (by rw [hget0]; intro hc; rw [Option.some_inj] at hc; omega),
        if_neg (by rw [hget0]; intro hc; rw [Option.some_inj] at hc; omega),
        if_neg (by rw [hattrq, hattr]; decide),
        hfc1, hfc2,
        show startOf geo files i % 256 + 256 * (startOf geo files i / 256 % 256)
          = startOf geo files i from by omega,
        hu32]
      dsimp only
      rw [if_neg (by omega), hchain, List.length_range',
        if_pos ⟨hlenpos, needK_mul_ge geo (files[i]!).2 hG.bpc_pos⟩,
        rt_read_data geo img0 imgF files i hG hF hinvF hilt,
        rt_slot_name geo img0 imgF files i hF hinvF hilt,
        ih (i + 1) (by omega) (by omega)]
      rw [Option.map_some']
      conv_rhs => rw [List.drop_eq_getElem_cons hilt]
      rw [getElem!_pos files i hilt]
    · -- free slot at and after files.length
      have hie : i = files.length := by omega
      subst hie
      have hfree0 : imgF.get? (geo.rootDirStart + files.length * 32) = some 0 := by
        rw [Image.get?_eq_some_getD _ _ (by omega)]
        rw [hinvF.dir_free (geo.rootDirStart + files.length * 32) (le_refl _)
          (by omega)]
      unfold extractFilesAux
      dsimp only
      rw [if_pos hfree0, List.drop_length]

/-! ## C2: blank-state facts of the created image -/

theorem fatHeaderImage_getD_zero (sizeMB k : Nat)
    (h1 : ¬ (63 * 512 + 512 ≤ k ∧ k ≤ 63 * 512 + 512 + 3))
    (h2 : ¬ (63 * 512 + 512
        + (calcGeometry ((sizeMB * 2048 - 63 : Nat) : Int)).sectorsPerFAT * 512 ≤ k ∧
      k ≤ 63 * 512 + 512
        + (calcGeometry ((sizeMB * 2048 - 63 : Nat) : Int)).sectorsPerFAT * 512 + 3)) :
    (fatHeaderImage sizeMB).getD k = 0 := by
  unfold fatHeaderImage
  iterate 8 rw [Image.setB_getD_ne _ _ _ _ (by omega)]
  unfold Image.getD
  dsimp only
  split <;> rfl

theorem blank4_dir_zero : ∀ k, (blankGeo 4).rootDirStart ≤ k →
    k < (blankGeo 4).rootDirStart + (blankGeo 4).rootDirEntries * 32 →
    (createBlankImage 4 0).getD k = 0 := by
  intro k h1 h2
  have hr1 : (blankGeo 4).rootDirStart = 65536 := by decide
  have hr2 : (blankGeo 4).rootDirEntries = 512 := by decide
  rw [hr1] at h1 h2
  rw [hr2] at h2
  rw [createBlankImage_getD_ge 4 0 k (by omega)]
  have hspf : (calcGeometry ((4 * 2048 - 63 : Nat) : Int)).sectorsPerFAT = 32 := by
    decide
  refine fatHeaderImage_getD_zero 4 k (by omega) ?_
  rw [hspf]
  omega

theorem blank4_fat_zero : ∀ c, 2 ≤ c → c ≤ ((blankGeo 4).totalClusters + 1).toNat →
    readFATEntry (createBlankImage 4 0) (blankGeo 4) c = 0 := by
  intro c h1 h2
  have hT : ((blankGeo 4).totalClusters + 1).toNat = 8033 := by decide
  have hfs : (blankGeo 4).fatStart = 32768 := by decide
  have hft : ¬ (blankGeo 4).fatType = 12 := by decide
  have hspf : (calcGeometry ((4 * 2048 - 63 : Nat) : Int)).sectorsPerFAT = 32 := by
    decide
  rw [hT] at h2
  rw [readFATEntry_eq16 _ _ _ hft, hfs,
    createBlankImage_getD_ge 4 0 _ (by omega), createBlankImage_getD_ge 4 0 _ (by omega),
    fatHeaderImage_getD_zero 4 _ (by omega) (by rw [hspf]; omega),
    fatHeaderImage_getD_zero 4 _ (by omega) (by rw [hspf]; omega)]

/-- C2 (amended): on any image whose parsed FAT16 geometry has the
standard blank layout with blank root directory and FAT, writing any
batch of files with pairwise-distinct valid 8.3 names and nonempty
payloads below 2^32 bytes succeeds file by file, and
`extractFilesFromImage` on the resulting image returns exactly those
files, byte-identical and with their exact original lengths.  (As
stated the claim is false for empty files: a zero directory size makes
the extractor fall back to whole-cluster data — see the
counterexample.) -/
theorem blank_write_roundtrip (geo : Geometry) (img0 : Image)
    (files : List (List Char × List Nat))
    (hgeo : parseGeometry img0 = some (some geo))
    (hscan : (if hasMBR img0 then scanPartsAux img0 0 4 else 0) + 36 ≤ geo.fatStart)
    (hG : GeoOk geo img0) (hF : FilesOk geo files)
    (hdir0 : ∀ k, geo.rootDirStart ≤ k →
      k < geo.rootDirStart + geo.rootDirEntries * 32 → img0.getD k = 0)
    (hfat0 : ∀ c, 2 ≤ c → c ≤ (geo.totalClusters + 1).toNat →
      readFATEntry img0 geo c = 0) :
    writeSeqOk geo img0 files ∧
    extractFilesFromImage (writeSeq geo img0 files) = some files := by
  have hinv0 : RTInv geo img0 img0 files 0 := by
    refine ⟨Nat.zero_le _, rfl, fun k _ => rfl, ?_, ?_, ?_, ?_, ?_, ?_, ?_, ?_, ?_⟩
    · intro j hj; omega
    · intro j hj; omega
    · intro j hj; omega
    · intro j hj; omega
    · intro k hk1 hk2
      exact hdir0 k (by omega) hk2
    · intro j hj; omega
    · intro j hj; omega
    · intro c hc1 hc2
      have h0 : startOf geo files 0 = 2 := rfl
      exact hfat0 c (by omega) hc2
    · intro j hj; omega
  obtain ⟨hok, hinvF⟩ := rt_fold geo img0 files hG hF files.length 0 img0 (by omega) hinv0
  simp only [List.drop_zero] at hok hinvF
  refine ⟨hok, ?_⟩
  have hparse : parseGeometry (writeSeq geo img0 files) = parseGeometry img0 :=
    parseGeometry_congr_lt hinvF.len_eq hinvF.low_eq hG.fs512 hscan
  unfold extractFilesFromImage
  rw [hparse, hgeo]
  dsimp only
  rw [rt_extract geo img0 (writeSeq geo img0 files) files hG hF hinvF
    geo.rootDirEntries 0 (by omega) (Nat.zero_le _)]
  rw [List.drop_zero]

set_option maxRecDepth 2000 in
set_option maxHeartbeats 4000000 in
/-- Witness for C2: a 4 MB blank image, one file `A.TXT` holding the
byte `A`. -/
theorem blank_write_roundtrip_witness :
    writeSeqOk (blankGeo 4) (createBlankImage 4 0)
      [(['A', '.', 'T', 'X', 'T'], [65])] ∧
    extractFilesFromImage (writeSeq (blankGeo 4) (createBlankImage 4 0)
      [(['A', '.', 'T', 'X', 'T'], [65])])
      = some [(['A', '.', 'T', 'X', 'T'], [65])] :=
  blank_write_roundtrip (blankGeo 4) (createBlankImage 4 0)
    [(['A', '.', 'T', 'X', 'T'], [65])]
    (by decide) (by decide)
    (GeoOk.mk (by decide) (by decide) (by decide) (by decide) (by decide) (by decide)
      (by decide) (by decide) (by decide))
    (FilesOk.mk (by decide) (by decide) (by decide) (by decide) (by decide) (by decide)
      (by decide))
    blank4_dir_zero blank4_fat_zero

set_option maxRecDepth 4000 in
set_option maxHeartbeats 16000000 in
/-- C2 counterexample: writing an empty file into a blank FAT16 volume
succeeds, but the extractor reads it back as one whole cluster of NUL
bytes — the zero directory size makes it fall back to the chain's byte
count — so the original sizes are not reproduced for empty files. -/
theorem roundtrip_fails_empty_file :
    parseGeometry cimg3w = some (some cgeo3w) ∧
    (writeFileToImage cimg3w cgeo3w ['A', '.', 'T', 'X', 'T'] []).1 = true ∧
    extractFilesFromImage
        (writeFileToImage cimg3w cgeo3w ['A', '.', 'T', 'X', 'T'] []).2
      = some [(['A', '.', 'T', 'X', 'T'], List.replicate 512 0)] ∧
    List.replicate 512 0 ≠ ([] : List Nat) :=
  ⟨by decide, by decide, by decide, by decide⟩
